import Mathlib

/-! # nebulant-cli: a verification development

A shallow embedding of the parts of `nebulant-cli` that its specification talks
about, and theorems about them.

* `base/actors.go`      : `ActionOutput`, `StorageRecord`, `NewActionOutput`
* `nsterm/raw_ldisc.go` : `RawLdisc` and its two relay calls
* `ipc/ipc_windows.go`  : the attach client `Read`
* `providers/...`       : the provider run functions

Conventions of the embedding.

* A Go `string` is a sequence of bytes (`GoString`); `""` is `[]`.
* A Go pointer that may be `nil` is an `Option`.
* Objects that point at each other (an `ActionOutput` and its records) live in
  a `Heap`; a pointer to such an object is its address in the heap.
* A Go call either returns or panics (`Outcome`).
-/

namespace Nebulant

/-! ## Go basics -/

/-- A Go `byte`. -/
abbrev Byte := UInt8

/-- A Go `string`: an immutable sequence of bytes. -/
abbrev GoString := List Byte

/-- The bytes of an ASCII literal of the source. -/
def lit (s : String) : GoString := s.toList.map (fun c => c.toNat.toUInt8)

/-- Go `error` values. `EOF`, `ErrShortWrite` and `errInvalidWrite` are the
sentinels of package `io`; `errorf` is `fmt.Errorf` of a literal, `errorfv` is
`fmt.Errorf` of a format with one `%v` argument, `join` is `errors.Join` of two
errors; `numError` is the `*strconv.NumError` of `ParseInt` for the text `num`,
with `ErrRange` when `range` and `ErrSyntax` otherwise; `ext` stands for an
error value made by an external collaborator (the operating system, the
network, a decoder, the store, a cloud SDK). -/
inductive GoError where
  | EOF
  | ErrShortWrite
  | errInvalidWrite
  | errorf (msg : String)
  | errorfv (fmt : String) (arg : GoString)
  | join (a b : GoError)
  | numError (num : GoString) (range : Bool)
  | ext (code : Nat)
deriving DecidableEq, Repr

/-- How a Go call ends: it returns a value, or it panics. -/
inductive Outcome (α : Type) where
  | ret (a : α)
  | panic (reason : String)
deriving DecidableEq, Repr

/-! ## `base/actors.go` -/

/-- Modelled from the spec: the struct `blueprint.Action`, declared in a package
that is not among the sources ("provider id, raw parameters, optional output
ref name, unique action id"). `Output` is a `*string`, `Parameters` a
`json.RawMessage`; these are the fields the code under study reads. -/
structure Action where
  ActionID : GoString
  Provider : GoString
  Output : Option GoString
  Parameters : List Byte
deriving DecidableEq, Repr

/-- An address in a heap. -/
abbrev Ptr := Nat

/-- The struct `ActionOutput`: `Action *blueprint.Action`, `Records []*StorageRecord`. -/
structure ActionOutput where
  Action : Option Action
  Records : List Ptr
deriving DecidableEq, Repr

/-- Modelled from the spec: the struct `StorageRecord`, declared in a file of
package `base` that is not among the sources; the fields are the ones
`NewActionOutput` sets (the spec's `action`, `rawSource`, `value`, `valueID`,
`refName`, `ownerOutput`). `Aout` is the pointer back to the owning output. -/
structure StorageRecord (Val : Type) where
  Action : Option Action
  RawSource : Val
  Value : Val
  ValueID : GoString
  RefName : GoString
  Aout : Option Ptr
deriving DecidableEq, Repr

/-- The allocated `ActionOutput` and `StorageRecord` objects; a pointer is an
index into the matching list. -/
structure Heap (Val : Type) where
  outputs : List ActionOutput
  records : List (StorageRecord Val)
deriving Repr

/-- The empty heap. -/
def Heap.empty {Val : Type} : Heap Val := ⟨[], []⟩

/-- Allocation `&ActionOutput{...}`: the new object goes at the end. -/
def Heap.allocOutput {Val : Type} (h : Heap Val) (o : ActionOutput) : Heap Val × Ptr :=
  ({ h with outputs := h.outputs ++ [o] }, h.outputs.length)

/-- Allocation `&StorageRecord{...}`. -/
def Heap.allocRecord {Val : Type} (h : Heap Val) (r : StorageRecord Val) : Heap Val × Ptr :=
  ({ h with records := h.records ++ [r] }, h.records.length)

/-- Dereference of an `*ActionOutput`. -/
def Heap.output? {Val : Type} (h : Heap Val) (p : Ptr) : Option ActionOutput :=
  h.outputs.get? p

/-- Dereference of a `*StorageRecord`. -/
def Heap.record? {Val : Type} (h : Heap Val) (p : Ptr) : Option (StorageRecord Val) :=
  h.records.get? p

/-- In-place update of the object an `*ActionOutput` points to. -/
def Heap.modifyOutput {Val : Type} (h : Heap Val) (p : Ptr) (f : ActionOutput → ActionOutput) :
    Heap Val :=
  { h with outputs := h.outputs.modify f p }

/-- In-place update of the object a `*StorageRecord` points to. -/
def Heap.modifyRecord {Val : Type} (h : Heap Val) (p : Ptr)
    (f : StorageRecord Val → StorageRecord Val) : Heap Val :=
  { h with records := h.records.modify f p }

/-- The function `NewActionOutput(action, storageRecordValue, storageRecordValueID)`.

```go
aout := &ActionOutput{Action: action}
record := &StorageRecord{Action: action, RawSource: v, Value: v, Aout: aout}
if storageRecordValueID != nil { record.ValueID = *storageRecordValueID }
if action.Output != nil { record.RefName = *action.Output }
aout.Records = append(aout.Records, record)
return aout
```

`action.Output` dereferences `action`, so a `nil` action panics there (after
both allocations). -/
def NewActionOutput {Val : Type} (h : Heap Val) (action : Option Action)
    (storageRecordValue : Val) (storageRecordValueID : Option GoString) :
    Outcome Ptr × Heap Val :=
  let (h1, aout) := h.allocOutput { Action := action, Records := [] }
  let (h2, record) := h1.allocRecord
    { Action := action, RawSource := storageRecordValue, Value := storageRecordValue,
      ValueID := [], RefName := [], Aout := some aout }
  let h3 := match storageRecordValueID with
    | some id => h2.modifyRecord record (fun r => { r with ValueID := id })
    | none => h2
  match action with
  | none => (.panic "nil pointer dereference", h3)
  | some a =>
    let h4 := match a.Output with
      | some out => h3.modifyRecord record (fun r => { r with RefName := out })
      | none => h3
    let h5 := h4.modifyOutput aout (fun o => { o with Records := o.Records ++ [record] })
    (.ret aout, h5)

/-- The first record pointer of the output at `p` (`p.Records[0]`). -/
def Heap.firstRecord {Val : Type} (h : Heap Val) (p : Ptr) : Option Ptr :=
  (h.output? p).bind (fun o => o.Records.head?)

/-- The owner pointer of the record at `r` (`r.Aout`). -/
def Heap.owner {Val : Type} (h : Heap Val) (r : Ptr) : Option Ptr :=
  (h.record? r).bind (fun rec => rec.Aout)

/-! ## Package `io` of the Go standard library, as far as `io.CopyN` needs it -/

/-- One scripted answer of an endpoint to `Read`: the bytes it delivers and the
error it reports with them (`nil` when `err` is `none`). -/
structure ReadEv where
  data : List Byte
  err : Option GoError
deriving DecidableEq, Repr

/-- One scripted answer of an endpoint to `Write(p)`: it takes the first
`accept` bytes of `p` (all of `p` when `p` is shorter) and reports `err`. -/
structure WriteEv where
  accept : Nat
  err : Option GoError
deriving DecidableEq, Repr

/-- An endpoint behind an `io.ReadWriteCloser`.

* `rscript`: what the next calls of `Read` deliver, in order; a call with a
  buffer shorter than the head's data gets a buffer-full of it without the
  error, the rest stays for the next call. Past the script `Read` answers
  `0, io.EOF`.
* `wscript`: how the next calls of `Write` behave, in order. Past the script
  every `Write` takes all of its bytes and reports no error.
* `wbuf`: the bytes the endpoint has taken from `Write` so far, in order; this
  is what the far side of the endpoint gets to read. -/
structure FD where
  rscript : List ReadEv
  wscript : List WriteEv
  wbuf : List Byte
deriving DecidableEq, Repr

/-- The method `Read(p)` with `len(p) = n`: the bytes put in `p[0:k]` and the error. -/
def FD.Read (fd : FD) (n : Nat) : (List Byte × Option GoError) × FD :=
  match fd.rscript with
  | [] => (([], some .EOF), fd)
  | ev :: rest =>
    if ev.data.length ≤ n then ((ev.data, ev.err), { fd with rscript := rest })
    else ((ev.data.take n, none),
          { fd with rscript := { ev with data := ev.data.drop n } :: rest })

/-- The method `Write(p)`: the count it returns, the error, and the endpoint afterwards. -/
def FD.Write (fd : FD) (p : List Byte) : (Int × Option GoError) × FD :=
  match fd.wscript with
  | [] => ((p.length, none), { fd with wbuf := fd.wbuf ++ p })
  | ev :: rest =>
    ((((min ev.accept p.length : Nat) : Int), ev.err),
     { fd with wscript := rest, wbuf := fd.wbuf ++ p.take (min ev.accept p.length) })

/-- The struct `io.LimitedReader`: `R` is the underlying reader (an interface value,
`nil` when unset), `N` the bytes remaining. -/
structure LimitedReader where
  R : Option FD
  N : Int
deriving DecidableEq, Repr

/-- The method `(*LimitedReader).Read(p)` with `len(p) = n`.

```go
if l.N <= 0 { return 0, EOF }
if int64(len(p)) > l.N { p = p[0:l.N] }
n, err = l.R.Read(p)
l.N -= int64(n)
```
-/
def LimitedReader.Read (l : LimitedReader) (n : Nat) :
    Outcome (List Byte × Option GoError) × LimitedReader :=
  if l.N ≤ 0 then (.ret ([], some .EOF), l)
  else
    let m : Nat := if (n : Int) > l.N then l.N.toNat else n
    match l.R with
    | none => (.panic "nil pointer dereference", l)
    | some fd =>
      let (res, fd1) := fd.Read m
      (.ret res, { R := some fd1, N := l.N - (res.1.length : Int) })

/-- The variables of the loop of `io.copyBuffer`. -/
structure CopyState where
  dst : Option FD
  src : LimitedReader
  written : Int
deriving DecidableEq, Repr

/-- What `io.Copy` hands back: `written`, `err`. -/
abbrev CopyRet := Int × Option GoError

/-- One turn of a loop: go round again, or leave with a result. -/
inductive LoopStep (σ ρ : Type) where
  | again (s : σ)
  | leave (r : ρ)

/-- One turn of the loop of `io.copyBuffer`, with a buffer of `size` bytes.

```go
nr, er := src.Read(buf)
if nr > 0 {
  nw, ew := dst.Write(buf[0:nr])
  if nw < 0 || nr < nw { nw = 0; if ew == nil { ew = errInvalidWrite } }
  written += int64(nw)
  if ew != nil { err = ew; break }
  if nr != nw { err = ErrShortWrite; break }
}
if er != nil { if er != EOF { err = er }; break }
```
-/
def copyStep (size : Nat) (st : CopyState) :
    LoopStep CopyState (Outcome CopyRet × CopyState) :=
  match st.src.Read size with
  | (.panic msg, src1) => .leave (.panic msg, { st with src := src1 })
  | (.ret (buf, er), src1) =>
    let afterWrite : LoopStep CopyState (Outcome CopyRet × CopyState) :=
      if 0 < buf.length then
        match st.dst with
        | none => .leave (.panic "nil pointer dereference", { st with src := src1 })
        | some d =>
          let (res, d1) := d.Write buf
          let bad : Bool := decide (res.1 < 0) || decide ((buf.length : Int) < res.1)
          let nw : Int := if bad then 0 else res.1
          let ew : Option GoError :=
            if bad then (if res.2 = none then some .errInvalidWrite else res.2) else res.2
          let st1 : CopyState := { dst := some d1, src := src1, written := st.written + nw }
          match ew with
          | some e => .leave (.ret (st1.written, some e), st1)
          | none =>
            if (buf.length : Int) ≠ nw then .leave (.ret (st1.written, some .ErrShortWrite), st1)
            else .again st1
      else .again { st with src := src1 }
    match afterWrite with
    | .leave r => .leave r
    | .again st1 =>
      match er with
      | some e => .leave (.ret (st1.written, if e = .EOF then none else some e), st1)
      | none => .again st1

/-- The loop `for { ... }` of `io.copyBuffer`, run for at most `fuel` turns;
`none` when the turns are used up before the loop is left. -/
def copyLoop (size : Nat) : Nat → CopyState → Option (Outcome CopyRet × CopyState)
  | 0, _ => none
  | fuel + 1, st =>
    match copyStep size st with
    | .leave r => some r
    | .again st1 => copyLoop size fuel st1

/-- The call `io.Copy(dst, LimitReader(src, n))` as `io.CopyN` makes it. The source is a
`*LimitedReader`, which has no `WriteTo`; the destination is taken to have no
`ReadFrom` of its own, so the copy goes through the buffer loop.

```go
size := 32 * 1024
if l, ok := src.(*LimitedReader); ok && int64(size) > l.N {
  if l.N < 1 { size = 1 } else { size = int(l.N) }
}
buf = make([]byte, size)
```
-/
def Copy (fuel : Nat) (dst : Option FD) (src : LimitedReader) :
    Option (Outcome CopyRet × CopyState) :=
  let size : Nat :=
    if ((32 * 1024 : Nat) : Int) > src.N then (if src.N < 1 then 1 else src.N.toNat)
    else 32 * 1024
  copyLoop size fuel { dst := dst, src := src, written := 0 }

/-- The function `io.CopyN(dst, src, n)`.

```go
written, err = Copy(dst, LimitReader(src, n))
if written == n { return n, nil }
if written < n && err == nil { err = EOF }
return
```

The result carries the two endpoints as the call leaves them. -/
def CopyN (fuel : Nat) (dst src : Option FD) (n : Int) :
    Option (Outcome CopyRet × Option FD × Option FD) :=
  match Copy fuel dst { R := src, N := n } with
  | none => none
  | some (.panic msg, st) => some (.panic msg, st.dst, st.src.R)
  | some (.ret (written, err), st) =>
    if written = n then some (.ret (n, none), st.dst, st.src.R)
    else if written < n ∧ err = none then some (.ret (written, some .EOF), st.dst, st.src.R)
    else some (.ret (written, err), st.dst, st.src.R)

/-! ## `nsterm/raw_ldisc.go` -/

/-- The struct `RawLdisc`: the two endpoints (interface values, `nil` until
set) and the list of errors met so far. -/
structure RawLdisc where
  mustarFD : Option FD
  sluvaFD : Option FD
  errs : List GoError
deriving DecidableEq, Repr

/-- The constructor `NewRawLdisc()`. -/
def NewRawLdisc : RawLdisc := { mustarFD := none, sluvaFD := none, errs := [] }

/-- The method `SetMustarFD(fd)`. -/
def RawLdisc.SetMustarFD (r : RawLdisc) (fd : Option FD) : RawLdisc := { r with mustarFD := fd }

/-- The method `SetSluvaFD(fd)`. -/
def RawLdisc.SetSluvaFD (r : RawLdisc) (fd : Option FD) : RawLdisc := { r with sluvaFD := fd }

/-- The method `ReceiveMustarBuff(n)`: mustar to sluva.

```go
_, err := io.CopyN(r.sluvaFD, r.mustarFD, int64(n))
if err != nil { r.errs = append(r.errs, err) }
```
-/
def RawLdisc.ReceiveMustarBuff (fuel : Nat) (r : RawLdisc) (n : Int) :
    Option (Outcome Unit × RawLdisc) :=
  match CopyN fuel r.sluvaFD r.mustarFD n with
  | none => none
  | some (.panic msg, dst, src) => some (.panic msg, { r with sluvaFD := dst, mustarFD := src })
  | some (.ret (_, err), dst, src) =>
    match err with
    | some e => some (.ret (), { sluvaFD := dst, mustarFD := src, errs := r.errs ++ [e] })
    | none => some (.ret (), { r with sluvaFD := dst, mustarFD := src })

/-- The method `ReceiveSluvaBuff(n)`: sluva to mustar.

```go
_, err := io.CopyN(r.mustarFD, r.sluvaFD, int64(n))
if err != nil { r.errs = append(r.errs, err); return }
```
-/
def RawLdisc.ReceiveSluvaBuff (fuel : Nat) (r : RawLdisc) (n : Int) :
    Option (Outcome Unit × RawLdisc) :=
  match CopyN fuel r.mustarFD r.sluvaFD n with
  | none => none
  | some (.panic msg, dst, src) => some (.panic msg, { r with mustarFD := dst, sluvaFD := src })
  | some (.ret (_, err), dst, src) =>
    match err with
    | some e => some (.ret (), { mustarFD := dst, sluvaFD := src, errs := r.errs ++ [e] })
    | none => some (.ret (), { r with mustarFD := dst, sluvaFD := src })

/-- All the bytes a read script still holds, in order. -/
def pending (s : List ReadEv) : List Byte := (s.map (fun ev => ev.data)).flatten

/-- The bytes a read script delivers before it reports an error: the data of
its events up to and with the first event that carries an error. -/
def readable : List ReadEv → List Byte
  | [] => []
  | ev :: rest =>
    match ev.err with
    | none => ev.data ++ readable rest
    | some _ => ev.data

/-- A number of loop turns that is enough for any transfer from a read script:
every turn that does not leave the loop takes an event or at least one byte
off the script. -/
def turns : List ReadEv → Nat
  | [] => 1
  | ev :: rest => ev.data.length + 1 + turns rest

/-! ## `ipc/ipc_windows.go` -/

/-- What the attach client does to the named pipe, in order: `winio.DialPipe`
with a path, `Write` with the bytes handed over, `Read` with the length of the
buffer handed over, `Close`. -/
inductive ConnOp where
  | Dial (path : GoString)
  | Write (p : List Byte)
  | Read (len : Nat)
  | Close
deriving DecidableEq, Repr

/-- Whether an operation is a `Write`. -/
def ConnOp.isWrite : ConnOp → Bool
  | .Write _ => true
  | _ => false

/-- Whether an operation is a `Read`. -/
def ConnOp.isRead : ConnOp → Bool
  | .Read _ => true
  | _ => false

/-- What a call of the attach client leaves behind: the two values it returns,
the operations it made, and the connection as it left it (`none` when the dial
failed). -/
structure ReadResult where
  ret : GoString × Option GoError
  ops : List ConnOp
  conn : Option FD
deriving DecidableEq, Repr

/-- The function `Read(ipsid, ipcid, msg)` of package `ipc`. `DialPipe` stands for
`winio.DialPipe(path, nil)`: the connection behind a path, or the error of the
dial. The deferred `c.Close()` runs on every return after a successful dial.

```go
path := `\\.\pipe\` + "ipc_" + ipsid
c, err := winio.DialPipe(path, nil)
if err != nil { return "", err }
defer c.Close()
_, err = c.Write([]byte(ipsid + " " + ipcid + " " + msg))
if err != nil { return "", err }
buf := make([]byte, 1024)
n, err := c.Read(buf[:])
if err != nil { return "", err }
return string(buf[0:n]), nil
```
-/
def Read (DialPipe : GoString → Except GoError FD) (ipsid ipcid msg : GoString) : ReadResult :=
  let path := lit "\\\\.\\pipe\\" ++ lit "ipc_" ++ ipsid
  match DialPipe path with
  | .error err => { ret := ([], some err), ops := [.Dial path], conn := none }
  | .ok c =>
    let frame := ipsid ++ lit " " ++ ipcid ++ lit " " ++ msg
    let (wres, c1) := c.Write frame
    match wres.2 with
    | some err =>
      { ret := ([], some err), ops := [.Dial path, .Write frame, .Close], conn := some c1 }
    | none =>
      let (rres, c2) := c1.Read 1024
      match rres.2 with
      | some err =>
        { ret := ([], some err), ops := [.Dial path, .Write frame, .Read 1024, .Close],
          conn := some c2 }
      | none =>
        { ret := (rres.1, none), ops := [.Dial path, .Write frame, .Read 1024, .Close],
          conn := some c2 }

/-- A server connection that answers the first read with `pong`. -/
def pongServer : FD :=
  { rscript := [{ data := lit "pong", err := none }], wscript := [], wbuf := [] }

/-- A pipe namespace with one server, behind the path of session `s1`; the
server answers the first read with `pong`. -/
def onePipe (path : GoString) : Except GoError FD :=
  if path = lit "\\\\.\\pipe\\ipc_s1" then .ok pongServer else .error (.ext 2)

/-! ## Provider run functions: the world around them -/

/-- The content of a `json.RawMessage` or of a response body. -/
abbrev Blob := List Byte

/-- A value of a cloud SDK type none of whose fields the code reads; `data`
stands for its content, `[]` for the zero value. -/
structure SDKValue where
  data : List Byte
deriving DecidableEq, Repr

/-- The struct `hcloud.Firewall`: the `ID` and, in `Other`, the rest of its fields. -/
structure hcloud.Firewall where
  ID : Int
  Other : SDKValue
deriving DecidableEq, Repr

/-- The struct `hcloud.FirewallResourceServer`. -/
structure hcloud.FirewallResourceServer where
  ID : Int
deriving DecidableEq, Repr

/-- The struct `hcloud.FirewallResource`: `Type` (here `Type_`), `Server`, `LabelSelector`. -/
structure hcloud.FirewallResource where
  Type_ : GoString
  Server : Option hcloud.FirewallResourceServer
  LabelSelector : Option SDKValue
deriving DecidableEq, Repr

/-- The struct `hcFirewallResourceServerWrap`: the embedded pointer and `ID *string`. -/
structure hcFirewallResourceServerWrap where
  FirewallResourceServer : Option hcloud.FirewallResourceServer
  ID : Option GoString
deriving DecidableEq, Repr

/-- The struct `hcFirewallResourceWrap`: the embedded `*hcloud.FirewallResource`
and its own `Server`. -/
structure hcFirewallResourceWrap where
  FirewallResource : Option hcloud.FirewallResource
  Server : Option hcFirewallResourceServerWrap
deriving DecidableEq, Repr

/-- The struct `hcFirewallWrap`: the embedded `*hcloud.Firewall` and `ID *string`. -/
structure hcFirewallWrap where
  Firewall : Option hcloud.Firewall
  ID : Option GoString
deriving DecidableEq, Repr

/-- The struct `applyResourcesParameters`. -/
structure applyResourcesParameters where
  Resources : List hcFirewallResourceWrap
  Firewall : Option hcFirewallWrap
deriving DecidableEq, Repr

/-- The struct `removeResourcesParameters`. -/
structure removeResourcesParameters where
  Resources : List hcloud.FirewallResource
  Firewall : Option hcFirewallWrap
deriving DecidableEq, Repr

/-- The struct `setRulesParameters`; `Opts` is an `hcloud.FirewallSetRulesOpts`. -/
structure setRulesParameters where
  Opts : SDKValue
  Firewall : Option hcFirewallWrap
deriving DecidableEq, Repr

/-- The struct `findOneFirewallParameters`. -/
structure findOneFirewallParameters where
  ID : Option GoString
deriving DecidableEq, Repr

/-- The struct `schema.Firewall`: the `ID` and, in `Other`, the rest of its fields. -/
structure schema.Firewall where
  ID : Int
  Other : SDKValue
deriving DecidableEq, Repr

/-- The struct `schema.FirewallListResponse`. -/
structure schema.FirewallListResponse where
  Firewalls : List schema.Firewall
deriving DecidableEq, Repr

/-- The struct `FirewallListResponseWithMeta`: the embedded
`*schema.FirewallListResponse` and `Meta`. -/
structure FirewallListResponseWithMeta where
  FirewallListResponse : Option schema.FirewallListResponse
  Meta : SDKValue
deriving DecidableEq, Repr

/-- The struct `schema.FirewallGetResponse`. -/
structure schema.FirewallGetResponse where
  Firewall : schema.Firewall
deriving DecidableEq, Repr

/-- The struct `schema.ISO`: the `ID` and, in `Other`, the rest of its fields. -/
structure schema.ISO where
  ID : Int
  Other : SDKValue
deriving DecidableEq, Repr

/-- The struct `schema.ISOListResponse`. -/
structure schema.ISOListResponse where
  ISOs : List schema.ISO
deriving DecidableEq, Repr

/-- The struct `ISOListResponseWithMeta`: the embedded `*schema.ISOListResponse`
and `Meta`. -/
structure ISOListResponseWithMeta where
  ISOListResponse : Option schema.ISOListResponse
  Meta : SDKValue
deriving DecidableEq, Repr

/-- The struct `httpBodyMultiPart`. -/
structure httpBodyMultiPart where
  Name : Option GoString
  Value : Option GoString
  PType : GoString
  ContentType : Option GoString
deriving DecidableEq, Repr

/-- The struct `httpBodyUrlencoded`. -/
structure httpBodyUrlencoded where
  Name : Option GoString
  Value : Option GoString
deriving DecidableEq, Repr

/-- The struct `httpHeader`. -/
structure httpHeader where
  Key : Option GoString
  Value : Option GoString
deriving DecidableEq, Repr

/-- The struct `httpRequestParameters`; a slice of pointers is a list of options. -/
structure httpRequestParameters where
  Method : Option GoString
  Url : Option GoString
  Headers : List (Option httpHeader)
  BodyType : GoString
deriving DecidableEq, Repr

/-- The struct `httpRequestParametersMultiPartBody`. -/
structure httpRequestParametersMultiPartBody where
  MultipartBody : List (Option httpBodyMultiPart)
deriving DecidableEq, Repr

/-- The struct `httpRequestParametersUrlEncodedBody`. -/
structure httpRequestParametersUrlEncodedBody where
  UrlEncodedBody : List (Option httpBodyUrlencoded)
deriving DecidableEq, Repr

/-- The struct `httpRequestParametersRawBody`. -/
structure httpRequestParametersRawBody where
  RawBody : Option GoString
deriving DecidableEq, Repr

/-- The struct `httpRequestParametersBinaryBody`. -/
structure httpRequestParametersBinaryBody where
  BinaryBody : Option GoString
deriving DecidableEq, Repr

/-- The struct `httpRequestOutput`. -/
structure httpRequestOutput where
  Status : GoString
  StatusCode : Int
  Headers : GoString
  Body : GoString
deriving DecidableEq, Repr

/-- The constant `BodyTypeNone`. -/
def BodyTypeNone : GoString := lit "none"
/-- The constant `BodyTypeFormData`. -/
def BodyTypeFormData : GoString := lit "form-data"
/-- The constant `BodyTypeXWWWFormUrlencoded`. -/
def BodyTypeXWWWFormUrlencoded : GoString := lit "x-www-form-urlencoded"
/-- The constant `BodyTypeRaw`. -/
def BodyTypeRaw : GoString := lit "raw"
/-- The constant `BodyTypeBinary`. -/
def BodyTypeBinary : GoString := lit "binary"
/-- The constant `PartTypeText`. -/
def PartTypeText : GoString := lit "text"
/-- The constant `PartTypeFile`. -/
def PartTypeFile : GoString := lit "file"

/-- The Go types that parameters and cloud responses are decoded into. -/
inductive GoType where
  | FirewallCreateOpts
  | hcFirewallWrap
  | FirewallListOpts
  | findOneFirewallParameters
  | applyResourcesParameters
  | removeResourcesParameters
  | setRulesParameters
  | ISOListOpts
  | httpRequestParameters
  | httpRequestParametersMultiPartBody
  | httpRequestParametersUrlEncodedBody
  | httpRequestParametersRawBody
  | httpRequestParametersBinaryBody
  | FirewallCreateResponse
  | FirewallListResponseWithMeta
  | FirewallGetResponse
  | FirewallActionApplyToResourcesResponse
  | FirewallActionRemoveFromResourcesRequest
  | FirewallActionSetRulesResponse
  | ISOListResponseWithMeta
deriving DecidableEq, Repr

/-- The values of a Go type of the list. -/
def GoType.type : GoType → Type
  | .FirewallCreateOpts => SDKValue
  | .hcFirewallWrap => Nebulant.hcFirewallWrap
  | .FirewallListOpts => SDKValue
  | .findOneFirewallParameters => Nebulant.findOneFirewallParameters
  | .applyResourcesParameters => Nebulant.applyResourcesParameters
  | .removeResourcesParameters => Nebulant.removeResourcesParameters
  | .setRulesParameters => Nebulant.setRulesParameters
  | .ISOListOpts => SDKValue
  | .httpRequestParameters => Nebulant.httpRequestParameters
  | .httpRequestParametersMultiPartBody => Nebulant.httpRequestParametersMultiPartBody
  | .httpRequestParametersUrlEncodedBody => Nebulant.httpRequestParametersUrlEncodedBody
  | .httpRequestParametersRawBody => Nebulant.httpRequestParametersRawBody
  | .httpRequestParametersBinaryBody => Nebulant.httpRequestParametersBinaryBody
  | .FirewallCreateResponse => SDKValue
  | .FirewallListResponseWithMeta => Nebulant.FirewallListResponseWithMeta
  | .FirewallGetResponse => schema.FirewallGetResponse
  | .FirewallActionApplyToResourcesResponse => SDKValue
  | .FirewallActionRemoveFromResourcesRequest => SDKValue
  | .FirewallActionSetRulesResponse => SDKValue
  | .ISOListResponseWithMeta => Nebulant.ISOListResponseWithMeta

/-- What a run function stores in a record (an `interface{}`): `nil`, a pointer
to a decoded struct together with its Go type, an `httpRequestOutput`, or a
`schema.ISO`. -/
inductive Value where
  | nil
  | ptr (t : GoType) (v : t.type)
  | httpRequestOutput (o : Nebulant.httpRequestOutput)
  | ISO (i : schema.ISO)

/-- A call that a run function makes on the world around it; a call on the
store carries the error it returned. -/
inductive Call where
  | StoreInterpolate (err : Option GoError)
  | StoreDeepInterpolation (err : Option GoError)
  | HCloud (api : String)
  | HttpDo
  | OsOpen (path : GoString)
  | FileStat
  | FileReadAll
  | LogDebug
deriving DecidableEq, Repr

/-- Whether the call is one on the store. -/
def Call.isStore : Call → Bool
  | .StoreInterpolate _ => true
  | .StoreDeepInterpolation _ => true
  | _ => false

/-- Whether the call is a cloud API call. -/
def Call.isCloud : Call → Bool
  | .HCloud _ => true
  | _ => false

/-- Whether the call is a network request. -/
def Call.isNetwork : Call → Bool
  | .HttpDo => true
  | _ => false

/-- Whether the call is a filesystem access. -/
def Call.isFilesystem : Call → Bool
  | .OsOpen _ => true
  | .FileStat => true
  | .FileReadAll => true
  | _ => false

/-- A store call that returned the error `e`. -/
def Call.storeFailed (e : GoError) (c : Call) : Bool :=
  decide (c = .StoreInterpolate (some e)) || decide (c = .StoreDeepInterpolation (some e))

/-- The state a run function works on: the heap of outputs and records, and
the calls made so far, oldest first. -/
structure World where
  heap : Heap Value
  trace : List Call

/-- The world after one more call. -/
def World.log (w : World) (c : Call) : World := { w with trace := w.trace ++ [c] }

/-- A fresh world: nothing allocated, no call made. -/
def World.fresh : World := { heap := Heap.empty, trace := [] }

/-- What a run function hands back: `(*base.ActionOutput, error)`, or a panic. -/
abbrev Ret := Outcome (Option Ptr × Option GoError)

/-- Modelled from the spec: the interface `base.IStore`, declared in a file that is
not among the sources ("the variable-interpolation substrate"). `Interpolate`
takes a `*string` and rewrites the string it points to; `DeepInterpolation`
takes a pointer to a struct and rewrites it in place; both return an error.
Here each returns the rewritten value or the error. -/
structure IStore where
  Interpolate : Option GoString → Except GoError (Option GoString)
  DeepInterpolation : (t : GoType) → t.type → Except GoError t.type

/-- The body of an `*hcloud.Response`: what `io.ReadAll` gets from it. -/
structure hcloud.Response where
  Body : Except GoError Blob

/-- The methods of `*hcloud.Client` that the run functions call; each gives the
`*hcloud.Response` or the error of the call. -/
structure hcloud.Client where
  FirewallCreate : SDKValue → Except GoError hcloud.Response
  FirewallDelete : hcloud.Firewall → Option GoError
  FirewallList : SDKValue → Except GoError hcloud.Response
  FirewallGetByID : Int → Except GoError hcloud.Response
  FirewallApplyResources :
    hcloud.Firewall → List hcloud.FirewallResource → Except GoError hcloud.Response
  FirewallRemoveResources :
    hcloud.Firewall → List hcloud.FirewallResource → Except GoError hcloud.Response
  FirewallSetRules : hcloud.Firewall → SDKValue → Except GoError hcloud.Response
  ISOList : SDKValue → Except GoError hcloud.Response

/-- A header map (`http.Header`, `textproto.MIMEHeader`) whose keys hold one value each. -/
abbrev Header := List (GoString × GoString)

/-- An `*http.Request` as `http.NewRequest` and `Header.Set` leave it. -/
structure Request where
  Method : GoString
  Url : GoString
  Header : Nebulant.Header
  Body : Blob
deriving DecidableEq, Repr

/-- An `*http.Response`: `Body` is what reading `resp.Body` to its end gives. -/
structure Response where
  Status : GoString
  StatusCode : Int
  Header : Nebulant.Header
  ContentLength : Int
  Body : Except GoError Blob

/-- An `*os.File` opened for reading: what `Stat().Name()` and `ioutil.ReadAll` give. -/
structure File where
  Stat : Except GoError GoString
  ReadAll : Except GoError Blob

/-- The library functions and the outside world that the run functions use and
that are not part of the sources, as parameters.

* `jsonUnmarshal`: `encoding/json.Unmarshal` into a zero value of the type;
* `UnmarshalValidJSON`: `util.UnmarshalValidJSON` (package `util` of this
  repository, not among the sources) into a zero value of the type;
* `osOpen`: `os.Open`;
* `NewRequest`: the error of `http.NewRequest(method, url, _)`, if any;
* `CanonicalMIMEHeaderKey`: the key under which `Header.Get` and `Header.Set` file a name;
* `DetectContentType`: `http.DetectContentType`;
* `Do`: `(*http.Client).Do`;
* `headerWrite`: `Header.Write` into a `strings.Builder`;
* `CreateFormFile`, `CreatePart`: the bytes the `multipart.Writer` puts in the
  body for the head of a part, or its error; `partWrite`: the error of writing
  the content of a part, if any;
* `urlEncode`: `url.Values.Encode` of the pairs added;
* `gunzip`: reading a `gzip.NewReader` over the bytes to its end. -/
structure Env where
  jsonUnmarshal : (t : GoType) → Blob → Except GoError t.type
  UnmarshalValidJSON : (t : GoType) → Blob → Except GoError t.type
  osOpen : GoString → Except GoError File
  NewRequest : GoString → GoString → Option GoError
  CanonicalMIMEHeaderKey : GoString → GoString
  DetectContentType : Blob → GoString
  Do : Request → Except GoError Response
  headerWrite : Header → Except GoError GoString
  CreateFormFile : GoString → GoString → Except GoError Blob
  CreatePart : Header → Except GoError Blob
  partWrite : Blob → Option GoError
  urlEncode : List (GoString × GoString) → GoString
  gunzip : Blob → Except GoError Blob

/-- The method `Header.Get(key)`: the value filed under the canonical key, `""` if none. -/
def Header.Get (env : Env) (h : Header) (key : GoString) : GoString :=
  match h.lookup (env.CanonicalMIMEHeaderKey key) with
  | some v => v
  | none => []

/-- The method `Header.Set(key, value)`: the value replaces what is filed under
the canonical key. -/
def Header.Set (env : Env) (h : Header) (key value : GoString) : Header :=
  let k := env.CanonicalMIMEHeaderKey key
  if (h.lookup k).isSome then h.map (fun kv => if kv.1 = k then (k, value) else kv)
  else h ++ [(k, value)]

/-! ## Package `strconv` and `fmt`, as far as the run functions need them -/

/-- The loop of `strconv.ParseUint(s, 10, 64)` over the bytes of `s`, with `n` the
number read so far: the value and whether the text is in order (`none`), out
of range (`some true`, with the value `1<<64 - 1`) or not a number
(`some false`, with the value `0`). A byte that is not a decimal digit is a
syntax error; `n >= cutoff` and `n*10 + d > maxVal` are the two overflow tests. -/
def parseUintLoop : List Byte → Nat → Nat × Option Bool
  | [], n => (n, none)
  | c :: cs, n =>
    if 48 ≤ c.toNat ∧ c.toNat ≤ 57 then
      let d := c.toNat - 48
      if n ≥ (2 ^ 64 - 1) / 10 + 1 then (2 ^ 64 - 1, some true)
      else if n * 10 + d > 2 ^ 64 - 1 then (2 ^ 64 - 1, some true)
      else parseUintLoop cs (n * 10 + d)
    else (0, some false)

/-- The function `strconv.ParseUint(s, 10, 64)`. -/
def ParseUint (s : GoString) : Nat × Option Bool :=
  if s = [] then (0, some false) else parseUintLoop s 0

/-- The conversion to `int64` of an integer: the value modulo `2^64` in the signed range. -/
def toInt64 (z : Int) : Int := (z + 2 ^ 63) % 2 ^ 64 - 2 ^ 63

/-- The function `strconv.ParseInt(s, 10, 64)`.

```go
if s == "" { return 0, syntaxError(fnParseInt, s) }
s0 := s
neg := false
if s[0] == '+' { s = s[1:] } else if s[0] == '-' { neg = true; s = s[1:] }
un, err = ParseUint(s, base, bitSize)
if err != nil && err.(*NumError).Err != ErrRange { ...; return 0, err }
cutoff := uint64(1 << uint(bitSize-1))
if !neg && un >= cutoff { return int64(cutoff - 1), rangeError(fnParseInt, s0) }
if neg && un > cutoff { return -int64(cutoff), rangeError(fnParseInt, s0) }
n := int64(un)
if neg { n = -n }
return n, nil
```
-/
def ParseInt (s0 : GoString) : Int × Option GoError :=
  match s0 with
  | [] => (0, some (.numError s0 false))
  | c :: cs =>
    let neg : Bool := decide (c = 45)
    let s : GoString := if c = 43 then cs else if c = 45 then cs else s0
    let (un, err) := ParseUint s
    if err = some false then (0, some (.numError s0 false))
    else if !neg ∧ un ≥ 2 ^ 63 then (2 ^ 63 - 1, some (.numError s0 true))
    else if neg ∧ un > 2 ^ 63 then (-(2 ^ 63), some (.numError s0 true))
    else
      let n := toInt64 un
      (if neg then toInt64 (-n) else n, none)

/-- The text `fmt.Sprintf("%v", n)` of an `int64`: its decimal digits, with a
leading `-` when negative. -/
def formatInt (n : Int) : GoString := lit (toString n)

/-! ## `providers/hetzner/actors` -/

/-- The method `(*hcFirewallResourceServerWrap).unwrap()`; `.ok r` stands for the
return `&r, nil`, `.error err` for `nil, err`.

```go
int64id, err := strconv.ParseInt(*v.ID, 10, 64)
if err != nil {
  return nil, errors.Join(fmt.Errorf("cannot use '%v' as int64 ID", *v.ID), err)
}
return &hcloud.FirewallResourceServer{ID: int64id}, nil
```
-/
def hcFirewallResourceServerWrap.unwrap (v : Option hcFirewallResourceServerWrap) :
    Outcome (Except GoError hcloud.FirewallResourceServer) :=
  match v with
  | none => .panic "nil pointer dereference"
  | some v =>
    match v.ID with
    | none => .panic "nil pointer dereference"
    | some id =>
      match ParseInt id with
      | (_, some err) =>
        .ret (.error (.join (.errorfv "cannot use '%v' as int64 ID" id) err))
      | (int64id, none) => .ret (.ok { ID := int64id })

/-- The method `(*hcFirewallResourceWrap).unwrap()`. The fields `Type` and
`LabelSelector` are read through the embedded pointer.

```go
out := &hcloud.FirewallResource{Type: v.Type, LabelSelector: v.LabelSelector}
if v.Server != nil {
  s, err := v.Server.unwrap()
  if err != nil { return nil, err }
  out.Server = s
}
return out, nil
```
-/
def hcFirewallResourceWrap.unwrap (v : hcFirewallResourceWrap) :
    Outcome (Except GoError hcloud.FirewallResource) :=
  match v.FirewallResource with
  | none => .panic "nil pointer dereference"
  | some emb =>
    let out : hcloud.FirewallResource :=
      { Type_ := emb.Type_, Server := none, LabelSelector := emb.LabelSelector }
    match v.Server with
    | none => .ret (.ok out)
    | some srv =>
      match hcFirewallResourceServerWrap.unwrap (some srv) with
      | .panic msg => .panic msg
      | .ret (.error err) => .ret (.error err)
      | .ret (.ok s) => .ret (.ok { out with Server := some s })

/-- The method `(*hcFirewallWrap).unwrap()`.

```go
int64id, err := strconv.ParseInt(*v.ID, 10, 64)
if err != nil {
  return nil, errors.Join(fmt.Errorf("cannot use '%v' as int64 ID", *v.ID), err)
}
return &hcloud.Firewall{ID: int64id}, nil
```
-/
def hcFirewallWrap.unwrap (v : Option hcFirewallWrap) :
    Outcome (Except GoError hcloud.Firewall) :=
  match v with
  | none => .panic "nil pointer dereference"
  | some v =>
    match v.ID with
    | none => .panic "nil pointer dereference"
    | some id =>
      match ParseInt id with
      | (_, some err) =>
        .ret (.error (.join (.errorfv "cannot use '%v' as int64 ID" id) err))
      | (int64id, none) => .ret (.ok { ID := int64id, Other := { data := [] } })

/-- The struct `ActionContext` of the Hetzner provider; the context and its
`HClient` and `Action` are taken to be non-nil. The `Logger` is not a field
here: a call on it is a `Call.LogDebug` in the trace. -/
structure hetzner.ActionContext where
  Rehearsal : Bool
  HClient : hcloud.Client
  Action : Action
  Store : IStore

/-- The function `UnmarshallHCloudToSchema(response, v)` with `v` a zero value of type `t`.

```go
body, err := io.ReadAll(response.Response.Body)
if err != nil { return err }
err = util.UnmarshalValidJSON(body, v)
if err != nil { return err }
return nil
```
-/
def hetzner.UnmarshallHCloudToSchema (env : Env) (response : hcloud.Response) (t : GoType) :
    Except GoError t.type :=
  match response.Body with
  | .error err => .error err
  | .ok body =>
    match env.UnmarshalValidJSON t body with
    | .error err => .error err
    | .ok v => .ok v

/-- The return `base.NewActionOutput(action, v, id), nil` of a run function. -/
def returnNewActionOutput (action : Action) (v : Value) (id : Option GoString) (w : World) :
    Ret × World :=
  match NewActionOutput w.heap (some action) v id with
  | (.panic msg, h) => (.panic msg, { w with heap := h })
  | (.ret aout, h) => (.ret (some aout, none), { w with heap := h })

/-- The function `GenericHCloudOutput(ctx, response, v)` with `v` a zero value of type `t`.

```go
err := UnmarshallHCloudToSchema(response, v)
if err != nil { return nil, err }
aout := base.NewActionOutput(ctx.Action, v, nil)
return aout, nil
```
-/
def hetzner.GenericHCloudOutput (env : Env) (ctx : hetzner.ActionContext)
    (response : hcloud.Response) (t : GoType) (w : World) : Ret × World :=
  match hetzner.UnmarshallHCloudToSchema env response t with
  | .error err => (.ret (none, some err), w)
  | .ok v => returnNewActionOutput ctx.Action (.ptr t v) none w

/-- The function `CreateFirewall(ctx)`.

```go
input := &hcloud.FirewallCreateOpts{}
if err := util.UnmarshalValidJSON(ctx.Action.Parameters, input); err != nil { return nil, err }
if ctx.Rehearsal { return nil, nil }
err = ctx.Store.DeepInterpolation(input)
if err != nil { return nil, err }
_, response, err := ctx.HClient.Firewall.Create(context.Background(), *input)
if err != nil { return nil, err }
output := &schema.FirewallCreateResponse{}
return GenericHCloudOutput(ctx, response, output)
```
-/
def hetzner.CreateFirewall (env : Env) (ctx : hetzner.ActionContext) (w : World) : Ret × World :=
  match env.UnmarshalValidJSON .FirewallCreateOpts ctx.Action.Parameters with
  | .error err => (.ret (none, some err), w)
  | .ok input =>
    if ctx.Rehearsal then (.ret (none, none), w)
    else
      match ctx.Store.DeepInterpolation .FirewallCreateOpts input with
      | .error err => (.ret (none, some err), w.log (.StoreDeepInterpolation (some err)))
      | .ok input =>
        let w := (w.log (.StoreDeepInterpolation none)).log (.HCloud "Firewall.Create")
        match ctx.HClient.FirewallCreate input with
        | .error err => (.ret (none, some err), w)
        | .ok response => hetzner.GenericHCloudOutput env ctx response .FirewallCreateResponse w

/-- The function `DeleteFirewall(ctx)`.

```go
input := &hcFirewallWrap{}
if err := util.UnmarshalValidJSON(ctx.Action.Parameters, input); err != nil { return nil, err }
if ctx.Rehearsal { return nil, nil }
err = ctx.Store.DeepInterpolation(input)
if err != nil { return nil, err }
hfwall, err := input.unwrap()
if err != nil { return nil, err }
_, err = ctx.HClient.Firewall.Delete(context.Background(), hfwall)
if err != nil { return nil, err }
aout := base.NewActionOutput(ctx.Action, nil, nil)
return aout, nil
```
-/
def hetzner.DeleteFirewall (env : Env) (ctx : hetzner.ActionContext) (w : World) : Ret × World :=
  match env.UnmarshalValidJSON .hcFirewallWrap ctx.Action.Parameters with
  | .error err => (.ret (none, some err), w)
  | .ok input =>
    if ctx.Rehearsal then (.ret (none, none), w)
    else
      match ctx.Store.DeepInterpolation .hcFirewallWrap input with
      | .error err => (.ret (none, some err), w.log (.StoreDeepInterpolation (some err)))
      | .ok input =>
        let w := w.log (.StoreDeepInterpolation none)
        match hcFirewallWrap.unwrap (some input) with
        | .panic msg => (.panic msg, w)
        | .ret (.error err) => (.ret (none, some err), w)
        | .ret (.ok hfwall) =>
          let w := w.log (.HCloud "Firewall.Delete")
          match ctx.HClient.FirewallDelete hfwall with
          | some err => (.ret (none, some err), w)
          | none => returnNewActionOutput ctx.Action .nil none w

/-- The function `FindFirewalls(ctx)`.

```go
input := &hcloud.FirewallListOpts{}
if err := util.UnmarshalValidJSON(ctx.Action.Parameters, input); err != nil { return nil, err }
if ctx.Rehearsal { return nil, nil }
err := ctx.Store.DeepInterpolation(input)
if err != nil { return nil, err }
_, response, err := ctx.HClient.Firewall.List(context.Background(), *input)
if err != nil { return nil, err }
output := &FirewallListResponseWithMeta{}
return GenericHCloudOutput(ctx, response, output)
```
-/
def hetzner.FindFirewalls (env : Env) (ctx : hetzner.ActionContext) (w : World) : Ret × World :=
  match env.UnmarshalValidJSON .FirewallListOpts ctx.Action.Parameters with
  | .error err => (.ret (none, some err), w)
  | .ok input =>
    if ctx.Rehearsal then (.ret (none, none), w)
    else
      match ctx.Store.DeepInterpolation .FirewallListOpts input with
      | .error err => (.ret (none, some err), w.log (.StoreDeepInterpolation (some err)))
      | .ok input =>
        let w := (w.log (.StoreDeepInterpolation none)).log (.HCloud "Firewall.List")
        match ctx.HClient.FirewallList input with
        | .error err => (.ret (none, some err), w)
        | .ok response =>
          hetzner.GenericHCloudOutput env ctx response .FirewallListResponseWithMeta w

/-- The `else` branch of `FindOneFirewall`, after `FindFirewalls` has returned
`aout` with a nil error: the one firewall of the list, or the error or panic
that ends the run function.

```go
if ctx.Rehearsal { return nil, nil }
if len(aout.Records) <= 0 { return nil, fmt.Errorf("no firewall found") }
raw := aout.Records[0].Value.(*FirewallListResponseWithMeta)
found := len(raw.Firewalls)
if found > 1 { return nil, fmt.Errorf("too many results") }
if found <= 0 { return nil, fmt.Errorf("no firewall found") }
output.Firewall = raw.Firewalls[0]
```
-/
def hetzner.theOneFirewall (ctx : hetzner.ActionContext) (aout : Option Ptr) (w : World) :
    Except Ret schema.Firewall :=
  if ctx.Rehearsal then .error (.ret (none, none))
  else
    match aout.bind w.heap.output? with
    | none => .error (.panic "nil pointer dereference")
    | some out =>
      if out.Records.length ≤ 0 then .error (.ret (none, some (.errorf "no firewall found")))
      else
        let value : Option Value :=
          (out.Records.head?.bind w.heap.record?).map (fun r => r.Value)
        match value with
        | some (Value.ptr GoType.FirewallListResponseWithMeta raw) =>
          match raw.FirewallListResponse with
          | none => .error (.panic "nil pointer dereference")
          | some list =>
            if list.Firewalls.length > 1 then
              .error (.ret (none, some (.errorf "too many results")))
            else if list.Firewalls.length ≤ 0 then
              .error (.ret (none, some (.errorf "no firewall found")))
            else
              match list.Firewalls.head? with
              | none => .error (.panic "index out of range")
              | some fw => .ok fw
        | some _ => .error (.panic "interface conversion")
        | none => .error (.panic "nil pointer dereference")

/-- The function `FindOneFirewall(ctx)`.

```go
input := &findOneFirewallParameters{}
if err := util.UnmarshalValidJSON(ctx.Action.Parameters, input); err != nil { return nil, err }
if ctx.Rehearsal { return nil, nil }
err = ctx.Store.DeepInterpolation(input)
if err != nil { return nil, err }
output := &schema.FirewallGetResponse{}
if input.ID != nil {
  int64id, err := strconv.ParseInt(*input.ID, 10, 64)
  if err != nil {
    return nil, errors.Join(fmt.Errorf("cannot use '%v' as int64 ID", *input.ID), err)
  }
  _, response, err := ctx.HClient.Firewall.GetByID(context.Background(), int64id)
  if err != nil { return nil, err }
  err = UnmarshallHCloudToSchema(response, output)
  if err != nil { return nil, err }
} else {
  aout, err := FindFirewalls(ctx)
  if err != nil { return nil, err }
  ...
  output.Firewall = raw.Firewalls[0]
}
id := fmt.Sprintf("%v", output.Firewall.ID)
return base.NewActionOutput(ctx.Action, output, &id), nil
```
-/
def hetzner.FindOneFirewall (env : Env) (ctx : hetzner.ActionContext) (w : World) : Ret × World :=
  match env.UnmarshalValidJSON .findOneFirewallParameters ctx.Action.Parameters with
  | .error err => (.ret (none, some err), w)
  | .ok input =>
    if ctx.Rehearsal then (.ret (none, none), w)
    else
      match ctx.Store.DeepInterpolation .findOneFirewallParameters input with
      | .error err => (.ret (none, some err), w.log (.StoreDeepInterpolation (some err)))
      | .ok input =>
        let w := w.log (.StoreDeepInterpolation none)
        let finish (output : schema.FirewallGetResponse) (w : World) : Ret × World :=
          returnNewActionOutput ctx.Action (.ptr .FirewallGetResponse output)
            (some (formatInt output.Firewall.ID)) w
        match input.ID with
        | some id =>
          match ParseInt id with
          | (_, some err) =>
            (.ret (none, some (.join (.errorfv "cannot use '%v' as int64 ID" id) err)), w)
          | (int64id, none) =>
            let w := w.log (.HCloud "Firewall.GetByID")
            match ctx.HClient.FirewallGetByID int64id with
            | .error err => (.ret (none, some err), w)
            | .ok response =>
              match hetzner.UnmarshallHCloudToSchema env response .FirewallGetResponse with
              | .error err => (.ret (none, some err), w)
              | .ok output => finish output w
        | none =>
          match hetzner.FindFirewalls env ctx w with
          | (.panic msg, w) => (.panic msg, w)
          | (.ret (_, some err), w) => (.ret (none, some err), w)
          | (.ret (aout, none), w) =>
            match hetzner.theOneFirewall ctx aout w with
            | .error r => (r, w)
            | .ok fw => finish { Firewall := fw } w

/-- The loop of `ApplyFirewallToResources` over `input.Resources`.

```go
var resources []hcloud.FirewallResource
for _, rr := range input.Resources {
  hres, err := rr.unwrap()
  if err != nil { return nil, err }
  resources = append(resources, *hres)
}
```
-/
def hetzner.unwrapResources :
    List hcFirewallResourceWrap → List hcloud.FirewallResource →
      Outcome (Except GoError (List hcloud.FirewallResource))
  | [], resources => .ret (.ok resources)
  | rr :: rest, resources =>
    match hcFirewallResourceWrap.unwrap rr with
    | .panic msg => .panic msg
    | .ret (.error err) => .ret (.error err)
    | .ret (.ok hres) => hetzner.unwrapResources rest (resources ++ [hres])

/-- The function `ApplyFirewallToResources(ctx)`.

```go
input := &applyResourcesParameters{}
if err := util.UnmarshalValidJSON(ctx.Action.Parameters, input); err != nil { return nil, err }
if ctx.Rehearsal { return nil, nil }
err := ctx.Store.DeepInterpolation(input)
if err != nil { return nil, err }
hfwall, err := input.Firewall.unwrap()
if err != nil { return nil, err }
var resources []hcloud.FirewallResource
for _, rr := range input.Resources { ... }
_, response, err := ctx.HClient.Firewall.ApplyResources(context.Background(), hfwall, resources)
if err != nil { return nil, err }
output := &schema.FirewallActionApplyToResourcesResponse{}
return GenericHCloudOutput(ctx, response, output)
```
-/
def hetzner.ApplyFirewallToResources (env : Env) (ctx : hetzner.ActionContext) (w : World) :
    Ret × World :=
  match env.UnmarshalValidJSON .applyResourcesParameters ctx.Action.Parameters with
  | .error err => (.ret (none, some err), w)
  | .ok input =>
    if ctx.Rehearsal then (.ret (none, none), w)
    else
      match ctx.Store.DeepInterpolation .applyResourcesParameters input with
      | .error err => (.ret (none, some err), w.log (.StoreDeepInterpolation (some err)))
      | .ok input =>
        let w := w.log (.StoreDeepInterpolation none)
        match hcFirewallWrap.unwrap input.Firewall with
        | .panic msg => (.panic msg, w)
        | .ret (.error err) => (.ret (none, some err), w)
        | .ret (.ok hfwall) =>
          match hetzner.unwrapResources input.Resources [] with
          | .panic msg => (.panic msg, w)
          | .ret (.error err) => (.ret (none, some err), w)
          | .ret (.ok resources) =>
            let w := w.log (.HCloud "Firewall.ApplyResources")
            match ctx.HClient.FirewallApplyResources hfwall resources with
            | .error err => (.ret (none, some err), w)
            | .ok response =>
              hetzner.GenericHCloudOutput env ctx response
                .FirewallActionApplyToResourcesResponse w

/-- The function `RemoveFirewallFromResources(ctx)`.

```go
input := &removeResourcesParameters{}
if err := util.UnmarshalValidJSON(ctx.Action.Parameters, input); err != nil { return nil, err }
if ctx.Rehearsal { return nil, nil }
err := ctx.Store.DeepInterpolation(input)
if err != nil { return nil, err }
hfwall, err := input.Firewall.unwrap()
if err != nil { return nil, err }
_, response, err := ctx.HClient.Firewall.RemoveResources(context.Background(), hfwall, input.Resources)
if err != nil { return nil, err }
output := &schema.FirewallActionRemoveFromResourcesRequest{}
return GenericHCloudOutput(ctx, response, output)
```
-/
def hetzner.RemoveFirewallFromResources (env : Env) (ctx : hetzner.ActionContext) (w : World) :
    Ret × World :=
  match env.UnmarshalValidJSON .removeResourcesParameters ctx.Action.Parameters with
  | .error err => (.ret (none, some err), w)
  | .ok input =>
    if ctx.Rehearsal then (.ret (none, none), w)
    else
      match ctx.Store.DeepInterpolation .removeResourcesParameters input with
      | .error err => (.ret (none, some err), w.log (.StoreDeepInterpolation (some err)))
      | .ok input =>
        let w := w.log (.StoreDeepInterpolation none)
        match hcFirewallWrap.unwrap input.Firewall with
        | .panic msg => (.panic msg, w)
        | .ret (.error err) => (.ret (none, some err), w)
        | .ret (.ok hfwall) =>
          let w := w.log (.HCloud "Firewall.RemoveResources")
          match ctx.HClient.FirewallRemoveResources hfwall input.Resources with
          | .error err => (.ret (none, some err), w)
          | .ok response =>
            hetzner.GenericHCloudOutput env ctx response
              .FirewallActionRemoveFromResourcesRequest w

/-- The function `SetRulesFirewall(ctx)`.

```go
input := &setRulesParameters{}
if err := util.UnmarshalValidJSON(ctx.Action.Parameters, input); err != nil { return nil, err }
if ctx.Rehearsal { return nil, nil }
err := ctx.Store.DeepInterpolation(input)
if err != nil { return nil, err }
hfwall, err := input.Firewall.unwrap()
if err != nil { return nil, err }
_, response, err := ctx.HClient.Firewall.SetRules(context.Background(), hfwall, input.Opts)
if err != nil { return nil, err }
output := &schema.FirewallActionSetRulesResponse{}
return GenericHCloudOutput(ctx, response, output)
```
-/
def hetzner.SetRulesFirewall (env : Env) (ctx : hetzner.ActionContext) (w : World) :
    Ret × World :=
  match env.UnmarshalValidJSON .setRulesParameters ctx.Action.Parameters with
  | .error err => (.ret (none, some err), w)
  | .ok input =>
    if ctx.Rehearsal then (.ret (none, none), w)
    else
      match ctx.Store.DeepInterpolation .setRulesParameters input with
      | .error err => (.ret (none, some err), w.log (.StoreDeepInterpolation (some err)))
      | .ok input =>
        let w := w.log (.StoreDeepInterpolation none)
        match hcFirewallWrap.unwrap input.Firewall with
        | .panic msg => (.panic msg, w)
        | .ret (.error err) => (.ret (none, some err), w)
        | .ret (.ok hfwall) =>
          let w := w.log (.HCloud "Firewall.SetRules")
          match ctx.HClient.FirewallSetRules hfwall input.Opts with
          | .error err => (.ret (none, some err), w)
          | .ok response =>
            hetzner.GenericHCloudOutput env ctx response .FirewallActionSetRulesResponse w

/-- The function `FindISOs(ctx)`.

```go
input := &hcloud.ISOListOpts{}
if err := util.UnmarshalValidJSON(ctx.Action.Parameters, input); err != nil { return nil, err }
if ctx.Rehearsal { return nil, nil }
err := ctx.Store.DeepInterpolation(input)
if err != nil { return nil, err }
_, response, err := ctx.HClient.ISO.List(context.Background(), *input)
if err != nil { return nil, err }
output := &ISOListResponseWithMeta{}
return GenericHCloudOutput(ctx, response, output)
```
-/
def hetzner.FindISOs (env : Env) (ctx : hetzner.ActionContext) (w : World) : Ret × World :=
  match env.UnmarshalValidJSON .ISOListOpts ctx.Action.Parameters with
  | .error err => (.ret (none, some err), w)
  | .ok input =>
    if ctx.Rehearsal then (.ret (none, none), w)
    else
      match ctx.Store.DeepInterpolation .ISOListOpts input with
      | .error err => (.ret (none, some err), w.log (.StoreDeepInterpolation (some err)))
      | .ok input =>
        let w := (w.log (.StoreDeepInterpolation none)).log (.HCloud "ISO.List")
        match ctx.HClient.ISOList input with
        | .error err => (.ret (none, some err), w)
        | .ok response => hetzner.GenericHCloudOutput env ctx response .ISOListResponseWithMeta w

/-- The part of `FindOneISO` after `FindISOs` has returned `aout` with a nil
error: the one ISO of the list, or the error or panic that ends the run
function.

```go
if ctx.Rehearsal { return nil, nil }
if len(aout.Records) <= 0 { return nil, fmt.Errorf("no iso found") }
raw := aout.Records[0].Value.(*ISOListResponseWithMeta)
found := len(raw.ISOs)
if found > 1 { return nil, fmt.Errorf("too many results") }
if found <= 0 { return nil, fmt.Errorf("no iso found") }
... raw.ISOs[0] ...
```
-/
def hetzner.theOneISO (ctx : hetzner.ActionContext) (aout : Option Ptr) (w : World) :
    Except Ret schema.ISO :=
  if ctx.Rehearsal then .error (.ret (none, none))
  else
    match aout.bind w.heap.output? with
    | none => .error (.panic "nil pointer dereference")
    | some out =>
      if out.Records.length ≤ 0 then .error (.ret (none, some (.errorf "no iso found")))
      else
        let value : Option Value :=
          (out.Records.head?.bind w.heap.record?).map (fun r => r.Value)
        match value with
        | some (Value.ptr GoType.ISOListResponseWithMeta raw) =>
          match raw.ISOListResponse with
          | none => .error (.panic "nil pointer dereference")
          | some list =>
            if list.ISOs.length > 1 then .error (.ret (none, some (.errorf "too many results")))
            else if list.ISOs.length ≤ 0 then
              .error (.ret (none, some (.errorf "no iso found")))
            else
              match list.ISOs.head? with
              | none => .error (.panic "index out of range")
              | some iso => .ok iso
        | some _ => .error (.panic "interface conversion")
        | none => .error (.panic "nil pointer dereference")

/-- The function `FindOneISO(ctx)`.

```go
aout, err := FindISOs(ctx)
if err != nil { return nil, err }
if ctx.Rehearsal { return nil, nil }
if len(aout.Records) <= 0 { return nil, fmt.Errorf("no iso found") }
raw := aout.Records[0].Value.(*ISOListResponseWithMeta)
found := len(raw.ISOs)
if found > 1 { return nil, fmt.Errorf("too many results") }
if found <= 0 { return nil, fmt.Errorf("no iso found") }
id := fmt.Sprintf("%v", raw.ISOs[0].ID)
aout = base.NewActionOutput(ctx.Action, raw.ISOs[0], &id)
return aout, nil
```
-/
def hetzner.FindOneISO (env : Env) (ctx : hetzner.ActionContext) (w : World) : Ret × World :=
  match hetzner.FindISOs env ctx w with
  | (.panic msg, w) => (.panic msg, w)
  | (.ret (_, some err), w) => (.ret (none, some err), w)
  | (.ret (aout, none), w) =>
    match hetzner.theOneISO ctx aout w with
    | .error r => (r, w)
    | .ok iso => returnNewActionOutput ctx.Action (.ISO iso) (some (formatInt iso.ID)) w

/-- The run functions of the Hetzner provider that are among the sources. -/
inductive HetznerFunc where
  | CreateFirewall
  | DeleteFirewall
  | FindFirewalls
  | FindOneFirewall
  | ApplyFirewallToResources
  | RemoveFirewallFromResources
  | SetRulesFirewall
  | FindISOs
  | FindOneISO
deriving DecidableEq, Repr

/-- The run function behind a name. -/
def HetznerFunc.run : HetznerFunc → Env → hetzner.ActionContext → World → Ret × World
  | .CreateFirewall => hetzner.CreateFirewall
  | .DeleteFirewall => hetzner.DeleteFirewall
  | .FindFirewalls => hetzner.FindFirewalls
  | .FindOneFirewall => hetzner.FindOneFirewall
  | .ApplyFirewallToResources => hetzner.ApplyFirewallToResources
  | .RemoveFirewallFromResources => hetzner.RemoveFirewallFromResources
  | .SetRulesFirewall => hetzner.SetRulesFirewall
  | .FindISOs => hetzner.FindISOs
  | .FindOneISO => hetzner.FindOneISO

/-- The Go type that the run function decodes and validates the parameters of
the action into, first thing. -/
def HetznerFunc.paramType : HetznerFunc → GoType
  | .CreateFirewall => .FirewallCreateOpts
  | .DeleteFirewall => .hcFirewallWrap
  | .FindFirewalls => .FirewallListOpts
  | .FindOneFirewall => .findOneFirewallParameters
  | .ApplyFirewallToResources => .applyResourcesParameters
  | .RemoveFirewallFromResources => .removeResourcesParameters
  | .SetRulesFirewall => .setRulesParameters
  | .FindISOs => .ISOListOpts
  | .FindOneISO => .ISOListOpts

/-! ## `providers/generic/actors` -/

/-- Modelled from the spec: the struct `ActionContext` of the generic provider,
declared in a file that is not among the sources; the fields are the ones
`HttpRequest` reads (the action, the `rehearsal` flag, the shared store), as in
the struct of the same name of the Hetzner provider. The context and its
`Action` are taken to be non-nil; a call on the `Logger` is a `Call.LogDebug`
in the trace. -/
structure generic.ActionContext where
  Rehearsal : Bool
  Action : Action
  Store : IStore

/-- The replacer `strings.NewReplacer("\\", "\\\\", "\"", "\\\"")`: a backslash
before every backslash and every double quote. -/
def generic.escapeQuotes (s : GoString) : GoString :=
  s.flatMap (fun c => if c = 92 then [92, 92] else if c = 34 then [92, 34] else [c])

/-- The call `http.NewRequest(*p.Method, *p.Url, body)`: a nil `Method` or `Url` panics. -/
def generic.newRequest (env : Env) (p : httpRequestParameters) (body : Blob) :
    Outcome (Except GoError Request) :=
  match p.Method with
  | none => .panic "nil pointer dereference"
  | some method =>
    match p.Url with
    | none => .panic "nil pointer dereference"
    | some url =>
      match env.NewRequest method url with
      | some err => .ret (.error err)
      | none => .ret (.ok { Method := method, Url := url, Header := [], Body := body })

/-- The loop over `param.MultipartBody` of the `form-data` case, with `body` the
buffer the `multipart.Writer` writes to.

```go
for _, part := range param.MultipartBody {
  switch part.PType {
  case PartTypeFile:
    file, err := os.Open(*part.Value)
    if err != nil { return nil, err }
    defer file.Close()
    finf, err := file.Stat()
    if err != nil { return nil, err }
    fcontent, err := ioutil.ReadAll(file)
    if err != nil { return nil, err }
    ff, err := w.CreateFormFile(*part.Name, finf.Name())
    if err != nil { return nil, err }
    _, err = ff.Write(fcontent)
    if err != nil { return nil, err }
    ctx.Logger.LogDebug("Append file part: " + finf.Name())
  case PartTypeText:
    h := make(textproto.MIMEHeader)
    n := strings.NewReplacer(...).Replace(*part.Name)
    h.Set("Content-Disposition", fmt.Sprintf(`form-data; name="%s"`, n))
    if part.ContentType != nil { h.Set("Content-Type", *part.ContentType) }
    else { h.Set("Content-Type", "text/plain") }
    ff, err := w.CreatePart(h)
    if err != nil { return nil, err }
    _, err = ff.Write([]byte(*part.Value))
    if err != nil { return nil, err }
    ctx.Logger.LogDebug("Append text content: " + *part.Value)
  }
}
```
-/
def generic.multipartLoop (env : Env) :
    List (Option httpBodyMultiPart) → Blob → World → Outcome (Except GoError Blob) × World
  | [], body, w => (.ret (.ok body), w)
  | none :: _, _, w => (.panic "nil pointer dereference", w)
  | some part :: rest, body, w =>
    if part.PType = PartTypeFile then
      match part.Value with
      | none => (.panic "nil pointer dereference", w)
      | some path =>
        let w := w.log (.OsOpen path)
        match env.osOpen path with
        | .error err => (.ret (.error err), w)
        | .ok file =>
          let w := w.log .FileStat
          match file.Stat with
          | .error err => (.ret (.error err), w)
          | .ok finfName =>
            let w := w.log .FileReadAll
            match file.ReadAll with
            | .error err => (.ret (.error err), w)
            | .ok fcontent =>
              match part.Name with
              | none => (.panic "nil pointer dereference", w)
              | some name =>
                match env.CreateFormFile name finfName with
                | .error err => (.ret (.error err), w)
                | .ok head =>
                  match env.partWrite fcontent with
                  | some err => (.ret (.error err), w)
                  | none =>
                    generic.multipartLoop env rest (body ++ head ++ fcontent) (w.log .LogDebug)
    else if part.PType = PartTypeText then
      match part.Name with
      | none => (.panic "nil pointer dereference", w)
      | some name =>
        let h := Header.Set env [] (lit "Content-Disposition")
          (lit "form-data; name=\"" ++ generic.escapeQuotes name ++ lit "\"")
        let h := match part.ContentType with
          | some ct => Header.Set env h (lit "Content-Type") ct
          | none => Header.Set env h (lit "Content-Type") (lit "text/plain")
        match env.CreatePart h with
        | .error err => (.ret (.error err), w)
        | .ok head =>
          match part.Value with
          | none => (.panic "nil pointer dereference", w)
          | some value =>
            match env.partWrite value with
            | some err => (.ret (.error err), w)
            | none => generic.multipartLoop env rest (body ++ head ++ value) (w.log .LogDebug)
    else generic.multipartLoop env rest body w

/-- The loop over `param.UrlEncodedBody` of the `x-www-form-urlencoded` case,
with `fdata` the pairs added so far.

```go
for _, kv := range param.UrlEncodedBody {
  fdata.Add(*kv.Name, *kv.Value)
  ctx.Logger.LogDebug("Append urlenc key: " + *kv.Name)
}
```
-/
def generic.urlencodedLoop :
    List (Option httpBodyUrlencoded) → List (GoString × GoString) → World →
      Outcome (List (GoString × GoString)) × World
  | [], fdata, w => (.ret fdata, w)
  | none :: _, _, w => (.panic "nil pointer dereference", w)
  | some kv :: rest, fdata, w =>
    match kv.Name, kv.Value with
    | some name, some value =>
      generic.urlencodedLoop rest (fdata ++ [(name, value)]) (w.log .LogDebug)
    | _, _ => (.panic "nil pointer dereference", w)

/-- The `switch p.BodyType` of `HttpRequest`: the request it builds, or the
error or panic that ends the run function. -/
def generic.buildRequest (env : Env) (ctx : generic.ActionContext) (p : httpRequestParameters)
    (w : World) : Outcome (Except GoError Request) × World :=
  let withContentType (r : Outcome (Except GoError Request)) (ct : GoString) :
      Outcome (Except GoError Request) :=
    match r with
    | .ret (.ok req) =>
      .ret (.ok { req with Header := Header.Set env req.Header (lit "Content-Type") ct })
    | other => other
  if p.BodyType = BodyTypeFormData then
    match env.UnmarshalValidJSON .httpRequestParametersMultiPartBody ctx.Action.Parameters with
    | .error err => (.ret (.error err), w)
    | .ok param =>
      match generic.multipartLoop env param.MultipartBody [] w with
      | (.panic msg, w) => (.panic msg, w)
      | (.ret (.error err), w) => (.ret (.error err), w)
      | (.ret (.ok body), w) =>
        (withContentType (generic.newRequest env p body) (lit "multipart/form-data"), w)
  else if p.BodyType = BodyTypeNone then (generic.newRequest env p [], w)
  else if p.BodyType = BodyTypeXWWWFormUrlencoded then
    match env.UnmarshalValidJSON .httpRequestParametersUrlEncodedBody ctx.Action.Parameters with
    | .error err => (.ret (.error err), w)
    | .ok param =>
      match generic.urlencodedLoop param.UrlEncodedBody [] w with
      | (.panic msg, w) => (.panic msg, w)
      | (.ret fdata, w) =>
        (withContentType (generic.newRequest env p (env.urlEncode fdata))
          (lit "application/x-www-form-urlencoded"), w)
  else if p.BodyType = BodyTypeRaw then
    match env.UnmarshalValidJSON .httpRequestParametersRawBody ctx.Action.Parameters with
    | .error err => (.ret (.error err), w)
    | .ok param =>
      match param.RawBody with
      | none => (.panic "nil pointer dereference", w)
      | some body => (generic.newRequest env p body, w)
  else if p.BodyType = BodyTypeBinary then
    match env.UnmarshalValidJSON .httpRequestParametersBinaryBody ctx.Action.Parameters with
    | .error err => (.ret (.error err), w)
    | .ok param =>
      match param.BinaryBody with
      | none => (.panic "nil pointer dereference", w)
      | some path =>
        let w := w.log (.OsOpen path)
        match env.osOpen path with
        | .error err => (.ret (.error err), w)
        | .ok file =>
          let w := w.log .FileReadAll
          match file.ReadAll with
          | .error err => (.ret (.error err), w)
          | .ok fcontent =>
            (withContentType (generic.newRequest env p fcontent)
              (env.DetectContentType fcontent), w)
  else (generic.newRequest env p [], w)

/-- The loop `for _, hh := range p.Headers` of `HttpRequest`.

```go
if req.Header.Get(*hh.Key) != "" { continue }
err := ctx.Store.Interpolate(hh.Value)
if err != nil { return nil, err }
ctx.Logger.LogDebug("Use request header, " + *hh.Key + ": " + *hh.Value)
req.Header.Set(*hh.Key, *hh.Value)
```
-/
def generic.headersLoop (env : Env) (ctx : generic.ActionContext) :
    List (Option httpHeader) → Request → World → Outcome (Except GoError Request) × World
  | [], req, w => (.ret (.ok req), w)
  | none :: _, _, w => (.panic "nil pointer dereference", w)
  | some hh :: rest, req, w =>
    match hh.Key with
    | none => (.panic "nil pointer dereference", w)
    | some key =>
      if Header.Get env req.Header key ≠ [] then generic.headersLoop env ctx rest req w
      else
        match ctx.Store.Interpolate hh.Value with
        | .error err => (.ret (.error err), w.log (.StoreInterpolate (some err)))
        | .ok none => (.panic "nil pointer dereference", w.log (.StoreInterpolate none))
        | .ok (some value) =>
          generic.headersLoop env ctx rest
            { req with Header := Header.Set env req.Header key value }
            ((w.log (.StoreInterpolate none)).log .LogDebug)

/-- The part of `HttpRequest` after `client.Do(req)` has returned `resp`.

```go
result := httpRequestOutput{}
ctx.Logger.LogDebug("Request response status: " + resp.Status)
result.Status = resp.Status
result.StatusCode = resp.StatusCode
sw := new(strings.Builder)
err = resp.Header.Write(sw)
if err != nil { return nil, err }
ctx.Logger.LogDebug("Headers: " + sw.String())
result.Headers = sw.String()
if resp.ContentLength > 0 {
  var rawbody io.ReadCloser
  switch resp.Header.Get("Content-Encoding") {
  case "gzip":
    rawbody, err = gzip.NewReader(resp.Body)
    if err != nil { return nil, err }
  default:
    rawbody = resp.Body
  }
  sw := new(strings.Builder)
  _, err = io.Copy(sw, rawbody)
  if err != nil { return nil, err }
  ctx.Logger.LogDebug("Body: " + sw.String())
  result.Body = sw.String()
} else {
  ctx.Logger.LogDebug("Empty body")
  result.Body = ""
}
aout := base.NewActionOutput(ctx.Action, result, nil)
return aout, err
```
-/
def generic.handleResponse (env : Env) (ctx : generic.ActionContext) (resp : Response)
    (w : World) : Ret × World :=
  let w := w.log .LogDebug
  match env.headerWrite resp.Header with
  | .error err => (.ret (none, some err), w)
  | .ok headers =>
    let w := w.log .LogDebug
    if resp.ContentLength > 0 then
      let text : Except GoError Blob :=
        if Header.Get env resp.Header (lit "Content-Encoding") = lit "gzip" then
          match resp.Body with
          | .error err => .error err
          | .ok raw => env.gunzip raw
        else resp.Body
      match text with
      | .error err => (.ret (none, some err), w)
      | .ok body =>
        returnNewActionOutput ctx.Action
          (.httpRequestOutput
            { Status := resp.Status, StatusCode := resp.StatusCode, Headers := headers,
              Body := body })
          none (w.log .LogDebug)
    else
      returnNewActionOutput ctx.Action
        (.httpRequestOutput
          { Status := resp.Status, StatusCode := resp.StatusCode, Headers := headers,
            Body := [] })
        none (w.log .LogDebug)

/-- The function `HttpRequest(ctx)`.

```go
p := &httpRequestParameters{}
if err = json.Unmarshal(ctx.Action.Parameters, p); err != nil { return nil, err }
if ctx.Rehearsal { return nil, nil }
switch p.BodyType { ... }
for _, hh := range p.Headers { ... }
client := &http.Client{Transport: tr}
resp, err := client.Do(req)
if err != nil { return nil, err }
...
```

The deferred `Close` calls (of the multipart writer, of the files, of the
response body) run when the function returns and are not recorded. -/
def generic.HttpRequest (env : Env) (ctx : generic.ActionContext) (w : World) : Ret × World :=
  match env.jsonUnmarshal .httpRequestParameters ctx.Action.Parameters with
  | .error err => (.ret (none, some err), w)
  | .ok p =>
    if ctx.Rehearsal then (.ret (none, none), w)
    else
      match generic.buildRequest env ctx p w with
      | (.panic msg, w) => (.panic msg, w)
      | (.ret (.error err), w) => (.ret (none, some err), w)
      | (.ret (.ok req), w) =>
        match generic.headersLoop env ctx p.Headers req w with
        | (.panic msg, w) => (.panic msg, w)
        | (.ret (.error err), w) => (.ret (none, some err), w)
        | (.ret (.ok req), w) =>
          let w := w.log .HttpDo
          match env.Do req with
          | .error err => (.ret (none, some err), w)
          | .ok resp => generic.handleResponse env ctx resp w

/-! ## Properties of traces, and sample worlds -/

/-- The fields of `httpRequestParameters` tagged `validate:"required"` are set:
`http_verb`, `endpoint` and `body_type`. -/
def httpRequestParameters.required (p : httpRequestParameters) : Bool :=
  p.Method.isSome && p.Url.isSome && decide (p.BodyType ≠ [])

/-- The error a store call returned, if it returned one. -/
def Call.failure? : Call → Option GoError
  | .StoreInterpolate err => err
  | .StoreDeepInterpolation err => err
  | _ => none

/-- Whether the call is a network request or a cloud API call, or, unless `fs`
is set, a filesystem access. -/
def Call.sideEffect (fs : Bool) (c : Call) : Bool :=
  c.isNetwork || c.isCloud || (!fs && c.isFilesystem)

/-- A check of a trace against the result `r` of the run: a store call that
failed with `e` is the last call of the trace, no side-effecting call comes
before it (`dirty` tells whether one came before the trace), and `r` is
`(nil, e)`. With `fs` set, filesystem accesses do not count as side effects. -/
def traceOK (fs : Bool) : Bool → List Call → Ret → Bool
  | _, [], _ => true
  | dirty, c :: rest, r =>
    match c.failure? with
    | some e => !dirty && rest.isEmpty && decide (r = .ret (none, some e))
    | none => traceOK fs (dirty || c.sideEffect fs) rest r

/-- No call of the trace is a store call that failed or a side effect (see
`Call.sideEffect`). -/
def quiet (fs : Bool) (t : List Call) : Prop :=
  ∀ c ∈ t, c.failure? = none ∧ c.sideEffect fs = false

/-- No call of the trace is a store call that failed. -/
def noFailure (t : List Call) : Prop := ∀ c ∈ t, c.failure? = none

/-- The run that led from the world `w` to the result and world `res` added
calls to the trace that pass the check `traceOK`. -/
def runsOK (fs : Bool) (w : World) (res : Ret × World) : Prop :=
  ∃ new, res.2.trace = w.trace ++ new ∧ traceOK fs false new res.1 = true

/-- The trace of `w'` is the trace of `w` followed by calls that are `quiet`. -/
def quietly (fs : Bool) (w w' : World) : Prop :=
  ∃ new, w'.trace = w.trace ++ new ∧ quiet fs new

/-- The zero value of a Go type of the list. -/
def GoType.zero : (t : GoType) → t.type
  | .FirewallCreateOpts => { data := [] }
  | .hcFirewallWrap => { Firewall := none, ID := none }
  | .FirewallListOpts => { data := [] }
  | .findOneFirewallParameters => { ID := none }
  | .applyResourcesParameters => { Resources := [], Firewall := none }
  | .removeResourcesParameters => { Resources := [], Firewall := none }
  | .setRulesParameters => { Opts := { data := [] }, Firewall := none }
  | .ISOListOpts => { data := [] }
  | .httpRequestParameters => { Method := none, Url := none, Headers := [], BodyType := [] }
  | .httpRequestParametersMultiPartBody => { MultipartBody := [] }
  | .httpRequestParametersUrlEncodedBody => { UrlEncodedBody := [] }
  | .httpRequestParametersRawBody => { RawBody := none }
  | .httpRequestParametersBinaryBody => { BinaryBody := none }
  | .FirewallCreateResponse => { data := [] }
  | .FirewallListResponseWithMeta => { FirewallListResponse := none, Meta := { data := [] } }
  | .FirewallGetResponse => { Firewall := { ID := 0, Other := { data := [] } } }
  | .FirewallActionApplyToResourcesResponse => { data := [] }
  | .FirewallActionRemoveFromResourcesRequest => { data := [] }
  | .FirewallActionSetRulesResponse => { data := [] }
  | .ISOListResponseWithMeta => { ISOListResponse := none, Meta := { data := [] } }

/-- The JSON text of an empty object. -/
def jsonEmpty : Blob := lit "\x7b\x7d"

/-- The JSON text of the parameters of a request with a `binary` body and one
header whose value holds a variable. -/
def jsonBinary : Blob :=
  lit ("\x7b\"http_verb\":\"GET\",\"endpoint\":\"http://h/\",\"body_type\":\"binary\"," ++
    "\"headers\":[\x7b\"name\":\"X-Token\",\"value\":\"\x7b\x7b token \x7d\x7d\"\x7d]," ++
    "\"body\":\"/etc/motd\"\x7d")

/-- The JSON text of the parameters of a request with a `raw` body, the `body`
itself missing. -/
def jsonRawNoBody : Blob :=
  lit "\x7b\"http_verb\":\"GET\",\"endpoint\":\"http://h/\",\"body_type\":\"raw\"\x7d"

/-- A sample of `json.Unmarshal`, on the three texts above: it fills the fields
the text names and leaves the others at their zero value; any other text is
taken not to be JSON. -/
def sampleJsonUnmarshal : (t : GoType) → Blob → Except GoError t.type
  | .httpRequestParameters, b =>
    if b = jsonEmpty then
      .ok { Method := none, Url := none, Headers := [], BodyType := [] }
    else if b = jsonBinary then
      .ok { Method := some (lit "GET"), Url := some (lit "http://h/"),
            Headers := [some { Key := some (lit "X-Token"),
                               Value := some (lit "\x7b\x7b token \x7d\x7d") }],
            BodyType := BodyTypeBinary }
    else if b = jsonRawNoBody then
      .ok { Method := some (lit "GET"), Url := some (lit "http://h/"), Headers := [],
            BodyType := BodyTypeRaw }
    else .error (.ext 1)
  | t, b => if b = jsonEmpty then .ok t.zero else .error (.ext 1)

/-- A sample of `util.UnmarshalValidJSON`, on the three texts above: the empty
object is valid for the types without a required field and leaves their zero
value, `jsonBinary` has the `body` a binary body requires; every other
combination fails (a required field is missing, or the text is taken not to be
JSON). -/
def sampleUnmarshalValidJSON : (t : GoType) → Blob → Except GoError t.type
  | .httpRequestParametersBinaryBody, b =>
    if b = jsonBinary then .ok { BinaryBody := some (lit "/etc/motd") } else .error (.ext 2)
  | .httpRequestParametersRawBody, _ => .error (.ext 2)
  | .httpRequestParametersMultiPartBody, _ => .error (.ext 2)
  | .httpRequestParametersUrlEncodedBody, _ => .error (.ext 2)
  | .hcFirewallWrap, _ => .error (.ext 2)
  | .applyResourcesParameters, _ => .error (.ext 2)
  | .removeResourcesParameters, _ => .error (.ext 2)
  | .setRulesParameters, _ => .error (.ext 2)
  | t, b => if b = jsonEmpty then .ok t.zero else .error (.ext 2)

/-- A sample environment: every file opens and holds `hi`, every request is
well-formed, the network is down. -/
def sampleEnv : Env :=
  { jsonUnmarshal := sampleJsonUnmarshal
    UnmarshalValidJSON := sampleUnmarshalValidJSON
    osOpen := fun _ => .ok { Stat := .ok (lit "motd"), ReadAll := .ok (lit "hi") }
    NewRequest := fun _ _ => none
    CanonicalMIMEHeaderKey := fun k => k
    DetectContentType := fun _ => lit "text/plain; charset=utf-8"
    Do := fun _ => .error (.ext 3)
    headerWrite := fun _ => .ok []
    CreateFormFile := fun _ _ => .ok []
    CreatePart := fun _ => .ok []
    partWrite := fun _ => none
    urlEncode := fun _ => []
    gunzip := fun b => .ok b }

/-- A store in which every variable is known: nothing fails, nothing changes. -/
def storeOK : IStore :=
  { Interpolate := fun v => .ok v, DeepInterpolation := fun _ v => .ok v }

/-- A store in which no variable is known: every interpolation fails. -/
def storeFailing : IStore :=
  { Interpolate := fun _ => .error (.ext 9), DeepInterpolation := fun _ _ => .error (.ext 9) }

/-- A cloud client every call of which fails. -/
def clientDown : hcloud.Client :=
  { FirewallCreate := fun _ => .error (.ext 4)
    FirewallDelete := fun _ => some (.ext 4)
    FirewallList := fun _ => .error (.ext 4)
    FirewallGetByID := fun _ => .error (.ext 4)
    FirewallApplyResources := fun _ _ => .error (.ext 4)
    FirewallRemoveResources := fun _ _ => .error (.ext 4)
    FirewallSetRules := fun _ _ => .error (.ext 4)
    ISOList := fun _ => .error (.ext 4) }

/-- An action of the given parameters. -/
def sampleAction (params : Blob) : Action :=
  { ActionID := lit "a1", Provider := lit "generic", Output := none, Parameters := params }

/-- Whether an operation is a `Dial`. -/
def ConnOp.isDial : ConnOp → Bool
  | .Dial _ => true
  | _ => false

/-- Modelled from the spec: the struct `IPC`, declared in a file of package `ipc`
that is not among the sources; `uuid` is the session identifier that `listen`
reads ("one well-known endpoint per running session"). -/
structure IPC where
  uuid : GoString
deriving DecidableEq, Repr

/-- A `net.Listener` on a named pipe: the path it listens on. -/
structure Listener where
  path : GoString
deriving DecidableEq, Repr

/-- What a call of `listen` leaves behind: the listener or the error it returns,
and the path it handed to `winio.ListenPipe`. -/
structure ListenResult where
  ret : Except GoError Listener
  path : GoString

/-- The method `(*IPC).listen()`. `ListenPipe` stands for `winio.ListenPipe(path, nil)`.

```go
path := `\\.\pipe\` + "ipc_" + p.uuid
l, err := winio.ListenPipe(path, nil)
if err != nil { return nil, err }
return l, nil
```
-/
def IPC.listen (ListenPipe : GoString → Except GoError Listener) (p : IPC) : ListenResult :=
  let path := lit "\\\\.\\pipe\\" ++ lit "ipc_" ++ p.uuid
  match ListenPipe path with
  | .error err => { ret := .error err, path := path }
  | .ok l => { ret := .ok l, path := path }

/-- A pipe namespace in which every path can be listened on. -/
def listenAnywhere (path : GoString) : Except GoError Listener := .ok { path := path }

/-- A pipe namespace in which every dial reaches a server that takes every
write and has nothing to say. -/
def dialAnywhere (_path : GoString) : Except GoError FD :=
  .ok { rscript := [], wscript := [], wbuf := [] }

/-- A pipe namespace without any server: every dial fails. -/
def dialNowhere (_path : GoString) : Except GoError FD := .error (.ext 2)

/-- A call that the line discipline makes on one of its endpoints to close it. -/
inductive EndpointCall where
  | CloseMustar
  | CloseSluva
deriving DecidableEq, Repr

/-- The method `(*RawLdisc).Close()`: the error it returns, the line discipline
as it leaves it, and the calls it makes on the endpoints.

```go
func (r *RawLdisc) Close() error {
  return nil
}
```
-/
def RawLdisc.Close (r : RawLdisc) : Option GoError × RawLdisc × List EndpointCall :=
  (none, r, [])

/-- The method `Close()` called `n` times in a row: the errors returned, in
order, the line discipline after the last call, and all the calls made on the
endpoints. -/
def RawLdisc.CloseTimes : Nat → RawLdisc → List (Option GoError) × RawLdisc × List EndpointCall
  | 0, r => ([], r, [])
  | n + 1, r =>
    let first := r.Close
    let later := RawLdisc.CloseTimes n first.2.1
    (first.1 :: later.1, later.2.1, first.2.2 ++ later.2.2)

/-- A line discipline with both endpoints bound. -/
def boundLdisc : RawLdisc :=
  { mustarFD := some { rscript := [], wscript := [], wbuf := [] },
    sluvaFD := some { rscript := [{ data := [5], err := none }], wscript := [], wbuf := [] },
    errs := [] }

/-- Modelled from the spec: the cancellation state of a node. The struct behind
the interface `IActionContext` is not among the sources. `cancelCause` is the
"first error that triggered cancellation", `none` while no cause is set;
`doneFired` counts how often the one-shot signal `done` has fired. -/
structure Node where
  cancelCause : Option GoError
  doneFired : Nat
deriving DecidableEq, Repr

/-- Modelled from the spec: the method `Cancel(cause)` of a node, whose code is
not among the sources: it "records `cause` if not already set, then fires
`done` if not already fired". The cause is an error value (not nil). -/
def Node.Cancel (n : Node) (cause : GoError) : Node :=
  let n1 : Node := if n.cancelCause.isNone then { n with cancelCause := some cause } else n
  if n1.doneFired = 0 then { n1 with doneFired := n1.doneFired + 1 } else n1

/-- A node that has not been cancelled. -/
def freshNode : Node := { cancelCause := none, doneFired := 0 }

/-- The JSON text of a list response with one ISO, of id 4711. -/
def jsonOneISO : Blob :=
  lit "\x7b\"isos\":[\x7b\"id\":4711\x7d],\"meta\":\x7b\x7d\x7d"

/-- A sample of `util.UnmarshalValidJSON` that also knows the text `jsonOneISO`. -/
def isoUnmarshalValidJSON : (t : GoType) → Blob → Except GoError t.type
  | .ISOListResponseWithMeta, b =>
    if b = jsonOneISO then
      .ok { ISOListResponse := some { ISOs := [{ ID := 4711, Other := { data := [] } }] },
            Meta := { data := [] } }
    else .error (.ext 2)
  | t, b => sampleUnmarshalValidJSON t b

/-- The sample environment with the decoder that knows `jsonOneISO`. -/
def isoEnv : Env := { sampleEnv with UnmarshalValidJSON := isoUnmarshalValidJSON }

/-- A cloud client whose ISO list call answers with one ISO; every other call fails. -/
def clientOneISO : hcloud.Client :=
  { clientDown with ISOList := fun _ => .ok { Body := .ok jsonOneISO } }

/-- A context of the Hetzner provider outside rehearsal, on the parameters of an
empty JSON object, with the client that lists one ISO. -/
def isoContext : hetzner.ActionContext :=
  { Rehearsal := false, HClient := clientOneISO, Action := sampleAction jsonEmpty,
    Store := storeOK }

/-- A successful response of unknown length (`ContentLength = -1`, as for a
chunked transfer) whose body is the text `hello`. -/
def chunkedResponse : Response :=
  { Status := lit "200 OK", StatusCode := 200, Header := [], ContentLength := -1,
    Body := .ok (lit "hello") }

/-- The sample environment with the network up: every request is answered with `resp`. -/
def answeringEnv (resp : Response) : Env :=
  { sampleEnv with Do := fun _ => .ok resp }

/-- The value of the one record of the output that a run returned, if it returned one. -/
def outputValue (res : Ret × World) : Option Value :=
  match res.1 with
  | .ret (some p, none) =>
    ((res.2.heap.firstRecord p).bind res.2.heap.record?).map (fun r => r.Value)
  | _ => none

/-- The type `NextType` with its constants `NextOKKO` (0), `NextOK` (1) and `NextKO` (2). -/
inductive hetzner.NextType where
  | NextOKKO
  | NextOK
  | NextKO
deriving DecidableEq, Repr

/-- The value of a `NextType` constant (`iota`, from `NextOKKO = 0`). -/
def hetzner.NextType.toInt : hetzner.NextType → Int
  | .NextOKKO => 0
  | .NextOK => 1
  | .NextKO => 2

/-- The type `ActionFunc`, as far as `ActionFuncMap` uses it: the package-level
functions that the entries of the table name, each by its identifier. A Go
function value cannot be compared; two entries hold the same function when
they name the same declared function. -/
inductive hetzner.ActionFunc where
  | CreateFloatingIP
  | DeleteFloatingIP
  | FindFloatingIPs
  | FindOneFloatingIP
  | AssignFloatingIP
  | UnassignFloatingIP
  | FindImages
  | FindOneImage
  | CreateServer
  | DeleteServer
  | FindServers
  | FindOneServer
  | PowerOnServer
  | PowerOffServer
  | CreateNetwork
  | DeleteNetwork
  | FindNetworks
  | FindOneNetwork
  | CreateVolume
  | DeleteVolume
  | FindVolumes
  | FindOneVolume
  | AttachVolume
  | DetachVolume
  | FindDatacenters
  | FindOneDatacenter
  | CreateFirewall
  | DeleteFirewall
  | FindFirewalls
  | FindOneFirewall
  | ApplyToResourcesFirewall
  | RemoveFromResourcesFirewall
  | SetRulesFirewall
  | FindISOs
  | FindOneISO
  | CreateLoadBalancer
  | DeleteLoadBalancer
  | FindLoadBalancers
  | FindOneLoadBalancer
  | AttachToNetworkLoadBalancer
  | DetachFromNetworkLoadBalancer
  | FindLocations
  | FindOneLocation
  | CreatePrimaryIP
  | DeletePrimaryIP
  | FindPrimaryIPs
  | FindOnePrimaryIP
  | AssignPrimaryIP
  | UnassignPrimaryIP
  | CreateSSHKey
  | DeleteSSHKey
  | FindSSHKeys
  | FindOneSSHKey
  | AddTargetToLoadBalancer
  | RemoveTargetToLoadBalancer
deriving DecidableEq, Repr

/-- The struct `ActionLayout`. -/
structure hetzner.ActionLayout where
  F : hetzner.ActionFunc
  N : hetzner.NextType
deriving DecidableEq, Repr

/-- The entries of the map literal `ActionFuncMap`, in the order of the source. -/
def hetzner.ActionFuncMap : List (GoString × hetzner.ActionLayout) :=
  [ (lit "create_floating_ip", { F := .CreateFloatingIP, N := .NextOKKO }),
    (lit "delete_floating_ip", { F := .DeleteFloatingIP, N := .NextOKKO }),
    (lit "find_floating_ips", { F := .FindFloatingIPs, N := .NextOKKO }),
    (lit "findone_floating_ip", { F := .FindOneFloatingIP, N := .NextOKKO }),
    (lit "assign_floating_ip", { F := .AssignFloatingIP, N := .NextOKKO }),
    (lit "unassign_floating_ip", { F := .UnassignFloatingIP, N := .NextOKKO }),
    (lit "find_images", { F := .FindImages, N := .NextOKKO }),
    (lit "findone_image", { F := .FindOneImage, N := .NextOKKO }),
    (lit "delete_image", { F := .FindOneImage, N := .NextOKKO }),
    (lit "create_server", { F := .CreateServer, N := .NextOKKO }),
    (lit "delete_server", { F := .DeleteServer, N := .NextOKKO }),
    (lit "find_servers", { F := .FindServers, N := .NextOKKO }),
    (lit "findone_server", { F := .FindOneServer, N := .NextOKKO }),
    (lit "start_server", { F := .PowerOnServer, N := .NextOKKO }),
    (lit "stop_server", { F := .PowerOffServer, N := .NextOKKO }),
    (lit "create_network", { F := .CreateNetwork, N := .NextOKKO }),
    (lit "delete_network", { F := .DeleteNetwork, N := .NextOKKO }),
    (lit "find_networks", { F := .FindNetworks, N := .NextOKKO }),
    (lit "findone_network", { F := .FindOneNetwork, N := .NextOKKO }),
    (lit "create_volume", { F := .CreateVolume, N := .NextOKKO }),
    (lit "delete_volume", { F := .DeleteVolume, N := .NextOKKO }),
    (lit "find_volumes", { F := .FindVolumes, N := .NextOKKO }),
    (lit "findone_volume", { F := .FindOneVolume, N := .NextOKKO }),
    (lit "attach_volume", { F := .AttachVolume, N := .NextOKKO }),
    (lit "detach_volume", { F := .DetachVolume, N := .NextOKKO }),
    (lit "find_datacenters", { F := .FindDatacenters, N := .NextOKKO }),
    (lit "findone_datacenter", { F := .FindOneDatacenter, N := .NextOKKO }),
    (lit "create_firewall", { F := .CreateFirewall, N := .NextOKKO }),
    (lit "delete_firewall", { F := .DeleteFirewall, N := .NextOKKO }),
    (lit "find_firewalls", { F := .FindFirewalls, N := .NextOKKO }),
    (lit "findone_firewall", { F := .FindOneFirewall, N := .NextOKKO }),
    (lit "apply_to_resources_firewall", { F := .ApplyToResourcesFirewall, N := .NextOKKO }),
    (lit "remove_from_resources_firewall", { F := .RemoveFromResourcesFirewall, N := .NextOKKO }),
    (lit "set_rules_firewall", { F := .SetRulesFirewall, N := .NextOKKO }),
    (lit "find_isos", { F := .FindISOs, N := .NextOKKO }),
    (lit "findone_iso", { F := .FindOneISO, N := .NextOKKO }),
    (lit "create_load_balancer", { F := .CreateLoadBalancer, N := .NextOKKO }),
    (lit "delete_load_balancer", { F := .DeleteLoadBalancer, N := .NextOKKO }),
    (lit "find_load_balancers", { F := .FindLoadBalancers, N := .NextOKKO }),
    (lit "findone_load_balancer", { F := .FindOneLoadBalancer, N := .NextOKKO }),
    (lit "attach_to_network_load_balancer", { F := .AttachToNetworkLoadBalancer, N := .NextOKKO }),
    (lit "dettach_from_network_load_balancer", { F := .DetachFromNetworkLoadBalancer, N := .NextOKKO }),
    (lit "find_locations", { F := .FindLocations, N := .NextOKKO }),
    (lit "findone_location", { F := .FindOneLocation, N := .NextOKKO }),
    (lit "create_primary_ip", { F := .CreatePrimaryIP, N := .NextOKKO }),
    (lit "delete_primary_ip", { F := .DeletePrimaryIP, N := .NextOKKO }),
    (lit "find_primary_ips", { F := .FindPrimaryIPs, N := .NextOKKO }),
    (lit "findone_primary_ip", { F := .FindOnePrimaryIP, N := .NextOKKO }),
    (lit "assign_primary_ip", { F := .AssignPrimaryIP, N := .NextOKKO }),
    (lit "unassign_primary_ip", { F := .UnassignPrimaryIP, N := .NextOKKO }),
    (lit "create_ssh_key", { F := .CreateSSHKey, N := .NextOKKO }),
    (lit "delete_ssh_key", { F := .DeleteSSHKey, N := .NextOKKO }),
    (lit "find_ssh_keys", { F := .FindSSHKeys, N := .NextOKKO }),
    (lit "findone_ssh_key", { F := .FindOneSSHKey, N := .NextOKKO }),
    (lit "add_target", { F := .AddTargetToLoadBalancer, N := .NextOKKO }),
    (lit "remove_target", { F := .RemoveTargetToLoadBalancer, N := .NextOKKO }) ]

/-- The lookup `ActionFuncMap[key]` (`none` for a key that is not in the map). -/
def hetzner.ActionFuncMap.get? (key : GoString) : Option hetzner.ActionLayout :=
  hetzner.ActionFuncMap.lookup key

/-- Whether the request body that `HttpRequest` builds for `p` names a file to
read, by the cases of the `switch p.BodyType` that reach the filesystem:
`case BodyTypeFormData` with a part of type `PartTypeFile` in the decoded
body, and `case BodyTypeBinary`. -/
def generic.bodyNamesFile (env : Env) (ctx : generic.ActionContext)
    (p : httpRequestParameters) : Bool :=
  if p.BodyType = BodyTypeFormData then
    match env.UnmarshalValidJSON .httpRequestParametersMultiPartBody ctx.Action.Parameters with
    | .error _ => false
    | .ok param =>
      param.MultipartBody.any (fun part =>
        match part with
        | some x => decide (x.PType = PartTypeFile)
        | none => false)
  else decide (p.BodyType = BodyTypeBinary)

/-- The JSON text of the parameters of a request without a body and with one
header whose value holds a variable. -/
def jsonNoBody : Blob :=
  lit ("\x7b\"http_verb\":\"GET\",\"endpoint\":\"http://h/\",\"body_type\":\"none\"," ++
    "\"headers\":[\x7b\"name\":\"X-Token\",\"value\":\"\x7b\x7b token \x7d\x7d\"\x7d]\x7d")

/-- The JSON text of the parameters of a request with a `form-data` body of one
part of type `file`, and one header whose value holds a variable. -/
def jsonFormFile : Blob :=
  lit ("\x7b\"http_verb\":\"POST\",\"endpoint\":\"http://h/\",\"body_type\":\"form-data\"," ++
    "\"headers\":[\x7b\"name\":\"X-Token\",\"value\":\"\x7b\x7b token \x7d\x7d\"\x7d]," ++
    "\"body\":[\x7b\"name\":\"f\",\"value\":\"/etc/motd\",\"type\":\"file\"\x7d]\x7d")

/-- A sample of `json.Unmarshal` that also knows the texts `jsonNoBody` and
`jsonFormFile`. -/
def moreJsonUnmarshal : (t : GoType) → Blob → Except GoError t.type
  | .httpRequestParameters, b =>
    if b = jsonNoBody then
      .ok { Method := some (lit "GET"), Url := some (lit "http://h/"),
            Headers := [some { Key := some (lit "X-Token"),
                               Value := some (lit "\x7b\x7b token \x7d\x7d") }],
            BodyType := BodyTypeNone }
    else if b = jsonFormFile then
      .ok { Method := some (lit "POST"), Url := some (lit "http://h/"),
            Headers := [some { Key := some (lit "X-Token"),
                               Value := some (lit "\x7b\x7b token \x7d\x7d") }],
            BodyType := BodyTypeFormData }
    else sampleJsonUnmarshal .httpRequestParameters b
  | t, b => sampleJsonUnmarshal t b

/-- A sample of `util.UnmarshalValidJSON` that also knows the body of `jsonFormFile`. -/
def moreUnmarshalValidJSON : (t : GoType) → Blob → Except GoError t.type
  | .httpRequestParametersMultiPartBody, b =>
    if b = jsonFormFile then
      .ok { MultipartBody := [some { Name := some (lit "f"), Value := some (lit "/etc/motd"),
                                     PType := PartTypeFile, ContentType := none }] }
    else .error (.ext 2)
  | t, b => sampleUnmarshalValidJSON t b

/-- The sample environment with the two decoders above. -/
def moreEnv : Env :=
  { sampleEnv with jsonUnmarshal := moreJsonUnmarshal
                   UnmarshalValidJSON := moreUnmarshalValidJSON }


/-- A source whose script is two chunks, and then the end of the stream. -/
def chunkedSource : FD :=
  { rscript := [{ data := [10], err := none }, { data := [11, 12], err := none }],
    wscript := [], wbuf := [] }

/-- An endpoint with nothing to read that takes every write. -/
def quietEndpoint : FD := { rscript := [], wscript := [], wbuf := [] }

/-- A source whose only `Read` delivers two bytes together with an error. -/
def lastReadFails : FD :=
  { rscript := [{ data := [1, 2], err := some (.ext 7) }], wscript := [], wbuf := [] }

/-- A source that holds one byte and then ends. -/
def shortSource : FD :=
  { rscript := [{ data := [5], err := none }], wscript := [], wbuf := [] }

/-! # Theorems -/

/-! ## `NewActionOutput` -/

theorem get?_append_length {α : Type} (l : List α) (x : α) :
    (l ++ [x]).get? l.length = some x := by
  induction l with
  | nil => rfl
  | cons y ys ih => simp

theorem modify_append_length {α : Type} (f : α → α) (l : List α) (x : α) :
    (l ++ [x]).modify f l.length = l ++ [f x] := by
  induction l with
  | nil => rfl
  | cons y ys ih => simpa [List.modify] using ih

/-- What `NewActionOutput` leaves in the heap, for a non-nil action: the old
objects, then one new output and one new record that point at each other. -/
theorem NewActionOutput_some {Val : Type} (h : Heap Val) (a : Action) (v : Val)
    (id : Option GoString) :
    NewActionOutput h (some a) v id =
      (.ret h.outputs.length,
       { outputs := h.outputs ++ [{ Action := some a, Records := [h.records.length] }],
         records := h.records ++
           [{ Action := some a, RawSource := v, Value := v,
              ValueID := id.getD [], RefName := a.Output.getD [],
              Aout := some h.outputs.length }] }) := by
  cases id <;> cases hO : a.Output <;>
    simp [NewActionOutput, Heap.allocOutput, Heap.allocRecord, Heap.modifyRecord,
      Heap.modifyOutput, hO, modify_append_length]

/-- C1: for every non-nil action, value and optional id, `NewActionOutput`
returns (it does not panic) a pointer to an output whose `Records` has exactly
one element. -/
theorem NewActionOutput_exactly_one_record {Val : Type} (h : Heap Val) (a : Action) (v : Val)
    (id : Option GoString) :
    ∃ p out, (NewActionOutput h (some a) v id).1 = .ret p ∧
      (NewActionOutput h (some a) v id).2.output? p = some out ∧
      out.Records.length = 1 := by
  refine ⟨h.outputs.length, { Action := some a, Records := [h.records.length] }, ?_, ?_, rfl⟩
  · rw [NewActionOutput_some]
  · rw [NewActionOutput_some]
    exact get?_append_length _ _

/-- C2: for every non-nil action, value and optional id, the single record `r`
of `out = NewActionOutput(action, v, id)` has `Aout` pointing at `out` itself,
so following `out.Records[0].Aout.Records[0]` leads back to `out.Records[0]`;
the `Action` of the output and of the record are both the given action. -/
theorem NewActionOutput_record_points_back {Val : Type} (h : Heap Val) (a : Action) (v : Val)
    (id : Option GoString) :
    ∃ p out r rec, (NewActionOutput h (some a) v id).1 = .ret p ∧
      (NewActionOutput h (some a) v id).2.output? p = some out ∧
      out.Records = [r] ∧
      (NewActionOutput h (some a) v id).2.record? r = some rec ∧
      rec.Aout = some p ∧
      ((NewActionOutput h (some a) v id).2.owner r).bind
        ((NewActionOutput h (some a) v id).2.firstRecord) = some r ∧
      out.Action = some a ∧ rec.Action = some a := by
  rw [NewActionOutput_some]
  refine ⟨h.outputs.length, { Action := some a, Records := [h.records.length] },
    h.records.length, _, rfl, get?_append_length _ _, rfl, get?_append_length _ _, rfl, ?_,
    rfl, rfl⟩
  simp [Heap.owner, Heap.firstRecord, Heap.record?, Heap.output?, get?_append_length]

/-- C3: for every non-nil action, value and optional id, the record built by
`NewActionOutput` has `RefName` equal to `*action.Output` when `action.Output`
is not nil, and equal to the empty string when it is nil. -/
theorem NewActionOutput_RefName {Val : Type} (h : Heap Val) (a : Action) (v : Val)
    (id : Option GoString) :
    ∃ p out r rec, (NewActionOutput h (some a) v id).1 = .ret p ∧
      (NewActionOutput h (some a) v id).2.output? p = some out ∧
      out.Records = [r] ∧
      (NewActionOutput h (some a) v id).2.record? r = some rec ∧
      rec.RefName = (match a.Output with
        | some name => name
        | none => []) := by
  rw [NewActionOutput_some]
  refine ⟨h.outputs.length, { Action := some a, Records := [h.records.length] },
    h.records.length, _, rfl, get?_append_length _ _, rfl, get?_append_length _ _, ?_⟩
  cases a.Output <;> rfl

/-! ## `io.CopyN` and the relay calls -/

theorem FD_Read_length_le (fd : FD) (m : Nat) : (fd.Read m).1.1.length ≤ m := by
  unfold FD.Read
  split
  · simp
  · split
    · assumption
    · simp

theorem FD_Read_turns (fd : FD) (m : Nat) (hm : 1 ≤ m) (h : (fd.Read m).1.2 = none) :
    turns (fd.Read m).2.rscript < turns fd.rscript := by
  unfold FD.Read at h ⊢
  split at h
  · simp at h
  · rename_i ev rest heq
    rw [heq]
    split
    · simp [turns]
    · rename_i hlt
      simp [turns]
      omega

theorem FD_Write_count (d : FD) (p : List Byte) :
    0 ≤ (d.Write p).1.1 ∧ (d.Write p).1.1 ≤ p.length ∧
      ((d.Write p).2.wbuf.length : Int) = d.wbuf.length + (d.Write p).1.1 := by
  unfold FD.Write
  split
  · simp
  · simp

theorem turns_pos (s : List ReadEv) : 1 ≤ turns s := by
  cases s with
  | nil => simp [turns]
  | cons ev rest => simp [turns]; omega

theorem copyStep_spec (size : Nat) (hsize : 1 ≤ size) (d fd : FD) (N w : Int) :
    (∃ w' e d' fd' N', copyStep size ⟨some d, ⟨some fd, N⟩, w⟩ =
        .leave (.ret (w', e), ⟨some d', ⟨some fd', N'⟩, w'⟩) ∧
      w ≤ w' ∧ (w' = w ∨ w' - w ≤ N) ∧
      (d'.wbuf.length : Int) = d.wbuf.length + (w' - w)) ∨
    (∃ w' d' fd', copyStep size ⟨some d, ⟨some fd, N⟩, w⟩ =
        .again ⟨some d', ⟨some fd', N - (w' - w)⟩, w'⟩ ∧
      w ≤ w' ∧ w' - w ≤ N ∧
      (d'.wbuf.length : Int) = d.wbuf.length + (w' - w) ∧
      turns fd'.rscript < turns fd.rscript) := by
  by_cases hN : N ≤ 0
  · left
    refine ⟨w, none, d, fd, N, ?_, le_refl _, Or.inl rfl, by simp⟩
    simp [copyStep, LimitedReader.Read, hN]
  · have hlen := FD_Read_length_le fd (if (size : Int) > N then N.toNat else size)
    have hturns := FD_Read_turns fd (if (size : Int) > N then N.toNat else size)
      (by split <;> omega)
    rcases hR : fd.Read (if (size : Int) > N then N.toNat else size) with ⟨⟨buf, er⟩, fd1⟩
    rw [hR] at hlen hturns
    simp only at hlen hturns
    have hbuf : (buf.length : Int) ≤ N := by
      split at hlen <;> omega
    by_cases hb : 0 < buf.length
    · have hW := FD_Write_count d buf
      rcases hWr : d.Write buf with ⟨⟨nw, ew⟩, d1⟩
      rw [hWr] at hW
      simp only at hW
      obtain ⟨hW0, hW1, hW2⟩ := hW
      have hbad : (decide (nw < 0) || decide ((buf.length : Int) < nw)) = false := by
        simp; omega
      have hneg : ¬ nw < 0 := by omega
      have hgt : ¬ (buf.length : Int) < nw := by omega
      cases ew with
      | some e =>
        left
        refine ⟨w + nw, some e, d1, fd1, N - buf.length, ?_, by omega, Or.inr (by omega),
          by omega⟩
        simp [copyStep, LimitedReader.Read, hN, hR, hb, hWr, hbad]
      | none =>
        by_cases hnw : (buf.length : Int) = nw
        · cases er with
          | some e =>
            left
            refine ⟨w + nw, if e = .EOF then none else some e, d1, fd1, N - buf.length, ?_,
              by omega, Or.inr (by omega), by omega⟩
            simp [copyStep, LimitedReader.Read, hN, hR, hb, hWr, hbad, hnw, hneg, hgt]
          | none =>
            right
            refine ⟨w + nw, d1, fd1, ?_, by omega, by omega, by omega, hturns rfl⟩
            simp [copyStep, LimitedReader.Read, hN, hR, hb, hWr, hbad, hnw, hneg, hgt]
        · left
          refine ⟨w + nw, some .ErrShortWrite, d1, fd1, N - buf.length, ?_, by omega,
            Or.inr (by omega), by omega⟩
          simp [copyStep, LimitedReader.Read, hN, hR, hb, hWr, hbad, hnw, hneg, hgt]
    · have hb0 : buf.length = 0 := by omega
      cases er with
      | some e =>
        left
        refine ⟨w, if e = .EOF then none else some e, d, fd1, N - buf.length, ?_,
          le_refl _, Or.inl rfl, by simp⟩
        simp [copyStep, LimitedReader.Read, hN, hR, hb]
      | none =>
        right
        refine ⟨w, d, fd1, ?_, le_refl _, by omega, by simp, hturns rfl⟩
        simp [copyStep, LimitedReader.Read, hN, hR, hb, hb0]

theorem copyLoop_returns (size : Nat) (hsize : 1 ≤ size) :
    ∀ (fuel : Nat) (d fd : FD) (N w : Int), turns fd.rscript ≤ fuel →
      ∃ w' e d' fd' N', copyLoop size fuel ⟨some d, ⟨some fd, N⟩, w⟩ =
          some (.ret (w', e), ⟨some d', ⟨some fd', N'⟩, w'⟩) ∧
        w ≤ w' ∧ (w' = w ∨ w' - w ≤ N) ∧
        (d'.wbuf.length : Int) = d.wbuf.length + (w' - w) := by
  intro fuel
  induction fuel with
  | zero =>
    intro d fd N w h
    have := turns_pos fd.rscript
    omega
  | succ fuel ih =>
    intro d fd N w h
    rcases copyStep_spec size hsize d fd N w with
      ⟨w', e, d', fd', N', hs, h1, h2, h3⟩ | ⟨w1, d1, fd1, hs, h1, h2, h3, h4⟩
    · exact ⟨w', e, d', fd', N', by simp [copyLoop, hs], h1, h2, h3⟩
    · obtain ⟨w', e, d', fd', N', hl, g1, g2, g3⟩ :=
        ih d1 fd1 (N - (w1 - w)) w1 (by omega)
      refine ⟨w', e, d', fd', N', by simp [copyLoop, hs, hl], by omega, ?_, by omega⟩
      rcases g2 with g2 | g2
      · right; omega
      · right; omega

theorem FD_Read_split (fd : FD) (m : Nat) (hne : fd.rscript ≠ []) :
    (fd.Read m).2.wscript = fd.wscript ∧ (fd.Read m).2.wbuf = fd.wbuf ∧
    pending fd.rscript = (fd.Read m).1.1 ++ pending (fd.Read m).2.rscript ∧
    ((fd.Read m).1.2 = none →
      readable fd.rscript = (fd.Read m).1.1 ++ readable (fd.Read m).2.rscript) ∧
    ((fd.Read m).1.2 ≠ none → readable fd.rscript = (fd.Read m).1.1) := by
  unfold FD.Read
  split
  · rename_i heq
    exact absurd heq hne
  · rename_i ev rest heq
    rw [heq]
    split
    · refine ⟨rfl, rfl, by simp [pending], ?_, ?_⟩
      · intro h
        simp only at h
        simp [readable, h]
      · intro h
        simp only at h
        cases he : ev.err with
        | none => exact absurd he h
        | some e => simp [readable, he]
    · refine ⟨rfl, rfl, ?_, ?_, ?_⟩
      · simp only [pending, List.map_cons, List.flatten_cons]
        rw [← List.append_assoc, List.take_append_drop]
      · intro _
        cases he : ev.err with
        | none =>
          simp only [readable, he]
          rw [← List.append_assoc, List.take_append_drop]
        | some e =>
          simp only [readable, he]
          rw [List.take_append_drop]
      · intro h
        exact absurd rfl h

/-- One turn of the copy loop when the limit is not used up and the destination
takes every write: the bytes read are appended to the destination. -/
theorem copyStep_eval (size : Nat) (d fd fd1 : FD) (N w : Int) (buf : List Byte)
    (er : Option GoError) (hN : 0 < N) (hd : d.wscript = [])
    (hR : fd.Read (if (size : Int) > N then N.toNat else size) = ((buf, er), fd1)) :
    copyStep size ⟨some d, ⟨some fd, N⟩, w⟩ =
      match er with
      | some e => .leave (.ret (w + buf.length, if e = .EOF then none else some e),
          ⟨some { d with wbuf := d.wbuf ++ buf }, ⟨some fd1, N - buf.length⟩, w + buf.length⟩)
      | none => .again
          ⟨some { d with wbuf := d.wbuf ++ buf }, ⟨some fd1, N - buf.length⟩, w + buf.length⟩ := by
  have hNpos : ¬ (N ≤ 0) := by omega
  have hWr : d.Write buf = (((buf.length : Int), none), { d with wbuf := d.wbuf ++ buf }) := by
    simp [FD.Write, hd]
  have hneg : ¬ ((buf.length : Int) < 0) := by omega
  by_cases hb : 0 < buf.length
  · cases er <;> simp [copyStep, LimitedReader.Read, hNpos, hR, hb, hWr, hneg]
  · have hb0 : buf = [] := by
      cases buf with
      | nil => rfl
      | cons x xs => simp at hb
    subst hb0
    cases er <;> simp [copyStep, LimitedReader.Read, hNpos, hR]

theorem copyLoop_readable (size : Nat) (hsize : 1 ≤ size) :
    ∀ (fuel : Nat) (d fd : FD) (N : Nat) (w : Int), d.wscript = [] →
      N ≤ (readable fd.rscript).length → turns fd.rscript ≤ fuel →
      ∃ e fd', copyLoop size fuel ⟨some d, ⟨some fd, (N : Int)⟩, w⟩ =
          some (.ret (w + N, e),
            ⟨some { d with wbuf := d.wbuf ++ (pending fd.rscript).take N },
             ⟨some fd', 0⟩, w + N⟩) ∧
        pending fd'.rscript = (pending fd.rscript).drop N ∧
        fd'.wscript = fd.wscript ∧ fd'.wbuf = fd.wbuf := by
  intro fuel
  induction fuel with
  | zero =>
    intro d fd N w _ _ h
    have := turns_pos fd.rscript
    omega
  | succ fuel ih =>
    intro d fd N w hd hN hfuel
    by_cases hN0 : N = 0
    · subst hN0
      refine ⟨none, fd, ?_, by simp, rfl, rfl⟩
      simp [copyLoop, copyStep, LimitedReader.Read]
    · have hne : fd.rscript ≠ [] := by
        intro h
        rw [h] at hN
        simp [readable] at hN
        exact hN0 hN
      have hNpos : 0 < (N : Int) := by omega
      have hm : 1 ≤ (if (size : Int) > (N : Int) then (N : Int).toNat else size) := by
        split <;> omega
      have hlen := FD_Read_length_le fd (if (size : Int) > (N : Int) then (N : Int).toNat else size)
      have hturns := FD_Read_turns fd _ hm
      obtain ⟨hs1, hs2, hs3, hs4, hs5⟩ := FD_Read_split fd
        (if (size : Int) > (N : Int) then (N : Int).toNat else size) hne
      rcases hR : fd.Read (if (size : Int) > (N : Int) then (N : Int).toNat else size) with
        ⟨⟨buf, er⟩, fd1⟩
      rw [hR] at hlen hturns hs1 hs2 hs3 hs4 hs5
      simp only at hlen hturns hs1 hs2 hs3 hs4 hs5
      have hbuf : buf.length ≤ N := by
        split at hlen <;> omega
      have hstep := copyStep_eval size d fd fd1 N w buf er hNpos hd hR
      cases er with
      | some e =>
        have hrd := hs5 (by simp)
        have hbN : buf.length = N := by
          rw [hrd] at hN
          omega
        refine ⟨if e = .EOF then none else some e, fd1, ?_, ?_, hs1, hs2⟩
        · simp only [copyLoop, hstep]
          rw [hs3, List.take_append_eq_append_take, List.take_of_length_le hbuf]
          simp [hbN]
        · simp [hs3, ← hbN]
      | none =>
        have hrd := hs4 rfl
        have hN1 : N - buf.length ≤ (readable fd1.rscript).length := by
          rw [hrd] at hN
          simp at hN
          omega
        obtain ⟨e, fd', hl, g1, g2, g3⟩ :=
          ih { d with wbuf := d.wbuf ++ buf } fd1 (N - buf.length) (w + buf.length) hd hN1
            (by have := hturns rfl; omega)
        refine ⟨e, fd', ?_, ?_, by rw [g2, hs1], by rw [g3, hs2]⟩
        · have hcast : ((N - buf.length : Nat) : Int) = (N : Int) - (buf.length : Int) := by
            omega
          rw [hcast] at hl
          have htake : (pending fd.rscript).take N =
              buf ++ (pending fd1.rscript).take (N - buf.length) := by
            rw [hs3, List.take_append_eq_append_take, List.take_of_length_le hbuf]
          simp only [copyLoop, hstep]
          rw [hl, htake]
          have hw : w + (buf.length : Int) + ((N : Int) - (buf.length : Int)) = w + N := by omega
          simp [hw]
        · rw [g1, hs3]
          rw [List.drop_append_eq_append_drop, List.drop_of_length_le hbuf]
          simp

theorem readable_length_le_pending (s : List ReadEv) :
    (readable s).length ≤ (pending s).length := by
  induction s with
  | nil => simp [readable, pending]
  | cons ev rest ih =>
    cases he : ev.err with
    | none =>
      simp only [readable, he, pending, List.map_cons, List.flatten_cons, List.length_append]
      simp only [pending] at ih
      omega
    | some e =>
      simp only [readable, he, pending, List.map_cons, List.flatten_cons, List.length_append]
      omega

theorem copy_size_pos (N : Int) :
    1 ≤ (if ((32 * 1024 : Nat) : Int) > N then (if N < 1 then 1 else N.toNat) else 32 * 1024) := by
  split
  · split <;> omega
  · omega

/-- A transfer of `K` bytes from a source that can deliver them to a destination
that takes every write: `io.CopyN` reports no error and moves exactly the first
`K` bytes. -/
theorem CopyN_readable (fuel K : Nat) (src dst : FD) (hK : K ≤ (readable src.rscript).length)
    (hdst : dst.wscript = []) (hfuel : turns src.rscript ≤ fuel) :
    ∃ src', CopyN fuel (some dst) (some src) (K : Int) =
        some (.ret ((K : Int), none),
          some { dst with wbuf := dst.wbuf ++ (pending src.rscript).take K }, some src') ∧
      pending src'.rscript = (pending src.rscript).drop K ∧
      src'.wscript = src.wscript ∧ src'.wbuf = src.wbuf := by
  obtain ⟨e, src', hl, g1, g2, g3⟩ :=
    copyLoop_readable _ (copy_size_pos (K : Int)) fuel dst src K 0 hdst hK hfuel
  refine ⟨src', ?_, g1, g2, g3⟩
  simp only [CopyN, Copy]
  rw [hl]
  simp

/-- The transfer of `io.CopyN` between two bound endpoints always comes back, with
an error exactly when fewer than `n` bytes reached the destination. -/
theorem CopyN_returns (fuel : Nat) (src dst : FD) (n : Int) (hn : 0 < n)
    (hfuel : turns src.rscript ≤ fuel) :
    ∃ (k : Nat) (written : Int) (err : Option GoError) (dst' src' : FD),
      CopyN fuel (some dst) (some src) n = some (.ret (written, err), some dst', some src') ∧
      (k : Int) ≤ n ∧ dst'.wbuf.length = dst.wbuf.length + k ∧
      ((k : Int) < n → err ≠ none) ∧ ((k : Int) = n → err = none) := by
  obtain ⟨w', e, d', fd', N', hl, h1, h2, h3⟩ :=
    copyLoop_returns _ (copy_size_pos n) fuel dst src n 0 hfuel
  have hk : ((w'.toNat : Nat) : Int) = w' := by omega
  by_cases hw : w' = n
  · refine ⟨w'.toNat, n, none, d', fd', ?_, by omega, by omega, by omega, fun _ => rfl⟩
    simp only [CopyN, Copy]
    rw [hl]
    simp [hw]
  · have hlt : w' < n := by omega
    cases e with
    | none =>
      refine ⟨w'.toNat, w', some .EOF, d', fd', ?_, by omega, by omega, by simp, by omega⟩
      simp only [CopyN, Copy]
      rw [hl]
      simp [hw, hlt]
    | some e =>
      refine ⟨w'.toNat, w', some e, d', fd', ?_, by omega, by omega, by simp, by omega⟩
      simp only [CopyN, Copy]
      rw [hl]
      simp [hw]

/-- C4: for every `K ≥ 0`, every source endpoint that holds at least `K` readable
bytes and every destination endpoint that takes all writes, a relay call of
size `K` (given enough loop turns) returns, appends exactly the first `K`
bytes of the source, in order, to what the destination has received, takes
exactly those `K` bytes off the source, and leaves the error list as it was.
First conjunct: `ReceiveSluvaBuff` (sluva to mustar); second:
`ReceiveMustarBuff` (mustar to sluva). -/
theorem relay_moves_exactly_K_bytes (fuel K : Nat) (src dst : FD) (errs : List GoError)
    (hK : K ≤ (readable src.rscript).length) (hdst : dst.wscript = [])
    (hfuel : turns src.rscript ≤ fuel) :
    (∃ src', RawLdisc.ReceiveSluvaBuff fuel
          { mustarFD := some dst, sluvaFD := some src, errs := errs } (K : Int) =
        some (.ret (),
          { mustarFD := some { dst with wbuf := dst.wbuf ++ (pending src.rscript).take K },
            sluvaFD := some src', errs := errs }) ∧
      ((pending src.rscript).take K).length = K ∧
      pending src'.rscript = (pending src.rscript).drop K ∧
      src'.wscript = src.wscript ∧ src'.wbuf = src.wbuf) ∧
    (∃ src', RawLdisc.ReceiveMustarBuff fuel
          { mustarFD := some src, sluvaFD := some dst, errs := errs } (K : Int) =
        some (.ret (),
          { mustarFD := some src',
            sluvaFD := some { dst with wbuf := dst.wbuf ++ (pending src.rscript).take K },
            errs := errs }) ∧
      ((pending src.rscript).take K).length = K ∧
      pending src'.rscript = (pending src.rscript).drop K ∧
      src'.wscript = src.wscript ∧ src'.wbuf = src.wbuf) := by
  obtain ⟨src', hc, g1, g2, g3⟩ := CopyN_readable fuel K src dst hK hdst hfuel
  have hlen : ((pending src.rscript).take K).length = K := by
    have := readable_length_le_pending src.rscript
    simp
    omega
  constructor
  · refine ⟨src', ?_, hlen, g1, g2, g3⟩
    simp only [RawLdisc.ReceiveSluvaBuff]
    rw [hc]
  · refine ⟨src', ?_, hlen, g1, g2, g3⟩
    simp only [RawLdisc.ReceiveMustarBuff]
    rw [hc]

/-- Witness of `relay_moves_exactly_K_bytes`: two bytes out of a source that
delivers `10` and then `11, 12`. -/
theorem relay_moves_exactly_K_bytes_witness :
    (2 ≤ (readable chunkedSource.rscript).length ∧ quietEndpoint.wscript = [] ∧
      turns chunkedSource.rscript ≤ 6) ∧
    ∃ src', RawLdisc.ReceiveSluvaBuff 6
          { mustarFD := some quietEndpoint, sluvaFD := some chunkedSource,
            errs := [.ext 1] } ((2 : Nat) : Int) =
        some (.ret (),
          { mustarFD := some { quietEndpoint with wbuf := [10, 11] },
            sluvaFD := some src', errs := [.ext 1] }) ∧
      pending src'.rscript = [12] :=
  ⟨⟨by decide, by decide, by decide⟩,
    (relay_moves_exactly_K_bytes 6 2 chunkedSource quietEndpoint [.ext 1]
      (by decide) (by decide) (by decide)).1.imp (fun _ h => ⟨h.1, h.2.2.1⟩)⟩

/-- C5, as stated, fails: the only `Read` of the transfer returns an error
(together with the two bytes asked for), and the relay call leaves the error
list as it was, in both directions. -/
theorem relay_drops_error_reported_with_last_bytes :
    (lastReadFails.Read 2).1 = ([1, 2], some (.ext 7)) ∧
    RawLdisc.ReceiveSluvaBuff 4
        { mustarFD := some quietEndpoint, sluvaFD := some lastReadFails, errs := [] } 2 =
      some (.ret (),
        { mustarFD := some { quietEndpoint with wbuf := [1, 2] },
          sluvaFD := some { lastReadFails with rscript := [] }, errs := [] }) ∧
    RawLdisc.ReceiveMustarBuff 4
        { mustarFD := some lastReadFails, sluvaFD := some quietEndpoint, errs := [] } 2 =
      some (.ret (),
        { mustarFD := some { lastReadFails with rscript := [] },
          sluvaFD := some { quietEndpoint with wbuf := [1, 2] }, errs := [] }) := by
  decide

/-- C5 (amended): for every `n > 0` and both relay directions with both endpoints
bound, the call (given enough loop turns) returns normally; with `k ≤ n` the
number of bytes that reached the destination, the error list afterwards is the
previous list with exactly one error appended at the end when `k < n`, and is
the previous list when `k = n`. First conjunct: `ReceiveSluvaBuff`; second:
`ReceiveMustarBuff`. -/
theorem relay_short_transfer_appends_one_error (fuel : Nat) (src dst : FD)
    (errs : List GoError) (n : Int) (hn : 0 < n) (hfuel : turns src.rscript ≤ fuel) :
    (∃ (k : Nat) (dst' src' : FD) (errs' : List GoError),
      RawLdisc.ReceiveSluvaBuff fuel
          { mustarFD := some dst, sluvaFD := some src, errs := errs } n =
        some (.ret (), { mustarFD := some dst', sluvaFD := some src', errs := errs' }) ∧
      (k : Int) ≤ n ∧ dst'.wbuf.length = dst.wbuf.length + k ∧
      ((k : Int) < n → ∃ e, errs' = errs ++ [e]) ∧ ((k : Int) = n → errs' = errs)) ∧
    (∃ (k : Nat) (dst' src' : FD) (errs' : List GoError),
      RawLdisc.ReceiveMustarBuff fuel
          { mustarFD := some src, sluvaFD := some dst, errs := errs } n =
        some (.ret (), { mustarFD := some src', sluvaFD := some dst', errs := errs' }) ∧
      (k : Int) ≤ n ∧ dst'.wbuf.length = dst.wbuf.length + k ∧
      ((k : Int) < n → ∃ e, errs' = errs ++ [e]) ∧ ((k : Int) = n → errs' = errs)) := by
  obtain ⟨k, written, err, dst', src', hc, h1, h2, h3, h4⟩ :=
    CopyN_returns fuel src dst n hn hfuel
  cases err with
  | none =>
    have hk : (k : Int) = n := by
      by_contra hne
      exact h3 (by omega) rfl
    constructor
    · refine ⟨k, dst', src', errs, ?_, h1, h2, fun hlt => by omega, fun _ => rfl⟩
      simp only [RawLdisc.ReceiveSluvaBuff]
      rw [hc]
    · refine ⟨k, dst', src', errs, ?_, h1, h2, fun hlt => by omega, fun _ => rfl⟩
      simp only [RawLdisc.ReceiveMustarBuff]
      rw [hc]
  | some e =>
    have hk : (k : Int) < n := by
      by_contra hne
      have := h4 (by omega)
      simp at this
    constructor
    · refine ⟨k, dst', src', errs ++ [e], ?_, h1, h2, fun _ => ⟨e, rfl⟩, fun heq => by omega⟩
      simp only [RawLdisc.ReceiveSluvaBuff]
      rw [hc]
    · refine ⟨k, dst', src', errs ++ [e], ?_, h1, h2, fun _ => ⟨e, rfl⟩, fun heq => by omega⟩
      simp only [RawLdisc.ReceiveMustarBuff]
      rw [hc]

/-- Witness of `relay_short_transfer_appends_one_error`: three bytes asked of a
source that holds one. -/
theorem relay_short_transfer_appends_one_error_witness :
    ((0 : Int) < 3 ∧ turns shortSource.rscript ≤ 5) ∧
    ∃ (k : Nat) (dst' src' : FD) (errs' : List GoError),
      RawLdisc.ReceiveSluvaBuff 5
          { mustarFD := some quietEndpoint, sluvaFD := some shortSource, errs := [.ext 1] } 3 =
        some (.ret (), { mustarFD := some dst', sluvaFD := some src', errs := errs' }) ∧
      (k : Int) ≤ 3 ∧ dst'.wbuf.length = quietEndpoint.wbuf.length + k ∧
      ((k : Int) < 3 → ∃ e, errs' = [.ext 1] ++ [e]) ∧ ((k : Int) = 3 → errs' = [.ext 1]) :=
  ⟨⟨by decide, by decide⟩,
    (relay_short_transfer_appends_one_error 5 shortSource quietEndpoint [.ext 1] 3
      (by decide) (by decide)).1⟩

/-! ## The attach client `Read` -/

theorem FD_Read_keeps_written (fd : FD) (n : Nat) :
    (fd.Read n).2.wbuf = fd.wbuf ∧ (fd.Read n).2.wscript = fd.wscript := by
  unfold FD.Read
  split
  · exact ⟨rfl, rfl⟩
  · split <;> exact ⟨rfl, rfl⟩

theorem FD_Write_takes (fd : FD) (p : List Byte) :
    (fd.Write p).2.wscript = fd.wscript.tail ∧
    (fd.wscript = [] → (fd.Write p).2.wbuf = fd.wbuf ++ p) ∧
    (∀ ev rest, fd.wscript = ev :: rest →
      (fd.Write p).2.wbuf = fd.wbuf ++ p.take ev.accept) := by
  unfold FD.Write
  split
  · rename_i h
    exact ⟨by simp [h], fun _ => rfl, fun ev rest h' => by simp [h] at h'⟩
  · rename_i ev0 rest0 h
    refine ⟨by simp [h], fun h' => by simp [h] at h', ?_⟩
    intro ev rest h'
    rw [h] at h'
    cases h'
    simp [List.take_eq_take]

/-- C9: for all strings `sessionID`, `channelID` and `message`, when the dial
succeeds with the connection `c`, `Read` makes exactly one `Write` on `c`, with
the bytes `sessionID ++ " " ++ channelID ++ " " ++ message`: the only `Write`
among its operations has these bytes (first conjunct); the connection it
leaves behind is `c` after that one `Write`, or after that `Write` and the one
`Read` that follows a `Write` without error (second); so one step of the write
script of `c` is used up, and what the far side has received is what it had,
followed by the frame (by the part of the frame that the endpoint took, when
the script of `c` has it take only `accept` bytes). -/
theorem Read_writes_one_frame (DialPipe : GoString → Except GoError FD)
    (sessionID channelID message : GoString) (c : FD)
    (hdial : DialPipe (lit "\\\\.\\pipe\\" ++ lit "ipc_" ++ sessionID) = .ok c) :
    (Read DialPipe sessionID channelID message).ops.filter ConnOp.isWrite =
      [.Write (sessionID ++ [32] ++ channelID ++ [32] ++ message)] ∧
    ((Read DialPipe sessionID channelID message).conn =
        some (c.Write (sessionID ++ [32] ++ channelID ++ [32] ++ message)).2 ∨
      ((c.Write (sessionID ++ [32] ++ channelID ++ [32] ++ message)).1.2 = none ∧
        (Read DialPipe sessionID channelID message).conn =
          some ((c.Write (sessionID ++ [32] ++ channelID ++ [32] ++ message)).2.Read 1024).2)) ∧
    ∃ c', (Read DialPipe sessionID channelID message).conn = some c' ∧
      c'.wscript = c.wscript.tail ∧
      (c.wscript = [] →
        c'.wbuf = c.wbuf ++ (sessionID ++ [32] ++ channelID ++ [32] ++ message)) ∧
      (∀ ev rest, c.wscript = ev :: rest →
        c'.wbuf = c.wbuf ++ (sessionID ++ [32] ++ channelID ++ [32] ++ message).take ev.accept) := by
  have hsp : lit " " = [32] := by decide
  have hT := FD_Write_takes c (sessionID ++ [32] ++ channelID ++ [32] ++ message)
  simp only [Read, hdial, hsp]
  generalize sessionID ++ [32] ++ channelID ++ [32] ++ message = frame at hT ⊢
  rcases hW : c.Write frame with ⟨⟨nw, ew⟩, c1⟩
  rw [hW] at hT
  simp only at hT
  cases ew with
  | some e =>
    exact ⟨by simp [ConnOp.isWrite], Or.inl rfl, c1, rfl, hT⟩
  | none =>
    have hK := FD_Read_keeps_written c1 1024
    rcases hR : c1.Read 1024 with ⟨⟨buf, er⟩, c2⟩
    rw [hR] at hK
    simp only at hK
    have hc2 : c2.wscript = c.wscript.tail ∧ (c.wscript = [] → c2.wbuf = c.wbuf ++ frame) ∧
        (∀ ev rest, c.wscript = ev :: rest → c2.wbuf = c.wbuf ++ frame.take ev.accept) := by
      rw [hK.1, hK.2]
      exact hT
    cases er with
    | some e => exact ⟨by simp [ConnOp.isWrite], Or.inr ⟨rfl, rfl⟩, c2, rfl, hc2⟩
    | none => exact ⟨by simp [ConnOp.isWrite], Or.inr ⟨rfl, rfl⟩, c2, rfl, hc2⟩

/-- Witness of `Read_writes_one_frame`: session `s1`, channel `c1`, message
`ping`; the server behind the pipe has received `s1 c1 ping`. -/
theorem Read_writes_one_frame_witness :
    onePipe (lit "\\\\.\\pipe\\" ++ lit "ipc_" ++ lit "s1") = .ok pongServer ∧
    (Read onePipe (lit "s1") (lit "c1") (lit "ping")).ops.filter ConnOp.isWrite =
      [.Write (lit "s1 c1 ping")] ∧
    ∃ c', (Read onePipe (lit "s1") (lit "c1") (lit "ping")).conn = some c' ∧
      c'.wbuf = lit "s1 c1 ping" :=
  ⟨rfl, (Read_writes_one_frame onePipe (lit "s1") (lit "c1") (lit "ping") pongServer rfl).1,
    match (Read_writes_one_frame onePipe (lit "s1") (lit "c1") (lit "ping") pongServer rfl).2.2
      with
    | ⟨c', h1, _, h3, _⟩ => ⟨c', h1, h3 rfl⟩⟩

/-- C10: when the dial succeeds and the connection's next read has the server
payload `P` to deliver, a successful `Read` (nil error) makes exactly one read
on the connection, into a buffer of 1024 bytes, and returns a string of length
at most 1024: `P` whole when `len(P) ≤ 1024`, the first 1024 bytes of `P` when
`len(P) > 1024`. -/
theorem Read_returns_payload_capped (DialPipe : GoString → Except GoError FD)
    (sessionID channelID message : GoString) (c : FD) (P : List Byte) (e : Option GoError)
    (rest : List ReadEv)
    (hdial : DialPipe (lit "\\\\.\\pipe\\" ++ lit "ipc_" ++ sessionID) = .ok c)
    (hP : c.rscript = { data := P, err := e } :: rest)
    (hok : (Read DialPipe sessionID channelID message).ret.2 = none) :
    (Read DialPipe sessionID channelID message).ops.filter ConnOp.isRead = [.Read 1024] ∧
    (Read DialPipe sessionID channelID message).ret.1.length ≤ 1024 ∧
    (P.length ≤ 1024 → (Read DialPipe sessionID channelID message).ret.1 = P) ∧
    (1024 < P.length → (Read DialPipe sessionID channelID message).ret.1 = P.take 1024) := by
  have hWs : ∀ p, (c.Write p).2.rscript = c.rscript := by
    intro p
    unfold FD.Write
    split <;> rfl
  simp only [Read, hdial] at hok ⊢
  have hW1 := hWs (sessionID ++ lit " " ++ channelID ++ lit " " ++ message)
  rcases hW : c.Write (sessionID ++ lit " " ++ channelID ++ lit " " ++ message) with
    ⟨⟨nw, ew⟩, c1⟩
  rw [hW] at hok hW1
  simp only at hok hW1
  cases ew with
  | some err => simp at hok
  | none =>
    simp only at hok ⊢
    have hR : c1.Read 1024 =
        if P.length ≤ 1024 then ((P, e), { c1 with rscript := rest })
        else ((P.take 1024, none),
              { c1 with rscript := { data := P.drop 1024, err := e } :: rest }) := by
      simp [FD.Read, hW1, hP]
    by_cases hlen : P.length ≤ 1024
    · rw [if_pos hlen] at hR
      rw [hR] at hok ⊢
      cases e with
      | some err => simp at hok
      | none =>
        refine ⟨by simp [ConnOp.isRead, ConnOp.isWrite], by simpa using hlen, fun _ => rfl, ?_⟩
        intro h
        omega
    · rw [if_neg hlen] at hR
      rw [hR]
      refine ⟨by simp [ConnOp.isRead], ?_, fun h => absurd h hlen, fun _ => rfl⟩
      simp

/-- Witness of `Read_returns_payload_capped`: the server of session `s1` answers `pong`. -/
theorem Read_returns_payload_capped_witness :
    (Read onePipe (lit "s1") (lit "c1") (lit "ping")).ret = (lit "pong", none) ∧
    (Read onePipe (lit "s1") (lit "c1") (lit "ping")).ops.filter ConnOp.isRead = [.Read 1024] :=
  ⟨by decide,
    (Read_returns_payload_capped onePipe (lit "s1") (lit "c1") (lit "ping") pongServer
      (lit "pong") none [] rfl rfl (by decide)).1⟩

/-! ## The provider run functions -/

/-- C6: for every provider run function of the sources and every context with
`Rehearsal = true` whose parameters parse (the first decoding step of the
function succeeds), the function returns `(nil, nil)` and leaves the world as
it was: no call on the store, no provider, network or filesystem call is
added to the trace, nothing is allocated. -/
theorem rehearsal_returns_nil_nil_without_calls (env : Env) (w : World) :
    (∀ (ctx : generic.ActionContext) (p : httpRequestParameters), ctx.Rehearsal = true →
      env.jsonUnmarshal .httpRequestParameters ctx.Action.Parameters = .ok p →
      generic.HttpRequest env ctx w = (.ret (none, none), w)) ∧
    (∀ (f : HetznerFunc) (ctx : hetzner.ActionContext) (v : f.paramType.type),
      ctx.Rehearsal = true →
      env.UnmarshalValidJSON f.paramType ctx.Action.Parameters = .ok v →
      f.run env ctx w = (.ret (none, none), w)) := by
  constructor
  · intro ctx p hR hp
    simp [generic.HttpRequest, hp, hR]
  · intro f ctx v hR hp
    cases f <;>
      simp [HetznerFunc.run, HetznerFunc.paramType, hetzner.CreateFirewall,
        hetzner.DeleteFirewall, hetzner.FindFirewalls, hetzner.FindOneFirewall,
        hetzner.ApplyFirewallToResources, hetzner.RemoveFirewallFromResources,
        hetzner.SetRulesFirewall, hetzner.FindISOs, hetzner.FindOneISO, hetzner.theOneISO,
        hR] at hp ⊢ <;>
      simp [hp]

/-- Witness of `rehearsal_returns_nil_nil_without_calls`: `HttpRequest` and
`FindOneFirewall` in rehearsal on the parameters of an empty JSON object. -/
theorem rehearsal_returns_nil_nil_without_calls_witness :
    generic.HttpRequest sampleEnv
        { Rehearsal := true, Action := sampleAction jsonEmpty, Store := storeFailing }
        World.fresh = (.ret (none, none), World.fresh) ∧
    hetzner.FindOneFirewall sampleEnv
        { Rehearsal := true, HClient := clientDown, Action := sampleAction jsonEmpty,
          Store := storeFailing }
        World.fresh = (.ret (none, none), World.fresh) :=
  ⟨(rehearsal_returns_nil_nil_without_calls sampleEnv World.fresh).1
      { Rehearsal := true, Action := sampleAction jsonEmpty, Store := storeFailing }
      { Method := none, Url := none, Headers := [], BodyType := [] } rfl rfl,
    (rehearsal_returns_nil_nil_without_calls sampleEnv World.fresh).2 .FindOneFirewall
      { Rehearsal := true, HClient := clientDown, Action := sampleAction jsonEmpty,
        Store := storeFailing }
      { ID := none } rfl rfl⟩

/-- C7, the code at the failing inputs. On the parameters of an empty JSON
object, where the required `http_verb`, `endpoint` and `body_type` are all
missing, `HttpRequest` in rehearsal returns `(nil, nil)` and not an error; the
same parameters outside rehearsal make it panic on the nil `Method`. On the
parameters of a `raw` request without the required `body`, `HttpRequest` in
rehearsal returns `(nil, nil)` as well; outside rehearsal it returns the error
of the validation of the body. -/
theorem HttpRequest_rehearsal_skips_validation :
    (∃ p, sampleEnv.jsonUnmarshal .httpRequestParameters jsonEmpty = .ok p ∧
      httpRequestParameters.required p = false) ∧
    generic.HttpRequest sampleEnv
        { Rehearsal := true, Action := sampleAction jsonEmpty, Store := storeOK }
        World.fresh = (.ret (none, none), World.fresh) ∧
    (generic.HttpRequest sampleEnv
        { Rehearsal := false, Action := sampleAction jsonEmpty, Store := storeOK }
        World.fresh).1 = .panic "nil pointer dereference" ∧
    generic.HttpRequest sampleEnv
        { Rehearsal := true, Action := sampleAction jsonRawNoBody, Store := storeOK }
        World.fresh = (.ret (none, none), World.fresh) ∧
    generic.HttpRequest sampleEnv
        { Rehearsal := false, Action := sampleAction jsonRawNoBody, Store := storeOK }
        World.fresh = (.ret (none, some (.ext 2)), World.fresh) :=
  ⟨⟨_, rfl, rfl⟩, rfl, rfl, rfl, rfl⟩

set_option maxRecDepth 4000 in
/-- C8, as stated, fails: `HttpRequest` with a `binary` body opens and reads the
body file before it interpolates the header; when that interpolation fails
with `e` the function returns `(nil, e)`, and the two filesystem accesses are
in the trace before the failed store call. The same holds for a `form-data`
body with a part of type `file` (third conjunct): the file is opened, looked
up and read before the store call that fails. -/
theorem HttpRequest_reads_file_before_interpolation :
    generic.HttpRequest sampleEnv
        { Rehearsal := false, Action := sampleAction jsonBinary, Store := storeFailing }
        World.fresh =
      (.ret (none, some (.ext 9)),
        { heap := Heap.empty,
          trace := [.OsOpen (lit "/etc/motd"), .FileReadAll,
                    .StoreInterpolate (some (.ext 9))] }) ∧
    (Call.OsOpen (lit "/etc/motd")).isFilesystem = true ∧
    generic.HttpRequest moreEnv
        { Rehearsal := false, Action := sampleAction jsonFormFile, Store := storeFailing }
        World.fresh =
      (.ret (none, some (.ext 9)),
        { heap := Heap.empty,
          trace := [.OsOpen (lit "/etc/motd"), .FileStat, .FileReadAll, .LogDebug,
                    .StoreInterpolate (some (.ext 9))] }) :=
  ⟨rfl, rfl, rfl⟩

theorem traceOK_noFailure (fs : Bool) (r : Ret) :
    ∀ (t : List Call) (d : Bool), noFailure t → traceOK fs d t r = true := by
  intro t
  induction t with
  | nil => intro d _; rfl
  | cons c rest ih =>
    intro d h
    have hc : c.failure? = none := h c (by simp)
    simp only [traceOK, hc]
    exact ih _ (fun c' hc' => h c' (by simp [hc']))

theorem traceOK_append_quiet (fs : Bool) (r : Ret) (t2 : List Call) :
    ∀ (t1 : List Call) (d : Bool), quiet fs t1 →
      traceOK fs d (t1 ++ t2) r = traceOK fs d t2 r := by
  intro t1
  induction t1 with
  | nil => intro d _; rfl
  | cons c rest ih =>
    intro d h
    obtain ⟨hc1, hc2⟩ := h c (by simp)
    simp only [List.cons_append, traceOK, hc1, hc2, Bool.or_false]
    exact ih _ (fun c' hc' => h c' (by simp [hc']))

theorem traceOK_sound (fs : Bool) (r : Ret) :
    ∀ (t : List Call) (d : Bool), traceOK fs d t r = true →
      ∀ c ∈ t, ∀ e, c.failure? = some e →
        r = .ret (none, some e) ∧ d = false ∧
          ∃ pre, t = pre ++ [c] ∧ quiet fs pre := by
  intro t
  induction t with
  | nil => intro d _ c hc; simp at hc
  | cons c0 rest ih =>
    intro d h c hc e he
    cases h0 : c0.failure? with
    | some e0 =>
      simp only [traceOK, h0, Bool.and_eq_true, Bool.not_eq_true', List.isEmpty_iff,
        decide_eq_true_eq] at h
      obtain ⟨⟨hd, hrest⟩, hr⟩ := h
      subst hrest
      simp only [List.mem_singleton] at hc
      subst hc
      rw [h0] at he
      cases he
      exact ⟨hr, hd, [], rfl, fun c' hc' => by simp at hc'⟩
    | none =>
      simp only [traceOK, h0] at h
      have hcr : c ∈ rest := by
        rcases List.mem_cons.mp hc with hc | hc
        · subst hc
          rw [h0] at he
          cases he
        · exact hc
      obtain ⟨hr, hd, pre, hpre, hq⟩ := ih _ h c hcr e he
      have hd' : d = false ∧ c0.sideEffect fs = false := by
        simpa using hd
      refine ⟨hr, hd'.1, c0 :: pre, by simp [hpre], ?_⟩
      intro c' hc'
      rcases List.mem_cons.mp hc' with hc' | hc'
      · subst hc'
        exact ⟨h0, hd'.2⟩
      · exact hq c' hc'

@[simp] theorem returnNewActionOutput_trace (a : Action) (v : Value) (id : Option GoString)
    (w : World) : (returnNewActionOutput a v id w).2.trace = w.trace := by
  unfold returnNewActionOutput
  split <;> rfl

@[simp] theorem GenericHCloudOutput_trace (env : Env) (ctx : hetzner.ActionContext)
    (response : hcloud.Response) (t : GoType) (w : World) :
    (hetzner.GenericHCloudOutput env ctx response t w).2.trace = w.trace := by
  unfold hetzner.GenericHCloudOutput
  split
  · rfl
  · simp

theorem traceOK_of_result (fs : Bool) (r r' : Ret)
    (hr : ∀ e, r = .ret (none, some e) → r' = .ret (none, some e)) :
    ∀ (t : List Call) (d : Bool), traceOK fs d t r = true → traceOK fs d t r' = true := by
  intro t
  induction t with
  | nil => intro d _; rfl
  | cons c rest ih =>
    intro d h
    cases h0 : c.failure? with
    | some e0 =>
      simp only [traceOK, h0, Bool.and_eq_true, decide_eq_true_eq] at h ⊢
      exact ⟨h.1, hr e0 h.2⟩
    | none =>
      simp only [traceOK, h0] at h ⊢
      exact ih _ h

theorem runsOK_same (fs : Bool) (w : World) (r : Ret) : runsOK fs w (r, w) :=
  ⟨[], by simp, rfl⟩

theorem runsOK_storeFail (fs : Bool) (w : World) (c : Call) (e : GoError)
    (hc : c.failure? = some e) : runsOK fs w (.ret (none, some e), w.log c) :=
  ⟨[c], rfl, by simp [traceOK, hc]⟩

theorem runsOK_noFailure (fs : Bool) (w : World) (res : Ret × World) (new : List Call)
    (h : res.2.trace = w.trace ++ new) (hn : noFailure new) : runsOK fs w res :=
  ⟨new, h, traceOK_noFailure fs _ _ _ hn⟩

theorem CreateFirewall_runsOK (env : Env) (ctx : hetzner.ActionContext) (w : World) :
    runsOK false w (hetzner.CreateFirewall env ctx w) := by
  unfold hetzner.CreateFirewall
  split
  · exact runsOK_same _ _ _
  · split
    · exact runsOK_same _ _ _
    · split
      · exact runsOK_storeFail _ _ _ _ rfl
      · refine ⟨[.StoreDeepInterpolation none, .HCloud "Firewall.Create"], ?_, ?_⟩
        · split <;> simp [World.log]
        · simp [traceOK, Call.failure?]

theorem FindFirewalls_runsOK (env : Env) (ctx : hetzner.ActionContext) (w : World) :
    runsOK false w (hetzner.FindFirewalls env ctx w) := by
  unfold hetzner.FindFirewalls
  split
  · exact runsOK_same _ _ _
  · split
    · exact runsOK_same _ _ _
    · split
      · exact runsOK_storeFail _ _ _ _ rfl
      · refine ⟨[.StoreDeepInterpolation none, .HCloud "Firewall.List"], ?_, ?_⟩
        · split <;> simp [World.log]
        · simp [traceOK, Call.failure?]

theorem FindISOs_runsOK (env : Env) (ctx : hetzner.ActionContext) (w : World) :
    runsOK false w (hetzner.FindISOs env ctx w) := by
  unfold hetzner.FindISOs
  split
  · exact runsOK_same _ _ _
  · split
    · exact runsOK_same _ _ _
    · split
      · exact runsOK_storeFail _ _ _ _ rfl
      · refine ⟨[.StoreDeepInterpolation none, .HCloud "ISO.List"], ?_, ?_⟩
        · split <;> simp [World.log]
        · simp [traceOK, Call.failure?]

theorem DeleteFirewall_runsOK (env : Env) (ctx : hetzner.ActionContext) (w : World) :
    runsOK false w (hetzner.DeleteFirewall env ctx w) := by
  unfold hetzner.DeleteFirewall
  split
  · exact runsOK_same _ _ _
  · split
    · exact runsOK_same _ _ _
    · split
      · exact runsOK_storeFail _ _ _ _ rfl
      · split
        · exact ⟨[.StoreDeepInterpolation none], by simp [World.log],
            by simp [traceOK, Call.failure?]⟩
        · exact ⟨[.StoreDeepInterpolation none], by simp [World.log],
            by simp [traceOK, Call.failure?]⟩
        · refine ⟨[.StoreDeepInterpolation none, .HCloud "Firewall.Delete"], ?_, ?_⟩
          · split <;> simp [World.log]
          · simp [traceOK, Call.failure?]

theorem runsOK_after (fs : Bool) (w w1 w' : World) (r r' : Ret) (h : runsOK fs w (r, w1))
    (ht : w'.trace = w1.trace) (hr : ∀ e, r = .ret (none, some e) → r' = .ret (none, some e)) :
    runsOK fs w (r', w') := by
  obtain ⟨new, h1, h2⟩ := h
  exact ⟨new, by rw [ht]; exact h1, traceOK_of_result fs r r' hr _ _ h2⟩

theorem runsOK_log_quiet (fs : Bool) (w : World) (c : Call) (res : Ret × World)
    (h : runsOK fs (w.log c) res) (h1 : c.failure? = none) (h2 : c.sideEffect fs = false) :
    runsOK fs w res := by
  obtain ⟨new, h3, h4⟩ := h
  refine ⟨c :: new, by simp [h3, World.log], ?_⟩
  simp only [traceOK, h1, h2, Bool.or_false]
  exact h4

theorem ApplyFirewallToResources_runsOK (env : Env) (ctx : hetzner.ActionContext) (w : World) :
    runsOK false w (hetzner.ApplyFirewallToResources env ctx w) := by
  have hq : noFailure [Call.StoreDeepInterpolation none] := by
    intro c hc
    simp at hc
    subst hc
    rfl
  unfold hetzner.ApplyFirewallToResources
  split
  · exact runsOK_same _ _ _
  · split
    · exact runsOK_same _ _ _
    · split
      · exact runsOK_storeFail _ _ _ _ rfl
      · split
        · exact runsOK_noFailure _ _ _ _ rfl hq
        · exact runsOK_noFailure _ _ _ _ rfl hq
        · split
          · exact runsOK_noFailure _ _ _ _ rfl hq
          · exact runsOK_noFailure _ _ _ _ rfl hq
          · refine ⟨[.StoreDeepInterpolation none, .HCloud "Firewall.ApplyResources"], ?_, ?_⟩
            · split <;> simp [World.log]
            · simp [traceOK, Call.failure?]

theorem RemoveFirewallFromResources_runsOK (env : Env) (ctx : hetzner.ActionContext)
    (w : World) : runsOK false w (hetzner.RemoveFirewallFromResources env ctx w) := by
  have hq : noFailure [Call.StoreDeepInterpolation none] := by
    intro c hc
    simp at hc
    subst hc
    rfl
  unfold hetzner.RemoveFirewallFromResources
  split
  · exact runsOK_same _ _ _
  · split
    · exact runsOK_same _ _ _
    · split
      · exact runsOK_storeFail _ _ _ _ rfl
      · split
        · exact runsOK_noFailure _ _ _ _ rfl hq
        · exact runsOK_noFailure _ _ _ _ rfl hq
        · refine ⟨[.StoreDeepInterpolation none, .HCloud "Firewall.RemoveResources"], ?_, ?_⟩
          · split <;> simp [World.log]
          · simp [traceOK, Call.failure?]

theorem SetRulesFirewall_runsOK (env : Env) (ctx : hetzner.ActionContext) (w : World) :
    runsOK false w (hetzner.SetRulesFirewall env ctx w) := by
  have hq : noFailure [Call.StoreDeepInterpolation none] := by
    intro c hc
    simp at hc
    subst hc
    rfl
  unfold hetzner.SetRulesFirewall
  split
  · exact runsOK_same _ _ _
  · split
    · exact runsOK_same _ _ _
    · split
      · exact runsOK_storeFail _ _ _ _ rfl
      · split
        · exact runsOK_noFailure _ _ _ _ rfl hq
        · exact runsOK_noFailure _ _ _ _ rfl hq
        · refine ⟨[.StoreDeepInterpolation none, .HCloud "Firewall.SetRules"], ?_, ?_⟩
          · split <;> simp [World.log]
          · simp [traceOK, Call.failure?]

theorem FindOneISO_runsOK (env : Env) (ctx : hetzner.ActionContext) (w : World) :
    runsOK false w (hetzner.FindOneISO env ctx w) := by
  have h := FindISOs_runsOK env ctx w
  unfold hetzner.FindOneISO
  split
  · rename_i heq
    rw [heq] at h
    exact h
  · rename_i heq
    rw [heq] at h
    refine runsOK_after _ _ _ _ _ _ h rfl ?_
    intro e he
    injection he with he
    injection he with _ he
    rw [he]
  · rename_i aout w1 heq
    rw [heq] at h
    have key : ∀ (r' : Ret) (w' : World), w'.trace = w1.trace → runsOK false w (r', w') := by
      intro r' w' ht
      refine runsOK_after _ _ _ _ _ _ h ht ?_
      intro e he
      injection he with he
      injection he with _ he
      cases he
    split
    · exact key _ _ rfl
    · exact key _ _ (by simp)

theorem FindOneFirewall_runsOK (env : Env) (ctx : hetzner.ActionContext) (w : World) :
    runsOK false w (hetzner.FindOneFirewall env ctx w) := by
  have hq : noFailure [Call.StoreDeepInterpolation none] := by
    intro c hc
    simp at hc
    subst hc
    rfl
  unfold hetzner.FindOneFirewall
  split
  · exact runsOK_same _ _ _
  · split
    · exact runsOK_same _ _ _
    · split
      · exact runsOK_storeFail _ _ _ _ rfl
      · split
        · split
          · exact runsOK_noFailure _ _ _ _ rfl hq
          · refine ⟨[.StoreDeepInterpolation none, .HCloud "Firewall.GetByID"], ?_, ?_⟩
            · split
              · simp [World.log]
              · split <;> simp [World.log]
            · simp [traceOK, Call.failure?]
        · refine runsOK_log_quiet _ _ (.StoreDeepInterpolation none) _ ?_ rfl rfl
          have h := FindFirewalls_runsOK env ctx (w.log (.StoreDeepInterpolation none))
          dsimp only
          split
          · rename_i heq
            rw [heq] at h
            exact h
          · rename_i heq
            rw [heq] at h
            refine runsOK_after _ _ _ _ _ _ h rfl ?_
            intro e he
            injection he with he
            injection he with _ he
            rw [he]
          · rename_i aout w1 heq
            rw [heq] at h
            have key : ∀ (r' : Ret) (w' : World), w'.trace = w1.trace →
                runsOK false (w.log (.StoreDeepInterpolation none)) (r', w') := by
              intro r' w' ht
              refine runsOK_after _ _ _ _ _ _ h ht ?_
              intro e he
              injection he with he
              injection he with _ he
              cases he
            split
            · exact key _ _ rfl
            · exact key _ _ (by simp)

theorem quietly_refl (fs : Bool) (w : World) : quietly fs w w :=
  ⟨[], by simp, fun c hc => by simp at hc⟩

theorem quietly_log (fs : Bool) (w w' : World) (c : Call) (h : quietly fs w w')
    (h1 : c.failure? = none) (h2 : c.sideEffect fs = false) : quietly fs w (w'.log c) := by
  obtain ⟨new, h3, h4⟩ := h
  refine ⟨new ++ [c], by simp [World.log, h3], ?_⟩
  intro c' hc'
  rcases List.mem_append.mp hc' with hc' | hc'
  · exact h4 c' hc'
  · simp only [List.mem_singleton] at hc'
    subst hc'
    exact ⟨h1, h2⟩

theorem quietly_trans (fs : Bool) (w w1 w2 : World) (h : quietly fs w w1)
    (h' : quietly fs w1 w2) : quietly fs w w2 := by
  obtain ⟨n1, h1, h2⟩ := h
  obtain ⟨n2, h3, h4⟩ := h'
  refine ⟨n1 ++ n2, by simp [h3, h1], ?_⟩
  intro c hc
  rcases List.mem_append.mp hc with hc | hc
  · exact h2 c hc
  · exact h4 c hc

theorem multipartLoop_quietly (env : Env) :
    ∀ (parts : List (Option httpBodyMultiPart)) (body : Blob) (w : World),
      quietly true w (generic.multipartLoop env parts body w).2 := by
  intro parts
  induction parts with
  | nil => intro body w; exact quietly_refl _ _
  | cons part rest ih =>
    intro body w
    cases part with
    | none => exact quietly_refl _ _
    | some part =>
      simp only [generic.multipartLoop]
      repeat' split
      all_goals first
        | exact quietly_refl _ _
        | (refine quietly_trans _ _ _ _ ?_ (ih _ _)
           repeat (first | exact quietly_refl _ _ | refine quietly_log _ _ _ _ ?_ rfl rfl))
        | (repeat (first | exact quietly_refl _ _ | refine quietly_log _ _ _ _ ?_ rfl rfl))

theorem urlencodedLoop_quietly :
    ∀ (kvs : List (Option httpBodyUrlencoded)) (fdata : List (GoString × GoString)) (w : World),
      quietly true w (generic.urlencodedLoop kvs fdata w).2 := by
  intro kvs
  induction kvs with
  | nil => intro fdata w; exact quietly_refl _ _
  | cons kv rest ih =>
    intro fdata w
    cases kv with
    | none => exact quietly_refl _ _
    | some kv =>
      simp only [generic.urlencodedLoop]
      split
      · refine quietly_trans _ _ _ _ ?_ (ih _ _)
        exact quietly_log _ _ _ _ (quietly_refl _ _) rfl rfl
      · exact quietly_refl _ _

theorem buildRequest_quietly (env : Env) (ctx : generic.ActionContext)
    (p : httpRequestParameters) (w : World) :
    quietly true w (generic.buildRequest env ctx p w).2 := by
  unfold generic.buildRequest
  dsimp only
  split
  · split
    · exact quietly_refl _ _
    · rename_i param _
      have h := multipartLoop_quietly env param.MultipartBody [] w
      split <;> rename_i heq <;> rw [heq] at h <;> exact h
  · split
    · exact quietly_refl _ _
    · split
      · split
        · exact quietly_refl _ _
        · rename_i param _
          have h := urlencodedLoop_quietly param.UrlEncodedBody [] w
          split <;> rename_i heq <;> rw [heq] at h <;> exact h
      · split
        · split
          · exact quietly_refl _ _
          · split <;> exact quietly_refl _ _
        · split
          · split
            · exact quietly_refl _ _
            · split
              · exact quietly_refl _ _
              · split
                · exact quietly_log _ _ _ _ (quietly_refl _ _) rfl rfl
                · split
                  · exact quietly_log _ _ _ _
                      (quietly_log _ _ _ _ (quietly_refl _ _) rfl rfl) rfl rfl
                  · exact quietly_log _ _ _ _
                      (quietly_log _ _ _ _ (quietly_refl _ _) rfl rfl) rfl rfl
          · exact quietly_refl _ _

theorem headersLoop_spec (env : Env) (ctx : generic.ActionContext) :
    ∀ (hs : List (Option httpHeader)) (req : Request) (w : World),
      (∀ e, (generic.headersLoop env ctx hs req w).1 = .ret (.error e) →
        ∃ w1, quietly true w w1 ∧
          (generic.headersLoop env ctx hs req w).2 = w1.log (.StoreInterpolate (some e))) ∧
      ((∀ e, (generic.headersLoop env ctx hs req w).1 ≠ .ret (.error e)) →
        quietly true w (generic.headersLoop env ctx hs req w).2) := by
  intro hs
  induction hs with
  | nil =>
    intro req w
    exact ⟨fun e he => by simp [generic.headersLoop] at he, fun _ => quietly_refl _ _⟩
  | cons hh rest ih =>
    intro req w
    cases hh with
    | none =>
      exact ⟨fun e he => by simp [generic.headersLoop] at he, fun _ => quietly_refl _ _⟩
    | some hh =>
      simp only [generic.headersLoop]
      split
      · exact ⟨fun e he => by simp at he, fun _ => quietly_refl _ _⟩
      · split
        · exact ih req w
        · split
          · rename_i err _
            constructor
            · intro e he
              simp only [Outcome.ret.injEq, Except.error.injEq] at he
              subst he
              exact ⟨w, quietly_refl _ _, rfl⟩
            · intro hne
              exact absurd rfl (hne err)
          · exact ⟨fun e he => by simp at he,
              fun _ => quietly_log _ _ _ _ (quietly_refl _ _) rfl rfl⟩
          · rename_i value _
            have hq : quietly true w ((w.log (.StoreInterpolate none)).log .LogDebug) :=
              quietly_log _ _ _ _ (quietly_log _ _ _ _ (quietly_refl _ _) rfl rfl) rfl rfl
            obtain ⟨h1, h2⟩ := ih
              { req with Header := Header.Set env req.Header _ value }
              ((w.log (.StoreInterpolate none)).log .LogDebug)
            constructor
            · intro e he
              obtain ⟨w1, hw1, hw2⟩ := h1 e he
              exact ⟨w1, quietly_trans _ _ _ _ hq hw1, hw2⟩
            · intro hne
              exact quietly_trans _ _ _ _ hq (h2 hne)

theorem quiet_noFailure (fs : Bool) (t : List Call) (h : quiet fs t) : noFailure t :=
  fun c hc => (h c hc).1

theorem handleResponse_noFailure (env : Env) (ctx : generic.ActionContext) (resp : Response)
    (w : World) :
    ∃ new, (generic.handleResponse env ctx resp w).2.trace = w.trace ++ new ∧
      noFailure new := by
  have h1 : noFailure [Call.LogDebug] := by
    intro c hc
    simp at hc
    subst hc
    rfl
  have h2 : noFailure [Call.LogDebug, Call.LogDebug, Call.LogDebug] := by
    intro c hc
    simp at hc
    subst hc
    rfl
  have h3 : noFailure [Call.LogDebug, Call.LogDebug] := by
    intro c hc
    simp at hc
    subst hc
    rfl
  unfold generic.handleResponse
  dsimp only
  split
  · exact ⟨_, rfl, h1⟩
  · split
    · split
      · exact ⟨[.LogDebug, .LogDebug], by simp [World.log], h3⟩
      · exact ⟨[.LogDebug, .LogDebug, .LogDebug], by simp [World.log], h2⟩
    · exact ⟨[.LogDebug, .LogDebug, .LogDebug], by simp [World.log], h2⟩

theorem HttpRequest_runsOK (env : Env) (ctx : generic.ActionContext) (w : World) :
    runsOK true w (generic.HttpRequest env ctx w) := by
  unfold generic.HttpRequest
  split
  · exact runsOK_same _ _ _
  · rename_i p _
    split
    · exact runsOK_same _ _ _
    · have hb := buildRequest_quietly env ctx p w
      split
      · rename_i heq
        rw [heq] at hb
        obtain ⟨new, hn1, hn2⟩ := hb
        exact runsOK_noFailure _ _ _ new hn1 (quiet_noFailure _ _ hn2)
      · rename_i heq
        rw [heq] at hb
        obtain ⟨new, hn1, hn2⟩ := hb
        exact runsOK_noFailure _ _ _ new hn1 (quiet_noFailure _ _ hn2)
      · rename_i req w1 heq
        rw [heq] at hb
        simp only at hb
        obtain ⟨hh1, hh2⟩ := headersLoop_spec env ctx p.Headers req w1
        split
        · rename_i heq2
          rw [heq2] at hh2
          obtain ⟨new, hn1, hn2⟩ := quietly_trans _ _ _ _ hb (hh2 (fun e he => by simp at he))
          exact runsOK_noFailure _ _ _ new hn1 (quiet_noFailure _ _ hn2)
        · rename_i err w2 heq2
          rw [heq2] at hh1
          obtain ⟨w3, hw3, hw4⟩ := hh1 err rfl
          obtain ⟨new, hn1, hn2⟩ := quietly_trans _ _ _ _ hb hw3
          simp only at hw4
          refine ⟨new ++ [.StoreInterpolate (some err)], by simp [hw4, World.log, hn1], ?_⟩
          rw [traceOK_append_quiet _ _ _ _ _ hn2]
          simp [traceOK, Call.failure?]
        · rename_i req2 w2 heq2
          rw [heq2] at hh2
          obtain ⟨new, hn1, hn2⟩ := quietly_trans _ _ _ _ hb (hh2 (fun e he => by simp at he))
          simp only at hn1
          have hdo : noFailure (new ++ [Call.HttpDo]) := by
            intro c hc
            rcases List.mem_append.mp hc with hc | hc
            · exact (hn2 c hc).1
            · simp only [List.mem_singleton] at hc
              subst hc
              rfl
          dsimp only
          split
          · exact runsOK_noFailure _ _ _ (new ++ [.HttpDo]) (by simp [World.log, hn1]) hdo
          · rename_i resp _
            obtain ⟨new3, hr1, hr2⟩ :=
              handleResponse_noFailure env ctx resp (w2.log .HttpDo)
            refine runsOK_noFailure _ _ _ (new ++ [.HttpDo] ++ new3)
              (by rw [hr1]; simp [World.log, hn1]) ?_
            intro c hc
            rcases List.mem_append.mp hc with hc | hc
            · exact hdo c hc
            · exact hr2 c hc

theorem HetznerFunc_runsOK (f : HetznerFunc) (env : Env) (ctx : hetzner.ActionContext)
    (w : World) : runsOK false w (f.run env ctx w) := by
  cases f
  · exact CreateFirewall_runsOK env ctx w
  · exact DeleteFirewall_runsOK env ctx w
  · exact FindFirewalls_runsOK env ctx w
  · exact FindOneFirewall_runsOK env ctx w
  · exact ApplyFirewallToResources_runsOK env ctx w
  · exact RemoveFirewallFromResources_runsOK env ctx w
  · exact SetRulesFirewall_runsOK env ctx w
  · exact FindISOs_runsOK env ctx w
  · exact FindOneISO_runsOK env ctx w

theorem runsOK_fresh_sound (fs : Bool) (h : Heap Value) (res : Ret × World)
    (hres : runsOK fs { heap := h, trace := [] } res) (c : Call) (e : GoError)
    (hc : c.failure? = some e) (hmem : c ∈ res.2.trace) :
    res.1 = .ret (none, some e) ∧ ∃ pre, res.2.trace = pre ++ [c] ∧ quiet fs pre := by
  obtain ⟨new, h1, h2⟩ := hres
  simp only [List.nil_append] at h1
  rw [h1] at hmem ⊢
  obtain ⟨hr, _, pre, hpre, hq⟩ := traceOK_sound fs res.1 new false h2 c hmem e hc
  exact ⟨hr, pre, hpre, hq⟩

theorem multipartLoop_quietly_strict (env : Env) :
    ∀ (parts : List (Option httpBodyMultiPart)) (body : Blob) (w : World),
      (∀ x, some x ∈ parts → x.PType ≠ PartTypeFile) →
      quietly false w (generic.multipartLoop env parts body w).2 := by
  intro parts
  induction parts with
  | nil => intro body w _; exact quietly_refl _ _
  | cons part rest ih =>
    intro body w hparts
    have hrest : ∀ x, some x ∈ rest → x.PType ≠ PartTypeFile :=
      fun x hx => hparts x (List.mem_cons_of_mem _ hx)
    cases part with
    | none => exact quietly_refl _ _
    | some part =>
      have hne : part.PType ≠ PartTypeFile := hparts part (List.mem_cons_self _ _)
      simp only [generic.multipartLoop, if_neg hne]
      repeat' split
      all_goals first
        | exact quietly_refl _ _
        | exact ih _ _ hrest
        | (refine quietly_trans _ _ _ _ ?_ (ih _ _ hrest)
           exact quietly_log _ _ _ _ (quietly_refl _ _) rfl rfl)

theorem urlencodedLoop_quietly_strict :
    ∀ (kvs : List (Option httpBodyUrlencoded)) (fdata : List (GoString × GoString)) (w : World),
      quietly false w (generic.urlencodedLoop kvs fdata w).2 := by
  intro kvs
  induction kvs with
  | nil => intro fdata w; exact quietly_refl _ _
  | cons kv rest ih =>
    intro fdata w
    cases kv with
    | none => exact quietly_refl _ _
    | some kv =>
      simp only [generic.urlencodedLoop]
      split
      · refine quietly_trans _ _ _ _ ?_ (ih _ _)
        exact quietly_log _ _ _ _ (quietly_refl _ _) rfl rfl
      · exact quietly_refl _ _

theorem bodyNamesFile_parts (env : Env) (ctx : generic.ActionContext)
    (p : httpRequestParameters) (param : httpRequestParametersMultiPartBody)
    (hb : generic.bodyNamesFile env ctx p = false) (hF : p.BodyType = BodyTypeFormData)
    (hparam : env.UnmarshalValidJSON .httpRequestParametersMultiPartBody
      ctx.Action.Parameters = .ok param) :
    ∀ x, some x ∈ param.MultipartBody → x.PType ≠ PartTypeFile := by
  intro x hx hfile
  simp only [generic.bodyNamesFile, hF, if_true, hparam] at hb
  have := List.any_eq_false.mp hb (some x) hx
  simp [hfile] at this

theorem buildRequest_quietly_strict (env : Env) (ctx : generic.ActionContext)
    (p : httpRequestParameters) (w : World)
    (hb : generic.bodyNamesFile env ctx p = false) :
    quietly false w (generic.buildRequest env ctx p w).2 := by
  unfold generic.buildRequest
  dsimp only
  split
  · rename_i hF
    split
    · exact quietly_refl _ _
    · rename_i param hparam
      have h := multipartLoop_quietly_strict env param.MultipartBody [] w
        (bodyNamesFile_parts env ctx p param hb hF hparam)
      split <;> rename_i heq <;> rw [heq] at h <;> exact h
  · rename_i hF
    split
    · exact quietly_refl _ _
    · split
      · split
        · exact quietly_refl _ _
        · rename_i param _
          have h := urlencodedLoop_quietly_strict param.UrlEncodedBody [] w
          split <;> rename_i heq <;> rw [heq] at h <;> exact h
      · split
        · split
          · exact quietly_refl _ _
          · split <;> exact quietly_refl _ _
        · split
          · rename_i hB
            unfold generic.bodyNamesFile at hb
            rw [if_neg hF] at hb
            simp [hB] at hb
          · exact quietly_refl _ _

theorem headersLoop_spec_strict (env : Env) (ctx : generic.ActionContext) :
    ∀ (hs : List (Option httpHeader)) (req : Request) (w : World),
      (∀ e, (generic.headersLoop env ctx hs req w).1 = .ret (.error e) →
        ∃ w1, quietly false w w1 ∧
          (generic.headersLoop env ctx hs req w).2 = w1.log (.StoreInterpolate (some e))) ∧
      ((∀ e, (generic.headersLoop env ctx hs req w).1 ≠ .ret (.error e)) →
        quietly false w (generic.headersLoop env ctx hs req w).2) := by
  intro hs
  induction hs with
  | nil =>
    intro req w
    exact ⟨fun e he => by simp [generic.headersLoop] at he, fun _ => quietly_refl _ _⟩
  | cons hh rest ih =>
    intro req w
    cases hh with
    | none =>
      exact ⟨fun e he => by simp [generic.headersLoop] at he, fun _ => quietly_refl _ _⟩
    | some hh =>
      simp only [generic.headersLoop]
      split
      · exact ⟨fun e he => by simp at he, fun _ => quietly_refl _ _⟩
      · split
        · exact ih req w
        · split
          · rename_i err _
            constructor
            · intro e he
              simp only [Outcome.ret.injEq, Except.error.injEq] at he
              subst he
              exact ⟨w, quietly_refl _ _, rfl⟩
            · intro hne
              exact absurd rfl (hne err)
          · exact ⟨fun e he => by simp at he,
              fun _ => quietly_log _ _ _ _ (quietly_refl _ _) rfl rfl⟩
          · rename_i value _
            have hq : quietly false w ((w.log (.StoreInterpolate none)).log .LogDebug) :=
              quietly_log _ _ _ _ (quietly_log _ _ _ _ (quietly_refl _ _) rfl rfl) rfl rfl
            obtain ⟨h1, h2⟩ := ih
              { req with Header := Header.Set env req.Header _ value }
              ((w.log (.StoreInterpolate none)).log .LogDebug)
            constructor
            · intro e he
              obtain ⟨w1, hw1, hw2⟩ := h1 e he
              exact ⟨w1, quietly_trans _ _ _ _ hq hw1, hw2⟩
            · intro hne
              exact quietly_trans _ _ _ _ hq (h2 hne)

theorem HttpRequest_runsOK_strict (env : Env) (ctx : generic.ActionContext) (w : World)
    (hfile : ∀ p, env.jsonUnmarshal .httpRequestParameters ctx.Action.Parameters = .ok p →
      generic.bodyNamesFile env ctx p = false) :
    runsOK false w (generic.HttpRequest env ctx w) := by
  unfold generic.HttpRequest
  split
  · exact runsOK_same _ _ _
  · rename_i p hp
    split
    · exact runsOK_same _ _ _
    · have hb := buildRequest_quietly_strict env ctx p w (hfile p hp)
      split
      · rename_i heq
        rw [heq] at hb
        obtain ⟨new, hn1, hn2⟩ := hb
        exact runsOK_noFailure _ _ _ new hn1 (quiet_noFailure _ _ hn2)
      · rename_i heq
        rw [heq] at hb
        obtain ⟨new, hn1, hn2⟩ := hb
        exact runsOK_noFailure _ _ _ new hn1 (quiet_noFailure _ _ hn2)
      · rename_i req w1 heq
        rw [heq] at hb
        simp only at hb
        obtain ⟨hh1, hh2⟩ := headersLoop_spec_strict env ctx p.Headers req w1
        split
        · rename_i heq2
          rw [heq2] at hh2
          obtain ⟨new, hn1, hn2⟩ := quietly_trans _ _ _ _ hb (hh2 (fun e he => by simp at he))
          exact runsOK_noFailure _ _ _ new hn1 (quiet_noFailure _ _ hn2)
        · rename_i err w2 heq2
          rw [heq2] at hh1
          obtain ⟨w3, hw3, hw4⟩ := hh1 err rfl
          obtain ⟨new, hn1, hn2⟩ := quietly_trans _ _ _ _ hb hw3
          simp only at hw4
          refine ⟨new ++ [.StoreInterpolate (some err)], by simp [hw4, World.log, hn1], ?_⟩
          rw [traceOK_append_quiet _ _ _ _ _ hn2]
          simp [traceOK, Call.failure?]
        · rename_i req2 w2 heq2
          rw [heq2] at hh2
          obtain ⟨new, hn1, hn2⟩ := quietly_trans _ _ _ _ hb (hh2 (fun e he => by simp at he))
          simp only at hn1
          have hdo : noFailure (new ++ [Call.HttpDo]) := by
            intro c hc
            rcases List.mem_append.mp hc with hc | hc
            · exact (hn2 c hc).1
            · simp only [List.mem_singleton] at hc
              subst hc
              rfl
          dsimp only
          split
          · exact runsOK_noFailure _ _ _ (new ++ [.HttpDo]) (by simp [World.log, hn1]) hdo
          · rename_i resp _
            obtain ⟨new3, hr1, hr2⟩ :=
              handleResponse_noFailure env ctx resp (w2.log .HttpDo)
            refine runsOK_noFailure _ _ _ (new ++ [.HttpDo] ++ new3)
              (by rw [hr1]; simp [World.log, hn1]) ?_
            intro c hc
            rcases List.mem_append.mp hc with hc | hc
            · exact hdo c hc
            · exact hr2 c hc

/-- C8 (amended): for every provider run function of the sources run with
`Rehearsal = false` from a fresh trace: if a call `c` on the store failed with
error `e`, the function returns `(nil, e)`, `c` is the last call of the trace,
and before it there is no network request and no cloud API call. There is no
filesystem access before it either, for the Hetzner run functions and for
`HttpRequest` unless the body names a file (`body_type` is `binary`, or it is
`form-data` with a part of type `file`). -/
theorem interpolation_failure_returns_before_network_and_cloud_calls (env : Env)
    (h : Heap Value) (e : GoError) (c : Call) (hc : c.failure? = some e) :
    (∀ ctx : generic.ActionContext, ctx.Rehearsal = false →
      c ∈ (generic.HttpRequest env ctx { heap := h, trace := [] }).2.trace →
      (generic.HttpRequest env ctx { heap := h, trace := [] }).1 = .ret (none, some e) ∧
      ∃ pre, (generic.HttpRequest env ctx { heap := h, trace := [] }).2.trace = pre ++ [c] ∧
        (∀ c' ∈ pre, c'.isNetwork = false ∧ c'.isCloud = false) ∧
        ((∀ p, env.jsonUnmarshal .httpRequestParameters ctx.Action.Parameters = .ok p →
            generic.bodyNamesFile env ctx p = false) →
          ∀ c' ∈ pre, c'.isFilesystem = false)) ∧
    (∀ (f : HetznerFunc) (ctx : hetzner.ActionContext), ctx.Rehearsal = false →
      c ∈ (f.run env ctx { heap := h, trace := [] }).2.trace →
      (f.run env ctx { heap := h, trace := [] }).1 = .ret (none, some e) ∧
      ∃ pre, (f.run env ctx { heap := h, trace := [] }).2.trace = pre ++ [c] ∧
        ∀ c' ∈ pre, c'.isNetwork = false ∧ c'.isCloud = false ∧ c'.isFilesystem = false) := by
  constructor
  · intro ctx _ hmem
    obtain ⟨hr, pre, hpre, hq⟩ :=
      runsOK_fresh_sound true h _ (HttpRequest_runsOK env ctx _) c e hc hmem
    refine ⟨hr, pre, hpre, ?_, ?_⟩
    · intro c' hc'
      have := (hq c' hc').2
      simpa [Call.sideEffect] using this
    · intro hfile c' hc'
      obtain ⟨_, pre2, hpre2, hq2⟩ :=
        runsOK_fresh_sound false h _ (HttpRequest_runsOK_strict env ctx _ hfile) c e hc hmem
      have hsame : pre = pre2 := List.append_cancel_right (hpre.symm.trans hpre2)
      subst hsame
      have := (hq2 c' hc').2
      simp only [Call.sideEffect, Bool.not_false, Bool.true_and, Bool.or_eq_false_iff] at this
      exact this.2
  · intro f ctx _ hmem
    obtain ⟨hr, pre, hpre, hq⟩ :=
      runsOK_fresh_sound false h _ (HetznerFunc_runsOK f env ctx _) c e hc hmem
    refine ⟨hr, pre, hpre, ?_⟩
    intro c' hc'
    have := (hq c' hc').2
    simpa [Call.sideEffect, and_assoc] using this

/-- Witness of `interpolation_failure_returns_before_network_and_cloud_calls`:
`HttpRequest` with a header to interpolate and a store that knows no variable,
once with a `binary` body and once without a body; without a body nothing
comes before the store call that failed. -/
theorem interpolation_failure_returns_before_network_and_cloud_calls_witness :
    (Call.StoreInterpolate (some (.ext 9))).failure? = some (.ext 9) ∧
    (generic.HttpRequest sampleEnv
        { Rehearsal := false, Action := sampleAction jsonBinary, Store := storeFailing }
        { heap := Heap.empty, trace := [] }).1 = .ret (none, some (.ext 9)) ∧
    (∃ pre, (generic.HttpRequest moreEnv
        { Rehearsal := false, Action := sampleAction jsonNoBody, Store := storeFailing }
        { heap := Heap.empty, trace := [] }).2.trace =
          pre ++ [.StoreInterpolate (some (.ext 9))] ∧
      ∀ c' ∈ pre, c'.isFilesystem = false) :=
  by
  have hfile : ∀ p, moreEnv.jsonUnmarshal .httpRequestParameters jsonNoBody = .ok p →
      generic.bodyNamesFile moreEnv
        { Rehearsal := false, Action := sampleAction jsonNoBody, Store := storeFailing } p =
          false := by
    intro p hp
    have hq : moreEnv.jsonUnmarshal .httpRequestParameters jsonNoBody = .ok
        { Method := some (lit "GET"), Url := some (lit "http://h/"),
          Headers := [some { Key := some (lit "X-Token"),
                             Value := some (lit "\x7b\x7b token \x7d\x7d") }],
          BodyType := BodyTypeNone } := rfl
    rw [hq] at hp
    cases hp
    rfl
  obtain ⟨pre, h1, _, h3⟩ :=
    ((interpolation_failure_returns_before_network_and_cloud_calls moreEnv Heap.empty
        (.ext 9) (.StoreInterpolate (some (.ext 9))) rfl).1
      { Rehearsal := false, Action := sampleAction jsonNoBody, Store := storeFailing } rfl
      (by decide)).2
  exact ⟨rfl,
    ((interpolation_failure_returns_before_network_and_cloud_calls sampleEnv Heap.empty
        (.ext 9) (.StoreInterpolate (some (.ext 9))) rfl).1
      { Rehearsal := false, Action := sampleAction jsonBinary, Store := storeFailing } rfl
      (by decide)).1,
    pre, h1, h3 hfile⟩


/-- C11: `Read` returns `("", err)` with `err` the error of the failing operation
whenever the dial (first conjunct), the write (second) or the read (third)
fails; it returns a nil error only when all three succeed (fourth); and per
call it makes exactly one dial, at most one write and at most one read, no
write after a failed dial and no read after a failed write. -/
theorem Read_surfaces_first_failure (DialPipe : GoString → Except GoError FD)
    (ipsid ipcid msg : GoString) :
    (∀ e, DialPipe (lit "\\\\.\\pipe\\" ++ lit "ipc_" ++ ipsid) = .error e →
      (Read DialPipe ipsid ipcid msg).ret = ([], some e) ∧
      (Read DialPipe ipsid ipcid msg).ops.filter ConnOp.isWrite = [] ∧
      (Read DialPipe ipsid ipcid msg).ops.filter ConnOp.isRead = []) ∧
    (∀ c e, DialPipe (lit "\\\\.\\pipe\\" ++ lit "ipc_" ++ ipsid) = .ok c →
      (c.Write (ipsid ++ lit " " ++ ipcid ++ lit " " ++ msg)).1.2 = some e →
      (Read DialPipe ipsid ipcid msg).ret = ([], some e) ∧
      (Read DialPipe ipsid ipcid msg).ops.filter ConnOp.isRead = []) ∧
    (∀ c e, DialPipe (lit "\\\\.\\pipe\\" ++ lit "ipc_" ++ ipsid) = .ok c →
      (c.Write (ipsid ++ lit " " ++ ipcid ++ lit " " ++ msg)).1.2 = none →
      ((c.Write (ipsid ++ lit " " ++ ipcid ++ lit " " ++ msg)).2.Read 1024).1.2 = some e →
      (Read DialPipe ipsid ipcid msg).ret = ([], some e)) ∧
    ((Read DialPipe ipsid ipcid msg).ret.2 = none →
      ∃ c, DialPipe (lit "\\\\.\\pipe\\" ++ lit "ipc_" ++ ipsid) = .ok c ∧
        (c.Write (ipsid ++ lit " " ++ ipcid ++ lit " " ++ msg)).1.2 = none ∧
        ((c.Write (ipsid ++ lit " " ++ ipcid ++ lit " " ++ msg)).2.Read 1024).1.2 = none) ∧
    ((Read DialPipe ipsid ipcid msg).ops.filter ConnOp.isDial).length = 1 ∧
    ((Read DialPipe ipsid ipcid msg).ops.filter ConnOp.isWrite).length ≤ 1 ∧
    ((Read DialPipe ipsid ipcid msg).ops.filter ConnOp.isRead).length ≤ 1 := by
  simp only [Read]
  generalize lit "\\\\.\\pipe\\" ++ lit "ipc_" ++ ipsid = path
  generalize ipsid ++ lit " " ++ ipcid ++ lit " " ++ msg = frame
  cases hD : DialPipe path with
  | error e0 =>
    simp [ConnOp.isWrite, ConnOp.isRead, ConnOp.isDial]
  | ok c =>
    rcases hW : c.Write frame with ⟨⟨nw, ew⟩, c1⟩
    cases ew with
    | some e1 =>
      simp [hW, ConnOp.isWrite, ConnOp.isRead, ConnOp.isDial]
      exact ⟨fun c' e hc => by subst hc; simp [hW], fun c' e hc => by subst hc; simp [hW]⟩
    | none =>
      rcases hR : c1.Read 1024 with ⟨⟨buf, er⟩, c2⟩
      cases er <;> simp [hW, hR, ConnOp.isWrite, ConnOp.isRead, ConnOp.isDial] <;>
        exact ⟨fun c' e hc => by subst hc; simp [hW],
          fun c' e hc => by subst hc; simp [hW, hR]⟩

/-- Witness of `Read_surfaces_first_failure`: without a server the dial fails and
`Read` returns its error. -/
theorem Read_surfaces_first_failure_witness :
    dialNowhere (lit "\\\\.\\pipe\\" ++ lit "ipc_" ++ lit "s1") = .error (.ext 2) ∧
    (Read dialNowhere (lit "s1") (lit "c1") (lit "ping")).ret = ([], some (.ext 2)) :=
  ⟨rfl, ((Read_surfaces_first_failure dialNowhere (lit "s1") (lit "c1") (lit "ping")).1
    (.ext 2) rfl).1⟩

theorem append_left_cancel_of_eq {α : Type} (p a b : List α) (h : p ++ a = p ++ b) : a = b :=
  List.append_cancel_left h

/-- C12: the attach address is a function of the session identifier alone. For
every session id `s`, with `P` the named-pipe prefix, then `ipc_`, then `s`:
the server (`IPC.listen` with `uuid = s`) returns what `ListenPipe` gives for
`P` (first conjunct), so it listens on `P` (second); `Read(s, channelID,
message)` dials this same path, whatever `channelID` and `message` are (third):
it returns the error of `DialPipe` at `P` when that dial fails (fourth), it
writes to the connection that `DialPipe` gives for `P` when it succeeds
(fifth), and its result is the same in every pipe namespace that agrees with
`DialPipe` at `P` (sixth); and two session ids with the same path are the same
(seventh). -/
theorem attach_path_is_function_of_session (ListenPipe : GoString → Except GoError Listener)
    (DialPipe : GoString → Except GoError FD) (s channelID message : GoString) :
    (IPC.listen ListenPipe { uuid := s }).ret =
      ListenPipe (lit "\\\\.\\pipe\\" ++ lit "ipc_" ++ s) ∧
    (IPC.listen ListenPipe { uuid := s }).path = lit "\\\\.\\pipe\\" ++ lit "ipc_" ++ s ∧
    (Read DialPipe s channelID message).ops.filter ConnOp.isDial =
      [.Dial ((IPC.listen ListenPipe { uuid := s }).path)] ∧
    (∀ e, DialPipe (lit "\\\\.\\pipe\\" ++ lit "ipc_" ++ s) = .error e →
      (Read DialPipe s channelID message).ret = ([], some e) ∧
      (Read DialPipe s channelID message).conn = none) ∧
    (∀ c, DialPipe (lit "\\\\.\\pipe\\" ++ lit "ipc_" ++ s) = .ok c →
      ∃ c', (Read DialPipe s channelID message).conn = some c' ∧
        c'.wbuf = (c.Write (s ++ lit " " ++ channelID ++ lit " " ++ message)).2.wbuf) ∧
    (∀ DialPipe2 : GoString → Except GoError FD,
      DialPipe2 (lit "\\\\.\\pipe\\" ++ lit "ipc_" ++ s) =
        DialPipe (lit "\\\\.\\pipe\\" ++ lit "ipc_" ++ s) →
      Read DialPipe2 s channelID message = Read DialPipe s channelID message) ∧
    (∀ s', (IPC.listen ListenPipe { uuid := s }).path =
        (IPC.listen ListenPipe { uuid := s' }).path → s = s') := by
  have hpath : ∀ t, (IPC.listen ListenPipe { uuid := t }).path =
      lit "\\\\.\\pipe\\" ++ lit "ipc_" ++ t := by
    intro t
    unfold IPC.listen
    dsimp only
    split <;> rfl
  have hret : (IPC.listen ListenPipe { uuid := s }).ret =
      ListenPipe (lit "\\\\.\\pipe\\" ++ lit "ipc_" ++ s) := by
    unfold IPC.listen
    dsimp only
    split <;> rename_i heq <;> rw [heq]
  refine ⟨hret, hpath s, ?_, ?_, ?_, ?_, ?_⟩
  · rw [hpath s]
    simp only [Read]
    generalize lit "\\\\.\\pipe\\" ++ lit "ipc_" ++ s = path
    generalize s ++ lit " " ++ channelID ++ lit " " ++ message = frame
    cases hD : DialPipe path with
    | error e0 => simp [ConnOp.isDial]
    | ok c =>
      rcases hW : c.Write frame with ⟨⟨nw, ew⟩, c1⟩
      cases ew with
      | some e1 => simp [hW, ConnOp.isDial]
      | none =>
        rcases hR : c1.Read 1024 with ⟨⟨buf, er⟩, c2⟩
        cases er <;> simp [hW, hR, ConnOp.isDial]
  · intro e hD
    simp only [Read, hD]
    exact ⟨trivial, trivial⟩
  · intro c hD
    simp only [Read, hD]
    generalize s ++ lit " " ++ channelID ++ lit " " ++ message = frame
    rcases hW : c.Write frame with ⟨⟨nw, ew⟩, c1⟩
    cases ew with
    | some e1 => exact ⟨c1, rfl, rfl⟩
    | none =>
      have hK := FD_Read_keeps_written c1 1024
      rcases hR : c1.Read 1024 with ⟨⟨buf, er⟩, c2⟩
      rw [hR] at hK
      cases er with
      | some e2 => exact ⟨c2, rfl, hK.1⟩
      | none => exact ⟨c2, rfl, hK.1⟩
  · intro DialPipe2 h
    simp only [Read, h]
  · intro s' h
    rw [hpath s, hpath s'] at h
    exact append_left_cancel_of_eq _ _ _ h

/-- Witness of `attach_path_is_function_of_session`: the server of session `s1`
gets the listener on the path of `s1`, and the sessions `s1` and `s2` do not
share a path. -/
theorem attach_path_is_function_of_session_witness :
    (IPC.listen listenAnywhere { uuid := lit "s1" }).ret =
      .ok { path := lit "\\\\.\\pipe\\ipc_s1" } ∧
    (IPC.listen listenAnywhere { uuid := lit "s1" }).path = lit "\\\\.\\pipe\\ipc_s1" ∧
    (IPC.listen listenAnywhere { uuid := lit "s1" }).path ≠
      (IPC.listen listenAnywhere { uuid := lit "s2" }).path :=
  ⟨(attach_path_is_function_of_session listenAnywhere dialAnywhere (lit "s1") [] []).1,
    (attach_path_is_function_of_session listenAnywhere dialAnywhere (lit "s1") [] []).2.1,
    fun h => absurd
      ((attach_path_is_function_of_session listenAnywhere dialAnywhere (lit "s1") [] []).2.2.2.2.2.2
        (lit "s2") h) (by decide)⟩

/-- C14: the attach request framing is ambiguous when a field holds the
separator: the triples `("s1", "c", "d m")` and `("s1", "c d", "m")` differ,
have the same session id, the message of the first holds a space, and `Read`
writes the same bytes for both: the `Write` of each call has the bytes
`s1 c d m`, and these are the bytes the server behind the pipe has received
after each call. -/
theorem attach_frame_is_ambiguous :
    (lit "s1", lit "c", lit "d m") ≠ (lit "s1", lit "c d", lit "m") ∧
    (32 : Byte) ∈ lit "d m" ∧
    (Read onePipe (lit "s1") (lit "c") (lit "d m")).ops.filter ConnOp.isWrite =
      [.Write (lit "s1 c d m")] ∧
    (Read onePipe (lit "s1") (lit "c d") (lit "m")).ops.filter ConnOp.isWrite =
      [.Write (lit "s1 c d m")] ∧
    (onePipe (lit "\\\\.\\pipe\\ipc_s1")).toOption.map FD.wbuf = some [] ∧
    (Read onePipe (lit "s1") (lit "c") (lit "d m")).conn.map FD.wbuf =
      some (lit "s1 c d m") ∧
    (Read onePipe (lit "s1") (lit "c d") (lit "m")).conn.map FD.wbuf =
      some (lit "s1 c d m") := by
  decide


/-- C15: for every non-nil action, value `v` and optional id, the record built by
`NewActionOutput` carries the value as it is: `RawSource` and `Value` are both
`v`, and `ValueID` is `*id` when `id` is not nil and the empty string when it
is nil. -/
theorem NewActionOutput_value_untransformed {Val : Type} (h : Heap Val) (a : Action) (v : Val)
    (id : Option GoString) :
    ∃ p out r rec, (NewActionOutput h (some a) v id).1 = .ret p ∧
      (NewActionOutput h (some a) v id).2.output? p = some out ∧
      out.Records = [r] ∧
      (NewActionOutput h (some a) v id).2.record? r = some rec ∧
      rec.RawSource = v ∧ rec.Value = v ∧
      rec.ValueID = (match id with
        | some text => text
        | none => []) := by
  rw [NewActionOutput_some]
  refine ⟨h.outputs.length, { Action := some a, Records := [h.records.length] },
    h.records.length, _, rfl, get?_append_length _ _, rfl, get?_append_length _ _, rfl, rfl, ?_⟩
  cases id <;> rfl

theorem Read_ops_write_eq (DialPipe : GoString → Except GoError FD)
    (ipsid ipcid msg : GoString) (c : FD)
    (hdial : DialPipe (lit "\\\\.\\pipe\\" ++ lit "ipc_" ++ ipsid) = .ok c) :
    (Read DialPipe ipsid ipcid msg).ops.filter ConnOp.isWrite =
      [.Write (ipsid ++ [32] ++ ipcid ++ [32] ++ msg)] := by
  have hsp : lit " " = [32] := by decide
  simp only [Read, hdial, hsp]
  rcases hW : c.Write (ipsid ++ [32] ++ ipcid ++ [32] ++ msg) with ⟨⟨nw, ew⟩, c1⟩
  cases ew with
  | some e => simp [ConnOp.isWrite]
  | none =>
    rcases hR : c1.Read 1024 with ⟨⟨buf, er⟩, c2⟩
    cases er <;> simp [hR, ConnOp.isWrite]

theorem split_at_first_space :
    ∀ (a b x y : List Byte), (32 : Byte) ∉ a → (32 : Byte) ∉ b →
      a ++ 32 :: x = b ++ 32 :: y → a = b ∧ x = y := by
  intro a
  induction a with
  | nil =>
    intro b x y _ hb h
    cases b with
    | nil => simpa using h
    | cons b0 bs =>
      simp only [List.nil_append, List.cons_append, List.cons.injEq] at h
      exact absurd (h.1 ▸ List.mem_cons_self _ _) hb
  | cons a0 as ih =>
    intro b x y ha hb h
    cases b with
    | nil =>
      simp only [List.nil_append, List.cons_append, List.cons.injEq] at h
      exact absurd (h.1 ▸ List.mem_cons_self _ _) ha
    | cons b0 bs =>
      simp only [List.cons_append, List.cons.injEq] at h
      obtain ⟨h1, h2⟩ :=
        ih bs x y (fun hm => ha (List.mem_cons_of_mem _ hm))
          (fun hm => hb (List.mem_cons_of_mem _ hm)) h.2
      exact ⟨by rw [h.1, h1], h2⟩

/-- C19: when neither `sessionID` nor `channelID` holds a space, the request
frame `Read` writes determines the triple: if two calls whose dials succeed
write the same bytes, with no space in `s1`, `c1`, `s2`, `c2`, then `s1 = s2`,
`c1 = c2` and `m1 = m2`, whatever the messages are. -/
theorem frame_determines_triple (DialPipe : GoString → Except GoError FD)
    (s1 c1 m1 s2 c2 m2 : GoString) (conn1 conn2 : FD)
    (hd1 : DialPipe (lit "\\\\.\\pipe\\" ++ lit "ipc_" ++ s1) = .ok conn1)
    (hd2 : DialPipe (lit "\\\\.\\pipe\\" ++ lit "ipc_" ++ s2) = .ok conn2)
    (hs1 : (32 : Byte) ∉ s1) (hc1 : (32 : Byte) ∉ c1)
    (hs2 : (32 : Byte) ∉ s2) (hc2 : (32 : Byte) ∉ c2)
    (hframe : (Read DialPipe s1 c1 m1).ops.filter ConnOp.isWrite =
      (Read DialPipe s2 c2 m2).ops.filter ConnOp.isWrite) :
    s1 = s2 ∧ c1 = c2 ∧ m1 = m2 := by
  rw [Read_ops_write_eq DialPipe s1 c1 m1 conn1 hd1,
    Read_ops_write_eq DialPipe s2 c2 m2 conn2 hd2] at hframe
  simp only [List.cons.injEq, ConnOp.Write.injEq, and_true, List.append_assoc,
    List.singleton_append] at hframe
  obtain ⟨h1, h2⟩ := split_at_first_space s1 s2 _ _ hs1 hs2 hframe
  obtain ⟨h3, h4⟩ := split_at_first_space c1 c2 _ _ hc1 hc2 h2
  exact ⟨h1, h3, h4⟩

/-- Witness of `frame_determines_triple`: two calls on session `s1` with the
same channel and the same message, a message that holds spaces. -/
theorem frame_determines_triple_witness :
    ((32 : Byte) ∉ lit "s1" ∧ (32 : Byte) ∉ lit "c1") ∧
    (lit "s1" = lit "s1" ∧ lit "c1" = lit "c1" ∧ lit "a b c" = lit "a b c") :=
  ⟨⟨by decide, by decide⟩,
    frame_determines_triple onePipe (lit "s1") (lit "c1") (lit "a b c") (lit "s1") (lit "c1")
      (lit "a b c") pongServer pongServer rfl rfl (by decide) (by decide) (by decide)
      (by decide) rfl⟩


/-! ## `RawLdisc.Close` and the cancellation of a node -/

/-- C13, as stated, fails: `Close` on a line discipline with both endpoints bound
returns nil, makes no call on the mustar endpoint and none on the sluva
endpoint, and leaves both endpoints bound as they were. -/
theorem Close_closes_no_endpoint :
    boundLdisc.mustarFD ≠ none ∧ boundLdisc.sluvaFD ≠ none ∧
    boundLdisc.Close.1 = none ∧
    EndpointCall.CloseMustar ∉ boundLdisc.Close.2.2 ∧
    EndpointCall.CloseSluva ∉ boundLdisc.Close.2.2 ∧
    boundLdisc.Close.2.1 = boundLdisc := by
  decide

/-- C13 (amended): `Close` returns a nil error and has no effect: it leaves the
line discipline and its endpoints as they are and makes no call on them; so
it can be called any number of times, and every call returns nil. -/
theorem Close_returns_nil_without_effect (r : RawLdisc) (n : Nat) :
    r.Close = (none, r, []) ∧
    RawLdisc.CloseTimes n r = (List.replicate n none, r, []) := by
  refine ⟨rfl, ?_⟩
  induction n with
  | zero => rfl
  | succ k ih =>
    simp only [RawLdisc.CloseTimes, RawLdisc.Close, ih, List.replicate_succ, List.append_nil]

/-- C16: calling `Cancel(err1)` and then `Cancel(err2)` on a node that has not
been cancelled leaves the recorded cause equal to `err1`, and the `done`
signal has fired exactly once: once after the first call, and still once
after the second. -/
theorem Cancel_first_cause_wins (n : Node) (err1 err2 : GoError)
    (hcause : n.cancelCause = none) (hdone : n.doneFired = 0) :
    ((n.Cancel err1).Cancel err2).cancelCause = some err1 ∧
    (n.Cancel err1).doneFired = 1 ∧
    ((n.Cancel err1).Cancel err2).doneFired = 1 := by
  simp [Node.Cancel, hcause, hdone]

/-- Witness of `Cancel_first_cause_wins`: a fresh node cancelled twice. -/
theorem Cancel_first_cause_wins_witness :
    (freshNode.cancelCause = none ∧ freshNode.doneFired = 0) ∧
    ((freshNode.Cancel (.ext 1)).Cancel (.ext 2)).cancelCause = some (.ext 1) ∧
    ((freshNode.Cancel (.ext 1)).Cancel (.ext 2)).doneFired = 1 :=
  ⟨⟨rfl, rfl⟩,
    (Cancel_first_cause_wins freshNode (.ext 1) (.ext 2) rfl rfl).1,
    (Cancel_first_cause_wins freshNode (.ext 1) (.ext 2) rfl rfl).2.2⟩


/-! ## `FindOneISO` -/

/-- What `FindISOs` returns and leaves in the world when every step succeeds. -/
theorem FindISOs_success (env : Env) (ctx : hetzner.ActionContext) (w : World)
    (input input' : SDKValue) (response : hcloud.Response) (body : Blob)
    (raw : ISOListResponseWithMeta) (hR : ctx.Rehearsal = false)
    (hparse : env.UnmarshalValidJSON .ISOListOpts ctx.Action.Parameters = .ok input)
    (hint : ctx.Store.DeepInterpolation .ISOListOpts input = .ok input')
    (hcall : ctx.HClient.ISOList input' = .ok response)
    (hbody : response.Body = .ok body)
    (hdec : env.UnmarshalValidJSON .ISOListResponseWithMeta body = .ok raw) :
    hetzner.FindISOs env ctx w =
      (.ret (some w.heap.outputs.length, none),
        { heap :=
            { outputs := w.heap.outputs ++
                [{ Action := some ctx.Action, Records := [w.heap.records.length] }],
              records := w.heap.records ++
                [{ Action := some ctx.Action,
                   RawSource := Value.ptr GoType.ISOListResponseWithMeta raw,
                   Value := Value.ptr GoType.ISOListResponseWithMeta raw,
                   ValueID := [], RefName := ctx.Action.Output.getD [],
                   Aout := some w.heap.outputs.length }] },
          trace := w.trace ++ [.StoreDeepInterpolation none, .HCloud "ISO.List"] }) := by
  simp only [hetzner.FindISOs, hparse, hR, hint, hcall, hetzner.GenericHCloudOutput,
    hetzner.UnmarshallHCloudToSchema, hbody, hdec, returnNewActionOutput,
    NewActionOutput_some, World.log]
  simp

/-- C17: `FindOneISO` with `Rehearsal = false`, once the parameters are decoded
and interpolated: an error of the list call is returned unchanged with a nil
output (first conjunct); when the list call returns a list of `k` ISOs, the
result is `(nil, "no iso found")` for `k = 0`, `(nil, "too many results")` for
`k > 1`, and for `k = 1` a new output with exactly one record, whose `Value`
is that ISO and whose `ValueID` is the decimal text of its `ID`. -/
theorem FindOneISO_succeeds_on_exactly_one_match (env : Env) (ctx : hetzner.ActionContext)
    (w : World) (input input' : SDKValue) (hR : ctx.Rehearsal = false)
    (hparse : env.UnmarshalValidJSON .ISOListOpts ctx.Action.Parameters = .ok input)
    (hint : ctx.Store.DeepInterpolation .ISOListOpts input = .ok input') :
    (∀ e, ctx.HClient.ISOList input' = .error e →
      (hetzner.FindOneISO env ctx w).1 = .ret (none, some e)) ∧
    (∀ (response : hcloud.Response) (body : Blob) (raw : ISOListResponseWithMeta)
        (list : schema.ISOListResponse),
      ctx.HClient.ISOList input' = .ok response → response.Body = .ok body →
      env.UnmarshalValidJSON .ISOListResponseWithMeta body = .ok raw →
      raw.ISOListResponse = some list →
      (list.ISOs.length = 0 →
        (hetzner.FindOneISO env ctx w).1 = .ret (none, some (.errorf "no iso found"))) ∧
      (1 < list.ISOs.length →
        (hetzner.FindOneISO env ctx w).1 = .ret (none, some (.errorf "too many results"))) ∧
      (∀ iso, list.ISOs = [iso] →
        ∃ p out r rec, (hetzner.FindOneISO env ctx w).1 = .ret (some p, none) ∧
          (hetzner.FindOneISO env ctx w).2.heap.output? p = some out ∧
          out.Records = [r] ∧
          (hetzner.FindOneISO env ctx w).2.heap.record? r = some rec ∧
          rec.Value = Value.ISO iso ∧ rec.ValueID = formatInt iso.ID)) := by
  constructor
  · intro e hcall
    simp [hetzner.FindOneISO, hetzner.FindISOs, hparse, hR, hint, hcall]
  · intro response body raw list hcall hbody hdec hlist
    have hF := FindISOs_success env ctx w input input' response body raw hR hparse hint hcall
      hbody hdec
    have hone : ∀ w1 : World,
        w1.heap.outputs = w.heap.outputs ++
          [{ Action := some ctx.Action, Records := [w.heap.records.length] }] →
        w1.heap.records = w.heap.records ++
          [{ Action := some ctx.Action,
             RawSource := Value.ptr GoType.ISOListResponseWithMeta raw,
             Value := Value.ptr GoType.ISOListResponseWithMeta raw,
             ValueID := [], RefName := ctx.Action.Output.getD [],
             Aout := some w.heap.outputs.length }] →
        hetzner.theOneISO ctx (some w.heap.outputs.length) w1 =
          if list.ISOs.length > 1 then .error (.ret (none, some (.errorf "too many results")))
          else if list.ISOs.length ≤ 0 then
            .error (.ret (none, some (.errorf "no iso found")))
          else
            match list.ISOs.head? with
            | none => .error (.panic "index out of range")
            | some iso => .ok iso := by
      intro w1 ho hr
      simp [hetzner.theOneISO, hR, Heap.output?, Heap.record?, ho, hr, get?_append_length,
        hlist]
    simp only [hetzner.FindOneISO, hF]
    rw [hone _ rfl rfl]
    refine ⟨?_, ?_, ?_⟩
    · intro h0
      simp [h0]
    · intro h1
      simp [h1]
    · intro iso hiso
      simp only [hiso, List.length_singleton, gt_iff_lt, lt_self_iff_false, if_false,
        List.head?_cons, returnNewActionOutput, NewActionOutput_some]
      simp only [Nat.le_zero_eq, Nat.succ_ne_zero, if_false, one_ne_zero]
      exact ⟨_, _, _, _, rfl, get?_append_length _ _, rfl, get?_append_length _ _, rfl, rfl⟩

/-- Witness of `FindOneISO_succeeds_on_exactly_one_match`: the list call answers
with the one ISO of id 4711. -/
theorem FindOneISO_succeeds_on_exactly_one_match_witness :
    (hetzner.FindOneISO isoEnv isoContext World.fresh).1 = .ret (some 1, none) ∧
    ((hetzner.FindOneISO isoEnv isoContext World.fresh).2.heap.record? 1).map
      (fun rec => rec.ValueID) = some (lit "4711") ∧
    ∃ p out r rec, (hetzner.FindOneISO isoEnv isoContext World.fresh).1 = .ret (some p, none) ∧
      (hetzner.FindOneISO isoEnv isoContext World.fresh).2.heap.output? p = some out ∧
      out.Records = [r] ∧
      (hetzner.FindOneISO isoEnv isoContext World.fresh).2.heap.record? r = some rec ∧
      rec.Value = Value.ISO { ID := 4711, Other := { data := [] } } ∧
      rec.ValueID = formatInt 4711 :=
  ⟨rfl, rfl,
    ((FindOneISO_succeeds_on_exactly_one_match isoEnv isoContext World.fresh { data := [] }
        { data := [] } rfl rfl rfl).2
      { Body := .ok jsonOneISO } jsonOneISO
      { ISOListResponse := some { ISOs := [{ ID := 4711, Other := { data := [] } }] },
        Meta := { data := [] } }
      { ISOs := [{ ID := 4711, Other := { data := [] } }] } rfl rfl rfl rfl).2.2
      { ID := 4711, Other := { data := [] } } rfl⟩


/-! ## `strconv.ParseInt` and the `unwrap` methods -/

/-- C20 fails on the code: `HttpRequest` answered with a successful response of
unknown length (`ContentLength = -1`) that carries the body `hello` returns an
output whose `Body` is the empty string, not `hello` (first conjunct); the
same response declaring `ContentLength = 5` gives the `Body` `hello` (second
conjunct). `Status` and `StatusCode` are the ones of the response in both. -/
theorem HttpRequest_drops_body_of_unknown_length :
    outputValue (generic.HttpRequest (answeringEnv chunkedResponse)
        { Rehearsal := false, Action := sampleAction jsonBinary, Store := storeOK }
        World.fresh) =
      some (.httpRequestOutput
        { Status := lit "200 OK", StatusCode := 200, Headers := [], Body := [] }) ∧
    outputValue (generic.HttpRequest (answeringEnv { chunkedResponse with ContentLength := 5 })
        { Rehearsal := false, Action := sampleAction jsonBinary, Store := storeOK }
        World.fresh) =
      some (.httpRequestOutput
        { Status := lit "200 OK", StatusCode := 200, Headers := [], Body := lit "hello" }) ∧
    chunkedResponse.Body = .ok (lit "hello") ∧ chunkedResponse.ContentLength = -1 :=
  ⟨rfl, rfl, rfl, rfl⟩


/-! ## The dispatch table `ActionFuncMap` of the Hetzner provider -/

/-- The map literal `ActionFuncMap` has 56 entries and no key twice. -/
theorem ActionFuncMap_keys_nodup :
    hetzner.ActionFuncMap.length = 56 ∧ (hetzner.ActionFuncMap.map Prod.fst).Nodup := by
  decide

/-- C21 fails on the code: the keys `delete_image` and `findone_image` differ and
`ActionFuncMap` dispatches both to the same function, `FindOneImage` (first
three conjuncts). The rest of the claim holds: every entry has the next-type
`NextOKKO`, and two entries with different keys and the same function are
these two. -/
theorem ActionFuncMap_delete_image_dispatches_to_FindOneImage :
    lit "delete_image" ≠ lit "findone_image" ∧
    hetzner.ActionFuncMap.get? (lit "delete_image") =
      some { F := .FindOneImage, N := .NextOKKO } ∧
    hetzner.ActionFuncMap.get? (lit "findone_image") =
      some { F := .FindOneImage, N := .NextOKKO } ∧
    (∀ e ∈ hetzner.ActionFuncMap, e.2.N = .NextOKKO) ∧
    (∀ e1 ∈ hetzner.ActionFuncMap, ∀ e2 ∈ hetzner.ActionFuncMap,
      e1.1 ≠ e2.1 → e1.2.F = e2.2.F →
        e1.2.F = .FindOneImage ∧
        (e1.1 = lit "delete_image" ∨ e1.1 = lit "findone_image")) := by
  decide

end Nebulant
